import Mathlib

/-!
# OS350 `dumbvm` (assignment A3): frame allocator and address spaces

A shallow embedding of `src/A3/dumbvm.c`, compiled with `OPT_A3` on and with
the coremap live (`coremapCreated == true`): the frame table `coremap`, the
allocator `getppages` / `free_kpages`, and the address-space operations built
on them.  Addresses are 32-bit machine words, modelled as natural numbers
reduced modulo `2 ^ 32` where the C arithmetic can wrap; `int` values are
integers reduced into the signed 32-bit range.

The last part embeds the intersection of assignment A1 (`src/A1/traffic_synch.c`):
the array of vehicles inside and the two operations that change it.
-/

namespace OS350

/-! ## Machine constants and integer conversions -/

/-- Modelled from the spec: `PAGE_SIZE` of the missing header `vm.h`; the source
comment "always have 48k of user stack" for `DUMBVM_STACKPAGES = 12` fixes it to 4096. -/
def PAGE_SIZE : Nat := 4096

/-- Modelled from the spec: `MIPS_KSEG0` of the missing header `vm.h`, the base of the
direct-mapped kernel segment of the MIPS address map. -/
def MIPS_KSEG0 : Nat := 2147483648

/-- The constant `DUMBVM_STACKPAGES` (dumbvm.c line 45). -/
def DUMBVM_STACKPAGES : Nat := 12

/-- Reduction of a value to an unsigned 32-bit word (`paddr_t`, `vaddr_t`, `unsigned`). -/
def u32 (x : Nat) : Nat := x % 4294967296

/-- Conversion of an integer to the C type `int` (signed, 32 bits, two's complement). -/
def toInt32 (x : Int) : Int := (x + 2147483648) % 4294967296 - 2147483648

/-- Modelled from the spec: the macro `PADDR_TO_KVADDR` of the missing header `vm.h`,
which adds `MIPS_KSEG0` to a physical address (32-bit addition). -/
def PADDR_TO_KVADDR (paddr : Nat) : Nat := u32 (MIPS_KSEG0 + paddr)

/-! ## The frame table -/

/-- The globals of dumbvm.c once `vm_bootstrap` has run: `coremap[0 .. totalFrames)`
(one `int` tag per frame) and `startaddr`, the physical address of frame 0.
`totalFrames` is the length of `coremap`. -/
structure VM where
  coremap : List Int
  startaddr : Nat
deriving DecidableEq, Repr

/-- The global `totalFrames`. -/
def VM.totalFrames (vm : VM) : Nat := vm.coremap.length

/-- Physical address of frame `i`: the expression `startaddr + (i*PAGE_SIZE)`. -/
def VM.frameAddr (vm : VM) (i : Nat) : Nat := u32 (vm.startaddr + u32 (i * PAGE_SIZE))

/-- Layout established at boot: `startaddr` is page-aligned and the managed frames
`[startaddr, startaddr + totalFrames * PAGE_SIZE)` lie in the part of physical memory
that `PADDR_TO_KVADDR` maps without wrapping. -/
def VM.WF (vm : VM) : Prop :=
  vm.startaddr % PAGE_SIZE = 0 ∧ vm.startaddr + vm.coremap.length * PAGE_SIZE ≤ MIPS_KSEG0

instance (vm : VM) : Decidable vm.WF := by
  unfold VM.WF; infer_instance

/-- Frames `s .. s+n-1` exist and are all tagged `0` (free). -/
def FreeRun (cm : List Int) (s n : Nat) : Prop := ∀ j, j < n → cm[s + j]? = some 0

instance (cm : List Int) (s n : Nat) : Decidable (FreeRun cm s n) := by
  unfold FreeRun; infer_instance

/-- Frames `s .. s+k-1` exist and all carry the tag `k`. -/
def TaggedRun (cm : List Int) (s k : Nat) : Prop := ∀ j, j < k → cm[s + j]? = some (k : Int)

instance (cm : List Int) (s k : Nat) : Decidable (TaggedRun cm s k) := by
  unfold TaggedRun; infer_instance

/-- The scan loop of `getppages` (lines 91-101), started at index `i` on the frames
`coremap[i ..]` with the current values of `pagesNeeded` and `start`; it returns the
final `(pagesNeeded, start)`.  `pagesNeeded--` is an `int` decrement. -/
def getppages_scan (npages : Nat) : List Int → Nat → Int → Nat → Int × Nat
  | [], _, pagesNeeded, start => (pagesNeeded, start)
  | c :: rest, i, pagesNeeded, start =>
    if c = 0 then
      if toInt32 (pagesNeeded - 1) = 0 then (0, start)
      else getppages_scan npages rest (i + 1) (toInt32 (pagesNeeded - 1)) start
    else getppages_scan npages rest (i + 1) (toInt32 npages) (i + 1)

/-- The loop `for (i = 0; i < count; ++i) coremap[start+i] = v;` (lines 109-111 and
156-159).  A store past the end of the table falls outside the modelled state. -/
def fillRun (cm : List Int) (start : Nat) (v : Int) : Nat → List Int
  | 0 => cm
  | k + 1 => (fillRun cm start v k).set (start + k) v

/-- The function `getppages` (lines 78-125) on the live coremap.  `npages` is an
`unsigned long` (below `2 ^ 32`); `ENOMEM` is the errno constant of the missing header
`kern/errno.h`, returned in place of an address when the scan fails. -/
def getppages (ENOMEM : Nat) (vm : VM) (npages : Nat) : Nat × VM :=
  let r := getppages_scan npages vm.coremap 0 (toInt32 npages) 0
  if r.1 ≠ 0 then (ENOMEM, vm)
  else (vm.frameAddr r.2, { vm with coremap := fillRun vm.coremap r.2 (toInt32 npages) npages })

/-- The search loop of `free_kpages` (lines 153-154): the first frame index `i`, among
`remaining` indices from `i` on, whose kernel virtual address equals `addr`. -/
def free_find (vm : VM) (addr : Nat) : Nat → Nat → Option Nat
  | _, 0 => none
  | i, remaining + 1 =>
    if PADDR_TO_KVADDR (vm.frameAddr i) = addr then some i
    else free_find vm addr (i + 1) remaining

/-- The function `free_kpages` (lines 142-170) on the live coremap. -/
def free_kpages (vm : VM) (addr : Nat) : VM :=
  if addr = 0 then vm
  else
    match free_find vm addr 0 vm.totalFrames with
    | none => vm
    | some i =>
      let contiguousBlocks := vm.coremap.getD i 0
      { vm with coremap := fillRun vm.coremap i 0 contiguousBlocks.toNat }

/-! ## Call sequences on the allocator -/

/-- One call of the allocator interface: `getppages(npages)` or `free_kpages(addr)`. -/
inductive Call where
  | allocate (npages : Nat)
  | free (addr : Nat)
deriving DecidableEq, Repr

/-- The allocator state together with the list of live runs: the runs returned by
`getppages` and not yet handed back to `free_kpages`, each recorded as
`(index of its first frame, length)`. -/
structure Sys where
  vm : VM
  live : List (Nat × Nat)
deriving DecidableEq, Repr

/-- The state `vm_bootstrap` leaves (lines 71-74): every one of the `totalFrames` tags
is `0`, and no run is live. -/
def Sys.boot (totalFrames startaddr : Nat) : Sys :=
  ⟨⟨List.replicate totalFrames 0, startaddr⟩, []⟩

/-- Effect of one call.  A successful `getppages` adds the run it returned (the frame
index is recovered from the returned address); `free_kpages` removes the runs that
start at the freed address. -/
def Sys.step (ENOMEM : Nat) (σ : Sys) : Call → Sys
  | .allocate npages =>
    let r := getppages ENOMEM σ.vm npages
    if r.1 = ENOMEM then ⟨r.2, σ.live⟩
    else ⟨r.2, σ.live ++ [((r.1 - σ.vm.startaddr) / PAGE_SIZE, npages)]⟩
  | .free addr =>
    ⟨free_kpages σ.vm addr,
      σ.live.filter (fun r => decide (PADDR_TO_KVADDR (σ.vm.frameAddr r.1) ≠ addr))⟩

/-- The interface contract of a call: `getppages` is asked for a positive number of
pages (an `unsigned long`), and `free_kpages` is not given the address of a frame of a
live run other than its first (any other address is admitted: the start of a live run,
a free frame, a run already freed, an address of no frame). -/
def Sys.Admits (σ : Sys) : Call → Prop
  | .allocate npages => 0 < npages ∧ npages < 4294967296
  | .free addr => ∀ r ∈ σ.live, ∀ j, r.1 + 1 ≤ j → j < r.1 + r.2 →
      PADDR_TO_KVADDR (σ.vm.frameAddr j) ≠ addr

instance (σ : Sys) (c : Call) : Decidable (σ.Admits c) := by
  cases c <;> unfold Sys.Admits <;> infer_instance

/-- The state after a sequence of calls. -/
def Sys.run (ENOMEM : Nat) (σ : Sys) : List Call → Sys
  | [] => σ
  | c :: cs => Sys.run ENOMEM (σ.step ENOMEM c) cs

/-- Every call of the sequence respects the interface contract in the state it is made in. -/
def Sys.Valid (ENOMEM : Nat) (σ : Sys) : List Call → Prop
  | [] => True
  | c :: cs => σ.Admits c ∧ Sys.Valid ENOMEM (σ.step ENOMEM c) cs

instance Sys.decidableValid (ENOMEM : Nat) : (σ : Sys) → (cs : List Call) →
    Decidable (σ.Valid ENOMEM cs)
  | _, [] => isTrue trivial
  | σ, c :: cs =>
    have := Sys.decidableValid ENOMEM (σ.step ENOMEM c) cs
    inferInstanceAs (Decidable (σ.Admits c ∧ Sys.Valid ENOMEM (σ.step ENOMEM c) cs))

/-- Two runs occupy disjoint frame-index ranges. -/
def RunsDisjoint (a b : Nat × Nat) : Prop := a.1 + a.2 ≤ b.1 ∨ b.1 + b.2 ≤ a.1

instance (a b : Nat × Nat) : Decidable (RunsDisjoint a b) := by
  unfold RunsDisjoint; infer_instance

/-- The number of frames tagged `0`. -/
def freeCount (cm : List Int) : Nat := cm.count 0

/-- The sum of the lengths of the live runs. -/
def liveFrames (live : List (Nat × Nat)) : Nat := (live.map Prod.snd).sum

/-- The allocator invariant: boot layout, every live run is non-empty and carries its
length as tag on each of its frames, live runs are pairwise disjoint, every frame with
a non-zero tag lies in a live run, and free frames plus frames of live runs make up the
whole table. -/
structure Sys.Inv (σ : Sys) : Prop where
  wf : σ.vm.WF
  tagged : ∀ r ∈ σ.live, 0 < r.2 ∧ TaggedRun σ.vm.coremap r.1 r.2
  disjoint : σ.live.Pairwise RunsDisjoint
  covered : ∀ j t, σ.vm.coremap[j]? = some t → t ≠ 0 →
    ∃ r ∈ σ.live, r.1 ≤ j ∧ j < r.1 + r.2
  count : freeCount σ.vm.coremap + liveFrames σ.live = σ.vm.coremap.length

/-! ## Address spaces -/

/-- The fields of `struct addrspace` that dumbvm.c uses (the declaration, in
`addrspace.h`, is not among the sources).  The three frame tables are `kmalloc`ed
arrays of physical addresses; `none` stands for a `NULL` table pointer. -/
structure addrspace where
  as_vbase1 : Nat
  as_pbase1 : Option (List Nat)
  as_npages1 : Nat
  as_vbase2 : Nat
  as_pbase2 : Option (List Nat)
  as_npages2 : Nat
  as_stackpbase : Option (List Nat)
  complete : Bool
  readable : Bool
  writeable : Bool
  executable : Bool
deriving DecidableEq, Repr

/-- Kernel memory as bytes indexed by kernel virtual address. -/
abbrev Mem := Nat → Nat

/-- Modelled from the spec: the kernel library routine `bzero` (not among the sources),
which "zero-fills" the `len` bytes starting at `p`. -/
def bzero (mem : Mem) (p len : Nat) : Mem :=
  fun a => if p ≤ a ∧ a < p + len then 0 else mem a

/-- The function `as_zero_region` (lines 460-465). -/
def as_zero_region (mem : Mem) (paddr npages : Nat) : Mem :=
  bzero mem (PADDR_TO_KVADDR paddr) (npages * PAGE_SIZE)

/-- The loop `for (i = 0; i < n; ++i) tbl[i] = getppages(1);` of `as_prepare_load`
(lines 479-481, 489-491, 500-502), with `remaining` iterations left from index `i`.
The value `getppages` returns is stored as it is. -/
def bind_frames (ENOMEM : Nat) : Nat → Nat → VM → List Nat → List Nat × VM
  | _, 0, vm, tbl => (tbl, vm)
  | i, remaining + 1, vm, tbl =>
    bind_frames ENOMEM (i + 1) remaining (getppages ENOMEM vm 1).2
      (tbl.set i (getppages ENOMEM vm 1).1)

/-- The loop `for (x = 0; x < n; ++x) as_zero_region(tbl[x], 1);` of `as_prepare_load`
(lines 510-518), with `remaining` iterations left from index `x`. -/
def zero_frames : Nat → Nat → List Nat → Mem → Mem
  | _, 0, _, mem => mem
  | x, remaining + 1, tbl, mem =>
    zero_frames (x + 1) remaining tbl (as_zero_region mem (tbl.getD x 0) 1)

/-- The function `as_prepare_load` (lines 466-525), returning the result code, the
address space, the allocator state and the memory; `none` is a kernel trap.
The `KASSERT`s require the two region tables to exist and the stack table not to.
The tests of lines 485, 495 and 506 compare the table pointers with `0` (`isNone`).
`kmallocOk` tells whether the `kmalloc` of the stack table (line 499) succeeds; `kmalloc`
(not among the sources) is modelled by its result only, and on `NULL` the store of
line 501, which precedes the test of line 506, goes through the null pointer. -/
def as_prepare_load (ENOMEM : Nat) (kmallocOk : Bool) (as : addrspace) (vm : VM) (mem : Mem) :
    Option (Nat × addrspace × VM × Mem) :=
  match as.as_pbase1, as.as_pbase2, as.as_stackpbase with
  | some t1, some t2, none =>
    let r1 := bind_frames ENOMEM 0 as.as_npages1 vm t1
    let as1 := { as with as_pbase1 := some r1.1 }
    if as1.as_pbase1.isNone then some (ENOMEM, as1, r1.2, mem)
    else
      let r2 := bind_frames ENOMEM 0 as.as_npages2 r1.2 t2
      let as2 := { as1 with as_pbase2 := some r2.1 }
      if as2.as_pbase2.isNone then some (ENOMEM, as2, r2.2, mem)
      else if kmallocOk then
        let r3 := bind_frames ENOMEM 0 DUMBVM_STACKPAGES r2.2
          (List.replicate DUMBVM_STACKPAGES 0)
        let as3 := { as2 with as_stackpbase := some r3.1 }
        if as3.as_stackpbase.isNone then some (ENOMEM, as3, r3.2, mem)
        else
          let m1 := zero_frames 0 as.as_npages1 r1.1 mem
          let m2 := zero_frames 0 as.as_npages2 r2.1 m1
          let m3 := zero_frames 0 DUMBVM_STACKPAGES r3.1 m2
          some (0, as3, r3.2, m3)
      else none
  | _, _, _ => none

/-- What two calls of `as_define_region` leave and `as_prepare_load` asserts: both
region tables are allocated, with one entry per page, and the stack table is not. -/
def addrspace.RegionsDefined (as : addrspace) : Prop :=
  as.as_pbase1.map List.length = some as.as_npages1 ∧
  as.as_pbase2.map List.length = some as.as_npages2 ∧
  as.as_stackpbase = none

instance (as : addrspace) : Decidable as.RegionsDefined := by
  unfold addrspace.RegionsDefined; infer_instance

/-- The state `vm2` arises from `vm` by tagging the frames `frames`, pairwise distinct
and free in `vm`, as runs of length 1, every other tag being kept. -/
structure FramesBound (vm vm2 : VM) (frames : List Nat) : Prop where
  startaddr : vm2.startaddr = vm.startaddr
  length : vm2.coremap.length = vm.coremap.length
  nodup : frames.Nodup
  free : ∀ f ∈ frames, vm.coremap[f]? = some 0
  tags : ∀ j, vm2.coremap[j]? = if j ∈ frames then some 1 else vm.coremap[j]?
  count : freeCount vm2.coremap + frames.length = freeCount vm.coremap

/-! ## Region definition, load completion, teardown -/

/-- Modelled from the spec: the mask `PAGE_FRAME` of the missing header `vm.h`, the
page-number bits `0xfffff000` of a 32-bit address. -/
def PAGE_FRAME : Nat := 4294963200

/-- Bitwise complement of a 32-bit word (the C operator `~` on `uint32_t`). -/
def bnot32 (x : Nat) : Nat := 4294967295 - x

/-- Modelled from the spec: `kmalloc` (not among the sources) asked for a table of `n`
physical addresses, by its result only: `NULL`, or a fresh array of `n` entries (their
content, indeterminate in C, is `0` here). -/
def kmalloc_table (ok : Bool) (n : Nat) : Option (List Nat) :=
  if ok then some (List.replicate n 0) else none

/-- The function `as_create` (lines 329-356).  `raw` is what `kmalloc` returned: `none`
for `NULL`, else the fresh block, whose permission flags `as_create` does not set. -/
def as_create (raw : Option addrspace) : Option addrspace :=
  match raw with
  | none => none
  | some as =>
    some { as with as_pbase1 := none, as_pbase2 := none, as_stackpbase := none,
                   as_vbase1 := 0, as_npages1 := 0, as_vbase2 := 0, as_npages2 := 0,
                   complete := false }

/-- The function `as_define_region` (lines 404-459), returning the result code and the
address space.  `vaddr` and `sz` are 32-bit words, the three flags are `int`s; `EUNIMP`
is the errno constant of the missing header `kern/errno.h`; `kmallocOk` tells whether
the `kmalloc` of the region table succeeds. -/
def as_define_region (EUNIMP : Nat) (kmallocOk : Bool) (as : addrspace) (vaddr sz : Nat)
    (readable writeable executable : Int) : Nat × addrspace :=
  let sz1 := u32 (sz + (vaddr &&& bnot32 PAGE_FRAME))
  let vaddr1 := vaddr &&& PAGE_FRAME
  let sz2 := u32 (sz1 + PAGE_SIZE - 1) &&& PAGE_FRAME
  let npages := sz2 / PAGE_SIZE
  let as1 := { as with readable := decide (readable ≠ 0),
                       writeable := decide (writeable ≠ 0),
                       executable := decide (executable ≠ 0) }
  if as1.as_vbase1 = 0 then
    (0, { as1 with as_vbase1 := vaddr1, as_npages1 := npages,
                   as_pbase1 := kmalloc_table kmallocOk npages })
  else if as1.as_vbase2 = 0 then
    (0, { as1 with as_vbase2 := vaddr1, as_npages2 := npages,
                   as_pbase2 := kmalloc_table kmallocOk npages })
  else (EUNIMP, as1)

/-- The function `as_complete_load` (lines 526-531): `(void)as; return 0;`. -/
def as_complete_load (as : addrspace) : Nat × addrspace := (0, as)

/-- The loop `for (i = 0; i < n; i++) free_kpages(PADDR_TO_KVADDR(tbl[i]));` of
`as_destroy` (lines 361-369), with `remaining` iterations left from index `i`. -/
def free_frames : Nat → Nat → List Nat → VM → VM
  | _, 0, _, vm => vm
  | i, remaining + 1, tbl, vm =>
    free_frames (i + 1) remaining tbl (free_kpages vm (PADDR_TO_KVADDR (tbl.getD i 0)))

/-- One of the three loops of `as_destroy` on a table pointer: a `NULL` table is
dereferenced (a kernel trap, `none`) as soon as the loop runs once. -/
def free_table (tbl : Option (List Nat)) (n : Nat) (vm : VM) : Option VM :=
  match tbl with
  | some t => some (free_frames 0 n t vm)
  | none => if n = 0 then some vm else none

/-- The function `as_destroy` (lines 357-379) on the allocator state; the `kfree`s of
the tables and of the structure are not modelled. -/
def as_destroy (as : addrspace) (vm : VM) : Option VM :=
  (free_table as.as_pbase1 as.as_npages1 vm).bind fun vm1 =>
    (free_table as.as_pbase2 as.as_npages2 vm1).bind fun vm2 =>
      free_table as.as_stackpbase DUMBVM_STACKPAGES vm2

/-! ## The translation fault handler -/

/-- Modelled from the spec: `USERSTACK` of the missing header `vm.h`, the fixed top of
the user stack, which is the top of user space `0x80000000`. -/
def USERSTACK : Nat := 2147483648

/-- Modelled from the spec: `NUM_TLB` of the missing header `mips/tlb.h`, the number of
slots of the hardware translation cache. -/
def NUM_TLB : Nat := 64

/-- Modelled from the spec: `TLBLO_VALID` of the missing header `mips/tlb.h`, the valid
bit of the low word of a translation entry. -/
def TLBLO_VALID : Nat := 512

/-- Modelled from the spec: `TLBLO_DIRTY` of the missing header `mips/tlb.h`, the dirty
(writable) bit of the low word of a translation entry. -/
def TLBLO_DIRTY : Nat := 1024

/-- Modelled from the spec: the fault-type code `VM_FAULT_READ` of the missing header `vm.h`. -/
def VM_FAULT_READ : Int := 0

/-- Modelled from the spec: the fault-type code `VM_FAULT_WRITE` of the missing header `vm.h`. -/
def VM_FAULT_WRITE : Int := 1

/-- Modelled from the spec: the fault-type code `VM_FAULT_READONLY` of the missing header
`vm.h` (a write was attempted to a page mapped read-only). -/
def VM_FAULT_READONLY : Int := 2

/-- The hardware translation cache: the pair `(entryhi, entrylo)` of each slot. -/
abbrev TLB := List (Nat × Nat)

/-- The `KASSERT`s of `vm_fault` (lines 233-259) on an address space whose three tables
are `t1`, `t2`, `ts`. -/
def vm_fault_asserts (as : addrspace) (t1 t2 ts : List Nat) : Prop :=
  as.as_vbase1 ≠ 0 ∧ as.as_npages1 ≠ 0 ∧ as.as_vbase2 ≠ 0 ∧ as.as_npages2 ≠ 0 ∧
  as.as_vbase1 &&& PAGE_FRAME = as.as_vbase1 ∧
  (∀ i, i < as.as_npages1 → t1.getD i 0 &&& PAGE_FRAME = t1.getD i 0) ∧
  (∀ j, j < as.as_npages2 → t2.getD j 0 &&& PAGE_FRAME = t2.getD j 0) ∧
  (∀ k, k < DUMBVM_STACKPAGES → ts.getD k 0 &&& PAGE_FRAME = ts.getD k 0) ∧
  as.as_vbase2 &&& PAGE_FRAME = as.as_vbase2

instance (as : addrspace) (t1 t2 ts : List Nat) : Decidable (vm_fault_asserts as t1 t2 ts) := by
  unfold vm_fault_asserts; infer_instance

/-- The loop of `vm_fault` over the slots (lines 297-313), with `remaining` slots left
from slot `i`: the entry goes to the first slot whose valid bit is clear; `none` when
the loop ends without having found one. -/
def tlb_install (tlb : TLB) (ehi elo : Nat) : Nat → Nat → Option TLB
  | _, 0 => none
  | i, remaining + 1 =>
    if (tlb.getD i (0, 0)).2 &&& TLBLO_VALID ≠ 0 then tlb_install tlb ehi elo (i + 1) remaining
    else some (tlb.set i (ehi, elo))

/-- The low word `vm_fault` builds (lines 303-307 and 315-319): frame address, dirty and
valid bits, the dirty bit being cleared again for a page of region 1 once `complete`
is set. -/
def vm_fault_elo (complete inRegion1 : Bool) (paddr : Nat) : Nat :=
  if complete && inRegion1 then ((paddr ||| TLBLO_DIRTY) ||| TLBLO_VALID) &&& bnot32 TLBLO_DIRTY
  else (paddr ||| TLBLO_DIRTY) ||| TLBLO_VALID

/-- The function `vm_fault` (lines 182-328), returning the result code and the
translation cache; `none` is a failed `KASSERT`.  `curproc` is `none` when there is no
current process and `some none` when it has no address space; `random` is the slot the
hardware picks for `tlb_random`; `EFAULT` and `EINVAL` are the errno constants of the
missing header `kern/errno.h`. -/
def vm_fault (EFAULT EINVAL : Nat) (random : Nat) (curproc : Option (Option addrspace))
    (tlb : TLB) (faulttype : Int) (faultaddress : Nat) : Option (Nat × TLB) :=
  let faultaddress := faultaddress &&& PAGE_FRAME
  if faulttype = VM_FAULT_READONLY then some (1, tlb)
  else if faulttype = VM_FAULT_READ ∨ faulttype = VM_FAULT_WRITE then
    match curproc with
    | none => some (EFAULT, tlb)
    | some none => some (EFAULT, tlb)
    | some (some as) =>
      match as.as_pbase1, as.as_pbase2, as.as_stackpbase with
      | some t1, some t2, some ts =>
        if vm_fault_asserts as t1 t2 ts then
          let vbase1 := as.as_vbase1
          let vtop1 := u32 (vbase1 + u32 (as.as_npages1 * PAGE_SIZE))
          let vbase2 := as.as_vbase2
          let vtop2 := u32 (vbase2 + u32 (as.as_npages2 * PAGE_SIZE))
          let stackbase := USERSTACK - DUMBVM_STACKPAGES * PAGE_SIZE
          let stacktop := USERSTACK
          let paddr : Option Nat :=
            if vbase1 ≤ faultaddress ∧ faultaddress < vtop1 then
              some (t1.getD ((faultaddress - vbase1) / PAGE_SIZE) 0)
            else if vbase2 ≤ faultaddress ∧ faultaddress < vtop2 then
              some (t2.getD ((faultaddress - vbase2) / PAGE_SIZE) 0)
            else if stackbase ≤ faultaddress ∧ faultaddress < stacktop then
              some (ts.getD ((faultaddress - stackbase) / PAGE_SIZE) 0)
            else none
          match paddr with
          | none => some (EFAULT, tlb)
          | some paddr =>
            if paddr &&& PAGE_FRAME = paddr then
              let elo := vm_fault_elo as.complete
                (decide (vbase1 ≤ faultaddress ∧ faultaddress < vtop1)) paddr
              match tlb_install tlb faultaddress elo 0 NUM_TLB with
              | some tlb2 => some (0, tlb2)
              | none => some (0, tlb.set random (faultaddress, elo))
            else none
        else none
      | _, _, _ => none
  else some (EINVAL, tlb)

/-- An address space set up the way `vm_fault` asserts it: the three tables exist, with
one entry per page, the `KASSERT`s hold, and both regions end within the 32-bit
address range. -/
def addrspace.SetUp (as : addrspace) : Prop :=
  match as.as_pbase1, as.as_pbase2, as.as_stackpbase with
  | some t1, some t2, some ts =>
    t1.length = as.as_npages1 ∧ t2.length = as.as_npages2 ∧ ts.length = DUMBVM_STACKPAGES ∧
    vm_fault_asserts as t1 t2 ts ∧
    as.as_vbase1 + as.as_npages1 * PAGE_SIZE < 4294967296 ∧
    as.as_vbase2 + as.as_npages2 * PAGE_SIZE < 4294967296
  | _, _, _ => False

instance (as : addrspace) : Decidable as.SetUp := by
  unfold addrspace.SetUp; split <;> infer_instance

/-- The page address `page` lies in region 1: `[as_vbase1, as_vbase1 + as_npages1 * PAGE_SIZE)`. -/
def addrspace.inRegion1 (as : addrspace) (page : Nat) : Prop :=
  as.as_vbase1 ≤ page ∧ page < as.as_vbase1 + as.as_npages1 * PAGE_SIZE

/-- The page address `page` lies in region 2: `[as_vbase2, as_vbase2 + as_npages2 * PAGE_SIZE)`. -/
def addrspace.inRegion2 (as : addrspace) (page : Nat) : Prop :=
  as.as_vbase2 ≤ page ∧ page < as.as_vbase2 + as.as_npages2 * PAGE_SIZE

/-- The page address `page` lies in the fixed stack range
`[USERSTACK - DUMBVM_STACKPAGES * PAGE_SIZE, USERSTACK)`. -/
def inStack (page : Nat) : Prop :=
  USERSTACK - DUMBVM_STACKPAGES * PAGE_SIZE ≤ page ∧ page < USERSTACK

instance (as : addrspace) (page : Nat) : Decidable (as.inRegion1 page) := by
  unfold addrspace.inRegion1; infer_instance

instance (as : addrspace) (page : Nat) : Decidable (as.inRegion2 page) := by
  unfold addrspace.inRegion2; infer_instance

instance (page : Nat) : Decidable (inStack page) := by
  unfold inStack; infer_instance

/-- Slot `i` of the translation cache has its valid bit clear. -/
def TLB.invalidAt (tlb : TLB) (i : Nat) : Prop := (tlb.getD i (0, 0)).2 &&& TLBLO_VALID = 0

instance (tlb : TLB) (i : Nat) : Decidable (TLB.invalidAt tlb i) := by
  unfold TLB.invalidAt; infer_instance

/-- The address space of the fault scenario: region 1 is 2 pages at `0x400000`, region 2
one page at `0x10000000`, all fifteen pages bound to frames from `0x100000` on,
`complete` false. -/
def scenario_as : addrspace :=
  { as_vbase1 := 4194304, as_pbase1 := some [1048576, 1052672], as_npages1 := 2,
    as_vbase2 := 268435456, as_pbase2 := some [1056768], as_npages2 := 1,
    as_stackpbase := some [1060864, 1064960, 1069056, 1073152, 1077248, 1081344,
      1085440, 1089536, 1093632, 1097728, 1101824, 1105920],
    complete := false, readable := true, writeable := true, executable := true }

/-- A translation cache with every slot invalid. -/
def tlb_flushed : TLB := List.replicate NUM_TLB (0, 0)

/-- The address `p` is one `free_kpages` can be handed without harm to other frames:
the address of a frame tagged as a run of length 1 (or already free), or the address of
no frame at all. -/
def Releasable (vm : VM) (p : Nat) : Prop :=
  (∃ f, f < vm.coremap.length ∧ p = vm.startaddr + f * PAGE_SIZE ∧
    (vm.coremap[f]? = some 1 ∨ vm.coremap[f]? = some 0)) ∨
  (∀ j, j < vm.coremap.length →
    PADDR_TO_KVADDR (vm.frameAddr j) ≠ PADDR_TO_KVADDR p)

/-! ## Copying an address space -/

/-- Modelled from the spec: the kernel library routine `memmove` (not among the
sources), which copies the `len` bytes at `src` to `dst`; every byte copied is the one
the source held before the call, also when the ranges overlap. -/
def memmove (mem : Mem) (dst src len : Nat) : Mem :=
  fun a => if dst ≤ a ∧ a < dst + len then mem (src + (a - dst)) else mem a

/-- The loop `for (i = 0; i < n; ++i) memmove(KVADDR(new[i]), KVADDR(old[i]), PAGE_SIZE);`
of `as_copy` (lines 573-587), with `remaining` iterations left from index `i`. -/
def copy_frames : Nat → Nat → List Nat → List Nat → Mem → Mem
  | _, 0, _, _, mem => mem
  | i, remaining + 1, new, old, mem =>
    copy_frames (i + 1) remaining new old
      (memmove mem (PADDR_TO_KVADDR (new.getD i 0)) (PADDR_TO_KVADDR (old.getD i 0)) PAGE_SIZE)

/-- One of the three copy loops of `as_copy` on the table pointer of `old`: a `NULL`
table is dereferenced (a kernel trap, `none`) as soon as the loop runs once. -/
def copy_table (new : List Nat) (old : Option (List Nat)) (n : Nat) (mem : Mem) :
    Option Mem :=
  match old with
  | some t => some (copy_frames 0 n new t mem)
  | none => if n = 0 then some mem else none

/-- The function `as_copy` (lines 543-602), returning the result code, what `*ret`
holds (`none` when it is not written), the allocator state and the memory; `none` is a
kernel trap.  `raw` is what the `kmalloc` of `as_create` returned; `kmalloc1`, `kmalloc2`
and `kmallocStack` tell whether the `kmalloc`s of the two region tables (lines 557-558)
and of the stack table (inside `as_prepare_load`) succeed. -/
def as_copy (ENOMEM : Nat) (raw : Option addrspace) (kmalloc1 kmalloc2 kmallocStack : Bool)
    (old : addrspace) (vm : VM) (mem : Mem) : Option (Nat × Option addrspace × VM × Mem) :=
  match as_create raw with
  | none => some (ENOMEM, none, vm, mem)
  | some new0 =>
    let new1 : addrspace :=
      { new0 with as_vbase1 := old.as_vbase1, as_npages1 := old.as_npages1,
                  as_vbase2 := old.as_vbase2, as_npages2 := old.as_npages2,
                  as_pbase1 := kmalloc_table kmalloc1 old.as_npages1,
                  as_pbase2 := kmalloc_table kmalloc2 old.as_npages2 }
    match as_prepare_load ENOMEM kmallocStack new1 vm mem with
    | none => none
    | some (rc, new2, vm2, mem2) =>
      if rc ≠ 0 then (as_destroy new2 vm2).map fun vm3 => (ENOMEM, none, vm3, mem2)
      else
        match new2.as_pbase1, new2.as_pbase2, new2.as_stackpbase with
        | some n1, some n2, some ns =>
          (copy_table n1 old.as_pbase1 old.as_npages1 mem2).bind fun m1 =>
            (copy_table n2 old.as_pbase2 old.as_npages2 m1).bind fun m2 =>
              (copy_table ns old.as_stackpbase DUMBVM_STACKPAGES m2).map fun m3 =>
                (0, some new2, vm2, m3)
        | _, _, _ => none

/-- The frame addresses listed in the region-1, region-2 and stack tables of an address
space (a `NULL` table lists none). -/
def addrspace.listed (as : addrspace) : List Nat :=
  as.as_pbase1.getD [] ++ as.as_pbase2.getD [] ++ as.as_stackpbase.getD []

/-- The byte at kernel address `a` lies in the page of `PAGE_SIZE` bytes at the physical
address `p`. -/
def InPage (p a : Nat) : Prop :=
  PADDR_TO_KVADDR p ≤ a ∧ a < PADDR_TO_KVADDR p + PAGE_SIZE

/-- The pages at the physical addresses `p` and `q` have no byte in common. -/
def PagesApart (p q : Nat) : Prop :=
  PADDR_TO_KVADDR p + PAGE_SIZE ≤ PADDR_TO_KVADDR q ∨
  PADDR_TO_KVADDR q + PAGE_SIZE ≤ PADDR_TO_KVADDR p

/-! ## Activation -/

/-- Modelled from the spec: the macro `TLBHI_INVALID(entryno)` of the missing header
`mips/tlb.h`, `((0x80000 + entryno) << 12)`: a high word in the kernel segment, which
matches no user page. -/
def TLBHI_INVALID (entryno : Nat) : Nat := u32 ((524288 + entryno) * 4096)

/-- Modelled from the spec: the macro `TLBLO_INVALID()` of the missing header
`mips/tlb.h`, the low word `0` of an invalidated slot. -/
def TLBLO_INVALID : Nat := 0

/-- The loop `for (i=0; i<NUM_TLB; i++) tlb_write(TLBHI_INVALID(i), TLBLO_INVALID(), i);`
of `as_activate` (lines 394-396), with `remaining` slots left from slot `i`. -/
def as_activate_loop (tlb : TLB) : Nat → Nat → TLB
  | _, 0 => tlb
  | i, remaining + 1 =>
    as_activate_loop (tlb.set i (TLBHI_INVALID i, TLBLO_INVALID)) (i + 1) remaining

/-- The function `as_activate` (lines 380-398) on the translation cache; `as` is what
`curproc_getas()` returns, `none` for `NULL`. -/
def as_activate (as : Option addrspace) (tlb : TLB) : TLB :=
  match as with
  | none => tlb
  | some _ => as_activate_loop tlb 0 NUM_TLB

/-- The function `as_deactivate` (lines 399-403), whose body is the comment `nothing`,
on the state the file keeps: the current address space, the frame table and the
translation cache. -/
def as_deactivate (as : Option addrspace) (vm : VM) (tlb : TLB) :
    Option addrspace × VM × TLB :=
  (as, vm, tlb)

/-! ## Boot -/

/-- The loop `while (lo % PAGE_SIZE != 0) lo += 1;` of `vm_bootstrap` (lines 66-68), run
for at most `fuel` tests of its condition; `none` when it has not ended by then.  `lo`
is a `paddr_t`, incremented modulo `2 ^ 32`. -/
def vm_bootstrap_align : Nat → Nat → Option Nat
  | 0, _ => none
  | fuel + 1, lo =>
    if lo % PAGE_SIZE ≠ 0 then vm_bootstrap_align fuel (u32 (lo + 1)) else some lo

/-- The function `vm_bootstrap` (lines 56-77).  `lo` and `hi` are what `ram_getsize`
reports (32-bit physical addresses), `raw` is what the memory at `coremap[i]` holds
before the table is cleared, and `fuel` bounds the alignment loop.  The result is the
pointer `coremap` and the frame table with `startaddr`; `hi - lo` is an unsigned 32-bit
subtraction and `sizeof(int)` is 4. -/
def vm_bootstrap (fuel lo hi : Nat) (raw : Nat → Int) : Option (Nat × VM) :=
  let coremap := PADDR_TO_KVADDR lo
  let totalFrames := u32 (4294967296 + hi - lo) / PAGE_SIZE
  match vm_bootstrap_align fuel (u32 (lo + u32 (totalFrames * 4))) with
  | none => none
  | some lo2 =>
    let startaddr := lo2
    let totalFrames := u32 (4294967296 + hi - lo2) / PAGE_SIZE
    some (coremap, ⟨fillRun ((List.range totalFrames).map raw) 0 0 totalFrames, startaddr⟩)

/-! ## The intersection (assignment A1, `traffic_synch.c`) -/

/-- Modelled from the spec: the enumeration `Direction` of the missing header
`synchprobs.h`, whose four members the source names. -/
inductive Direction where
  | north
  | east
  | south
  | west
deriving DecidableEq, Repr

/-- The structure `Vehicle` (traffic_synch.c lines 9-12). -/
structure Vehicle where
  origin : Direction
  destination : Direction
deriving DecidableEq, Repr

/-- The function `right_turn` (lines 21-30). -/
def right_turn (v : Vehicle) : Bool :=
  if (v.origin = Direction.west ∧ v.destination = Direction.south) ∨
      (v.origin = Direction.south ∧ v.destination = Direction.east) ∨
      (v.origin = Direction.east ∧ v.destination = Direction.north) ∨
      (v.origin = Direction.north ∧ v.destination = Direction.west) then true
  else false

/-- The loop of `can_enter` (lines 39-50) over the vehicles still to be compared; the
array `vehicles` of the kernel library (not among the sources) is a list, in index
order. -/
def can_enter_loop (v : Vehicle) : List Vehicle → Bool
  | [] => true
  | compare :: rest =>
    if v.origin = compare.origin ∨
        (v.origin = compare.destination ∧ v.destination = compare.origin) ∨
        (v.destination ≠ compare.destination ∧
          (right_turn v = true ∨ right_turn compare = true)) then
      can_enter_loop v rest
    else false

/-- The function `can_enter` (lines 34-52). -/
def can_enter (vehicles : List Vehicle) (v : Vehicle) : Bool :=
  if vehicles.length = 0 then true else can_enter_loop v vehicles

/-- The function `intersection_before_entry` (lines 100-115) on the array `vehicles`,
under the lock: `none` while `can_enter` fails (the thread waits on the condition
variable and the array is not touched), else the array with the vehicle added at its
end by `array_add`.  The `kmalloc` of line 104 is taken to succeed. -/
def intersection_before_entry (vehicles : List Vehicle) (origin destination : Direction) :
    Option (List Vehicle) :=
  if can_enter vehicles ⟨origin, destination⟩ then some (vehicles ++ [⟨origin, destination⟩])
  else none

/-- The loop of `intersection_after_exit` (lines 134-141): the first vehicle with the
given origin and destination is taken out by `array_remove`, which closes the gap; the
others keep their order. -/
def after_exit_loop (origin destination : Direction) : List Vehicle → List Vehicle
  | [] => []
  | v :: rest =>
    if v.origin = origin ∧ v.destination = destination then rest
    else v :: after_exit_loop origin destination rest

/-- The function `intersection_after_exit` (lines 129-145) on the array `vehicles`. -/
def intersection_after_exit (vehicles : List Vehicle) (origin destination : Direction) :
    List Vehicle :=
  after_exit_loop origin destination vehicles

/-- One completed critical section on the intersection: a thread in
`intersection_before_entry` testing `can_enter` under the lock, or a call of
`intersection_after_exit`. -/
inductive Move where
  | enter (origin destination : Direction)
  | leave (origin destination : Direction)
deriving DecidableEq, Repr

/-- Effect of one move on the array: an entry whose `can_enter` fails leaves it as it
is (the thread goes on waiting). -/
def Intersection.step (vehicles : List Vehicle) : Move → List Vehicle
  | .enter origin destination =>
    (intersection_before_entry vehicles origin destination).getD vehicles
  | .leave origin destination => intersection_after_exit vehicles origin destination

/-- The array after a sequence of moves. -/
def Intersection.run (vehicles : List Vehicle) : List Move → List Vehicle
  | [] => vehicles
  | m :: ms => Intersection.run (Intersection.step vehicles m) ms

/-- Two vehicles may be in the intersection together: they share an origin, or travel
in opposite directions, or have different destinations and one of them turns right. -/
def Compatible (a b : Vehicle) : Prop :=
  a.origin = b.origin ∨
  (a.origin = b.destination ∧ a.destination = b.origin) ∨
  (a.destination ≠ b.destination ∧ (right_turn a = true ∨ right_turn b = true))

instance (a b : Vehicle) : Decidable (Compatible a b) := by
  unfold Compatible; infer_instance

/-! ## Integer conversion facts -/

theorem toInt32_of_lt (m : Int) (h0 : 0 ≤ m) (h : m < 2147483648) : toInt32 m = m := by
  unfold toInt32; omega

theorem toInt32_ne_zero (m : Int) (h0 : 0 < m) (h : m < 4294967296) : toInt32 m ≠ 0 := by
  unfold toInt32; omega

theorem toInt32_pred (m : Int) : toInt32 (toInt32 m - 1) = toInt32 (m - 1) := by
  unfold toInt32; omega

theorem toInt32_eq_zero_iff (m : Int) (h0 : 0 ≤ m) (h : m < 4294967296) :
    toInt32 m = 0 ↔ m = 0 := by
  unfold toInt32; omega

/-! ## The scan finds the first fit -/

theorem getppages_scan_spec (n : Nat) (cm : List Int) (hn : 0 < n) (hn32 : n < 4294967296) :
    ∀ (rest : List Int) (i start : Nat) (pn : Int),
      cm.drop i = rest → start ≤ i → i - start < n →
      pn = toInt32 ((n : Int) - ((i - start : Nat) : Int)) →
      (∀ j, start ≤ j → j < i → cm[j]? = some 0) →
      (∀ s, s < start → ¬ FreeRun cm s n) →
      ((getppages_scan n rest i pn start).1 = 0 →
        FreeRun cm (getppages_scan n rest i pn start).2 n ∧
        ∀ s, s < (getppages_scan n rest i pn start).2 → ¬ FreeRun cm s n) ∧
      ((getppages_scan n rest i pn start).1 ≠ 0 → ∀ s, ¬ FreeRun cm s n) := by
  intro rest
  induction rest with
  | nil =>
    intro i start pn hdrop hsi hrun hpn hz hbefore
    have hlen : cm.length ≤ i := by
      have := congrArg List.length hdrop
      simp at this
      omega
    have hpn0 : pn ≠ 0 := by
      rw [hpn]; apply toInt32_ne_zero <;> omega
    simp only [getppages_scan]
    refine ⟨fun h => absurd h hpn0, fun _ s hs => ?_⟩
    by_cases hlt : s < start
    · exact hbefore s hlt hs
    · have h1 := hs (n - 1) (by omega)
      have h2 : cm[s + (n - 1)]? = none := List.getElem?_eq_none (by omega)
      rw [h2] at h1
      cases h1
  | cons c rest ih =>
    intro i start pn hdrop hsi hrun hpn hz hbefore
    have hilt : i < cm.length := by
      by_contra hge
      have : cm.drop i = [] := List.drop_eq_nil_of_le (by omega)
      rw [this] at hdrop
      cases hdrop
    have hci : cm[i]? = some c := by
      have h := List.drop_eq_getElem_cons hilt
      rw [h] at hdrop
      rw [List.getElem?_eq_getElem hilt]
      injection hdrop with h1 h2
      rw [h1]
    have hdrop1 : cm.drop (i + 1) = rest := by
      have h := List.drop_eq_getElem_cons hilt
      rw [h] at hdrop
      injection hdrop
    by_cases hc : c = 0
    · have hstep : toInt32 (pn - 1) = toInt32 ((n : Int) - ((i + 1 - start : Nat) : Int)) := by
        rw [hpn, toInt32_pred]
        congr 1
        omega
      by_cases hdone : toInt32 (pn - 1) = 0
      · simp only [getppages_scan, hc, hdone, if_true]
        refine ⟨fun _ => ⟨?_, hbefore⟩, fun h => absurd rfl h⟩
        have hfull : i + 1 - start = n := by
          rw [hstep] at hdone
          have := (toInt32_eq_zero_iff _ (by omega) (by omega)).1 hdone
          omega
        intro j hj
        by_cases hji : start + j = i
        · rw [hji, hci, hc]
        · exact hz (start + j) (by omega) (by omega)
      · simp only [getppages_scan, hc, hdone, if_true, if_false]
        have hnf : i + 1 - start ≠ n := by
          intro hfull
          apply hdone
          rw [hstep, hfull]
          simp [toInt32]
        apply ih (i + 1) start (toInt32 (pn - 1)) hdrop1 (by omega) (by omega) hstep
        · intro j hsj hj
          by_cases hji : j = i
          · rw [hji, hci, hc]
          · exact hz j hsj (by omega)
        · exact hbefore
    · simp only [getppages_scan, hc, if_false]
      apply ih (i + 1) (i + 1) (toInt32 n) hdrop1 (le_refl _) (by omega)
      · simp
      · intro j h1 h2
        omega
      · intro s hs hfree
        by_cases hlt : s < start
        · exact hbefore s hlt hfree
        · have h1 := hfree (i - s) (by omega)
          have h2 : s + (i - s) = i := by omega
          rw [h2, hci] at h1
          injection h1 with h3
          exact hc h3

theorem getppages_scan_top (n : Nat) (cm : List Int) (hn : 0 < n) (hn32 : n < 4294967296) :
    ((getppages_scan n cm 0 (toInt32 n) 0).1 = 0 →
      FreeRun cm (getppages_scan n cm 0 (toInt32 n) 0).2 n ∧
      ∀ s, s < (getppages_scan n cm 0 (toInt32 n) 0).2 → ¬ FreeRun cm s n) ∧
    ((getppages_scan n cm 0 (toInt32 n) 0).1 ≠ 0 → ∀ s, ¬ FreeRun cm s n) := by
  apply getppages_scan_spec n cm hn hn32 cm 0 0 (toInt32 n) rfl (le_refl _) (by omega)
  · simp
  · intro j _ h
    omega
  · intro s h
    omega

/-! ## Frame-table stores -/

theorem length_fillRun (cm : List Int) (s : Nat) (v : Int) (k : Nat) :
    (fillRun cm s v k).length = cm.length := by
  induction k with
  | zero => rfl
  | succ k ih => simp [fillRun, ih]

theorem fillRun_get (cm : List Int) (s : Nat) (v : Int) (k j : Nat) :
    (fillRun cm s v k)[j]? = if s ≤ j ∧ j < s + k ∧ j < cm.length then some v else cm[j]? := by
  induction k with
  | zero =>
    have h : ¬ (s ≤ j ∧ j < s + 0 ∧ j < cm.length) := by omega
    simp only [fillRun, if_neg h]
  | succ k ih =>
    simp only [fillRun, List.getElem?_set, length_fillRun, ih]
    by_cases h1 : s + k = j
    · subst h1
      by_cases h2 : s + k < cm.length
      · simp [h2]
      · have h3 : cm[s + k]? = none := List.getElem?_eq_none (by omega)
        simp [h2, h3]
    · by_cases h2 : s ≤ j ∧ j < s + k ∧ j < cm.length
      · have h3 : s ≤ j ∧ j < s + (k + 1) ∧ j < cm.length := by omega
        simp [h1, h2, h3]
      · have h3 : ¬ (s ≤ j ∧ j < s + (k + 1) ∧ j < cm.length) := by omega
        simp [h1, h2, h3]

theorem FreeRun.run_le_length {cm : List Int} {s n : Nat} (h : FreeRun cm s n) (hn : 0 < n) :
    s + n ≤ cm.length := by
  have h1 := h (n - 1) (by omega)
  by_contra hlt
  have h2 : cm[s + (n - 1)]? = none := List.getElem?_eq_none (by omega)
  rw [h2] at h1
  cases h1

theorem TaggedRun.tagged_le_length {cm : List Int} {s k : Nat} (h : TaggedRun cm s k) (hk : 0 < k) :
    s + k ≤ cm.length := by
  have h1 := h (k - 1) (by omega)
  by_contra hlt
  have h2 : cm[s + (k - 1)]? = none := List.getElem?_eq_none (by omega)
  rw [h2] at h1
  cases h1

theorem VM.frameAddr_eq (vm : VM) (hwf : vm.WF) (i : Nat) (hi : i ≤ vm.coremap.length) :
    vm.frameAddr i = vm.startaddr + i * PAGE_SIZE := by
  obtain ⟨_, h2⟩ := hwf
  unfold VM.frameAddr u32
  unfold PAGE_SIZE MIPS_KSEG0 at *
  omega

theorem VM.WF.length_le {vm : VM} (hwf : vm.WF) : vm.coremap.length ≤ 524288 := by
  obtain ⟨_, h2⟩ := hwf
  unfold PAGE_SIZE MIPS_KSEG0 at *
  omega

/-! ## The allocator `getppages` -/

theorem getppages_fail_eq (ENOMEM : Nat) (vm : VM) (n : Nat)
    (h : (getppages_scan n vm.coremap 0 (toInt32 n) 0).1 ≠ 0) :
    getppages ENOMEM vm n = (ENOMEM, vm) := by
  unfold getppages
  simp only [h, ne_eq, not_false_eq_true, if_true]

theorem getppages_ok_eq (ENOMEM : Nat) (vm : VM) (n : Nat)
    (h : (getppages_scan n vm.coremap 0 (toInt32 n) 0).1 = 0) :
    getppages ENOMEM vm n =
      (vm.frameAddr (getppages_scan n vm.coremap 0 (toInt32 n) 0).2,
       { vm with coremap := fillRun vm.coremap (getppages_scan n vm.coremap 0 (toInt32 n) 0).2
                              (toInt32 n) n }) := by
  unfold getppages
  simp only [h, ne_eq, not_true_eq_false, if_false]

/-- The effect of a successful scan, in terms of the first free run `s`. -/
theorem getppages_of_firstFit (ENOMEM : Nat) (vm : VM) (n s : Nat) (hn : 0 < n)
    (hwf : vm.WF) (hfree : FreeRun vm.coremap s n)
    (hleast : ∀ t, t < s → ¬ FreeRun vm.coremap t n) :
    getppages ENOMEM vm n =
      (vm.startaddr + s * PAGE_SIZE, { vm with coremap := fillRun vm.coremap s (n : Int) n }) := by
  have hb := hfree.run_le_length hn
  have hlen := hwf.length_le
  have hn32 : n < 4294967296 := by omega
  obtain ⟨hok, hfail⟩ := getppages_scan_top n vm.coremap hn hn32
  have h0 : (getppages_scan n vm.coremap 0 (toInt32 n) 0).1 = 0 := by
    by_contra hne
    exact hfail hne s hfree
  obtain ⟨hf2, hl2⟩ := hok h0
  have hs : (getppages_scan n vm.coremap 0 (toInt32 n) 0).2 = s := by
    rcases Nat.lt_trichotomy (getppages_scan n vm.coremap 0 (toInt32 n) 0).2 s with h | h | h
    · exact absurd hf2 (hleast _ h)
    · exact h
    · exact absurd hfree (hl2 _ h)
  rw [getppages_ok_eq ENOMEM vm n h0, hs, vm.frameAddr_eq hwf s (by omega),
    toInt32_of_lt (n : Int) (by omega) (by omega)]

/-- **C1.** On a live coremap laid out as at boot, for every positive `npages`: if
`getppages` succeeds (returns something other than `ENOMEM`), the returned address is
that of the smallest frame index `s` such that frames `s .. s+npages-1` were all tagged
`0` before the call; after the call every frame `s .. s+npages-1` carries the tag
`npages`, and the tag of every frame outside that range is unchanged. -/
theorem getppages_first_fit (ENOMEM : Nat) (vm : VM) (n : Nat) (hn : 0 < n)
    (hn32 : n < 4294967296) (hwf : vm.WF) (hok : (getppages ENOMEM vm n).1 ≠ ENOMEM) :
    ∃ s, (getppages ENOMEM vm n).1 = vm.startaddr + s * PAGE_SIZE ∧
      FreeRun vm.coremap s n ∧
      (∀ t, t < s → ¬ FreeRun vm.coremap t n) ∧
      TaggedRun (getppages ENOMEM vm n).2.coremap s n ∧
      (∀ j, (j < s ∨ s + n ≤ j) → (getppages ENOMEM vm n).2.coremap[j]? = vm.coremap[j]?) ∧
      (getppages ENOMEM vm n).2.coremap.length = vm.coremap.length ∧
      (getppages ENOMEM vm n).2.startaddr = vm.startaddr := by
  obtain ⟨hscan, _⟩ := getppages_scan_top n vm.coremap hn hn32
  have h0 : (getppages_scan n vm.coremap 0 (toInt32 n) 0).1 = 0 := by
    by_contra hne
    rw [getppages_fail_eq ENOMEM vm n hne] at hok
    exact hok rfl
  obtain ⟨hfree, hleast⟩ := hscan h0
  refine ⟨(getppages_scan n vm.coremap 0 (toInt32 n) 0).2, ?_, hfree, hleast, ?_, ?_, ?_, ?_⟩
  · rw [getppages_of_firstFit ENOMEM vm n _ hn hwf hfree hleast]
  · rw [getppages_of_firstFit ENOMEM vm n _ hn hwf hfree hleast]
    intro j hj
    have hb := hfree.run_le_length hn
    simp only [fillRun_get]
    rw [if_pos (by omega)]
  · rw [getppages_of_firstFit ENOMEM vm n _ hn hwf hfree hleast]
    intro j hj
    simp only [fillRun_get]
    rw [if_neg (by omega)]
  · rw [getppages_of_firstFit ENOMEM vm n _ hn hwf hfree hleast]
    simp [length_fillRun]
  · rw [getppages_of_firstFit ENOMEM vm n _ hn hwf hfree hleast]

/-- Witness for C1: four frames, the first one taken, a run of two requested. -/
theorem getppages_first_fit_witness :
    ∃ s, (getppages 3 ⟨[1, 0, 0, 0], 8192⟩ 2).1 = 8192 + s * PAGE_SIZE ∧
      FreeRun [1, 0, 0, 0] s 2 ∧
      (∀ t, t < s → ¬ FreeRun [1, 0, 0, 0] t 2) ∧
      TaggedRun (getppages 3 ⟨[1, 0, 0, 0], 8192⟩ 2).2.coremap s 2 ∧
      (∀ j, (j < s ∨ s + 2 ≤ j) →
        (getppages 3 ⟨[1, 0, 0, 0], 8192⟩ 2).2.coremap[j]? = ([1, 0, 0, 0] : List Int)[j]?) ∧
      (getppages 3 ⟨[1, 0, 0, 0], 8192⟩ 2).2.coremap.length = 4 ∧
      (getppages 3 ⟨[1, 0, 0, 0], 8192⟩ 2).2.startaddr = 8192 :=
  getppages_first_fit 3 ⟨[1, 0, 0, 0], 8192⟩ 2 (by decide) (by decide) (by decide) (by decide)

theorem getppages_no_run (ENOMEM : Nat) (vm : VM) (n : Nat) (hn : 0 < n) (hn32 : n < 4294967296)
    (hnone : ∀ s, ¬ FreeRun vm.coremap s n) : getppages ENOMEM vm n = (ENOMEM, vm) := by
  obtain ⟨hscan, _⟩ := getppages_scan_top n vm.coremap hn hn32
  apply getppages_fail_eq
  intro h0
  exact hnone _ (hscan h0).1

theorem exists_least_freeRun (cm : List Int) (n s : Nat) (h : FreeRun cm s n) :
    ∃ m, FreeRun cm m n ∧ ∀ t, t < m → ¬ FreeRun cm t n := by
  have hex : ∃ m, FreeRun cm m n := ⟨s, h⟩
  exact ⟨Nat.find hex, Nat.find_spec hex, fun t ht => Nat.find_min hex ht⟩

/-- **C2.** On a live coremap laid out as at boot, for every positive `npages`,
`getppages` returns `ENOMEM` if and only if the table contains no `npages` consecutive
frames tagged `0`; and when it returns `ENOMEM` the frame table (and `startaddr`) is
exactly as before the call.  `ENOMEM` is an errno code, not a page-aligned address. -/
theorem getppages_enomem_iff (ENOMEM : Nat) (vm : VM) (n : Nat) (hn : 0 < n)
    (hn32 : n < 4294967296) (hwf : vm.WF) (hE : ENOMEM % PAGE_SIZE ≠ 0) :
    ((getppages ENOMEM vm n).1 = ENOMEM ↔ ∀ s, ¬ FreeRun vm.coremap s n) ∧
    ((getppages ENOMEM vm n).1 = ENOMEM → (getppages ENOMEM vm n).2 = vm) := by
  have key : (getppages ENOMEM vm n).1 = ENOMEM → ∀ s, ¬ FreeRun vm.coremap s n := by
    intro hret s hs
    obtain ⟨m, hm, hleast⟩ := exists_least_freeRun vm.coremap n s hs
    rw [getppages_of_firstFit ENOMEM vm n m hn hwf hm hleast] at hret
    simp only at hret
    obtain ⟨ha, _⟩ := hwf
    apply hE
    rw [← hret]
    unfold PAGE_SIZE at *
    omega
  refine ⟨⟨key, fun hnone => ?_⟩, fun hret => ?_⟩
  · rw [getppages_no_run ENOMEM vm n hn hn32 hnone]
  · rw [getppages_no_run ENOMEM vm n hn hn32 (key hret)]

/-- Witness for C2: a fragmented table with no two adjacent free frames. -/
theorem getppages_enomem_iff_witness :
    ((getppages 3 ⟨[0, 1, 0, 1], 8192⟩ 2).1 = 3 ↔ ∀ s, ¬ FreeRun [0, 1, 0, 1] s 2) ∧
    ((getppages 3 ⟨[0, 1, 0, 1], 8192⟩ 2).1 = 3 →
      (getppages 3 ⟨[0, 1, 0, 1], 8192⟩ 2).2 = ⟨[0, 1, 0, 1], 8192⟩) :=
  getppages_enomem_iff 3 ⟨[0, 1, 0, 1], 8192⟩ 2 (by decide) (by decide) (by decide) (by decide)

/-! ## The deallocator `free_kpages` -/

theorem kvaddr_frame (vm : VM) (hwf : vm.WF) (i : Nat) (hi : i < vm.coremap.length) :
    PADDR_TO_KVADDR (vm.frameAddr i) = vm.startaddr + i * PAGE_SIZE + MIPS_KSEG0 := by
  rw [vm.frameAddr_eq hwf i (by omega)]
  obtain ⟨_, h2⟩ := hwf
  unfold PADDR_TO_KVADDR u32
  unfold PAGE_SIZE MIPS_KSEG0 at *
  omega

theorem free_find_eq (vm : VM) (hwf : vm.WF) (s : Nat) (hs : s < vm.coremap.length) :
    ∀ (remaining i : Nat), i ≤ s → s < i + remaining →
      free_find vm (PADDR_TO_KVADDR (vm.frameAddr s)) i remaining = some s := by
  intro remaining
  induction remaining with
  | zero =>
    intro i h1 h2
    omega
  | succ r ih =>
    intro i h1 h2
    by_cases his : i = s
    · subst his
      simp [free_find]
    · have hne : PADDR_TO_KVADDR (vm.frameAddr i) ≠ PADDR_TO_KVADDR (vm.frameAddr s) := by
        rw [kvaddr_frame vm hwf i (by omega), kvaddr_frame vm hwf s hs]
        unfold PAGE_SIZE
        omega
      simp only [free_find, hne, if_false]
      exact ih (i + 1) (by omega) (by omega)

/-- Freeing the address of a frame whose tag is `k` clears `k` tags from that frame on. -/
theorem free_kpages_frame (vm : VM) (hwf : vm.WF) (s : Nat) (k : Int)
    (hs : vm.coremap[s]? = some k) :
    free_kpages vm (PADDR_TO_KVADDR (vm.frameAddr s)) =
      { vm with coremap := fillRun vm.coremap s 0 k.toNat } := by
  have hlt : s < vm.coremap.length := by
    by_contra hge
    rw [List.getElem?_eq_none (by omega)] at hs
    cases hs
  have hne : PADDR_TO_KVADDR (vm.frameAddr s) ≠ 0 := by
    rw [kvaddr_frame vm hwf s hlt]
    unfold MIPS_KSEG0
    omega
  have hfind := free_find_eq vm hwf s hlt vm.coremap.length 0 (by omega) (by omega)
  have hget : vm.coremap.getD s 0 = k := by
    rw [List.getD_eq_getElem?_getD, hs]
    rfl
  unfold free_kpages
  simp only [hne, if_false, VM.totalFrames, hfind, hget]

/-- **C3.** On a live coremap laid out as at boot, for every run starting at frame `s`
with length `k > 0` whose frames `s .. s+k-1` are all tagged `k`, `free_kpages` called
with the kernel address of frame `s` sets exactly the frames `s .. s+k-1` to `0` and
leaves the tag of every other frame unchanged. -/
theorem free_kpages_live_run (vm : VM) (s k : Nat) (hwf : vm.WF) (hk : 0 < k)
    (hrun : TaggedRun vm.coremap s k) :
    FreeRun (free_kpages vm (PADDR_TO_KVADDR (vm.startaddr + s * PAGE_SIZE))).coremap s k ∧
    (∀ j, (j < s ∨ s + k ≤ j) →
      (free_kpages vm (PADDR_TO_KVADDR (vm.startaddr + s * PAGE_SIZE))).coremap[j]? =
        vm.coremap[j]?) ∧
    (free_kpages vm (PADDR_TO_KVADDR (vm.startaddr + s * PAGE_SIZE))).coremap.length =
      vm.coremap.length ∧
    (free_kpages vm (PADDR_TO_KVADDR (vm.startaddr + s * PAGE_SIZE))).startaddr =
      vm.startaddr := by
  have hb := hrun.tagged_le_length hk
  have hs : vm.coremap[s]? = some (k : Int) := by
    have := hrun 0 hk
    simpa using this
  have heq := free_kpages_frame vm hwf s k hs
  rw [vm.frameAddr_eq hwf s (by omega)] at heq
  rw [heq]
  simp only [Int.toNat_ofNat]
  refine ⟨?_, ?_, ?_⟩
  · intro j hj
    rw [fillRun_get, if_pos (by omega)]
  · intro j hj
    rw [fillRun_get, if_neg (by omega)]
  · simp [length_fillRun]

/-- Witness for C3: a run of two frames between a free frame and a run of one. -/
theorem free_kpages_live_run_witness :
    FreeRun (free_kpages ⟨[0, 2, 2, 1], 8192⟩
      (PADDR_TO_KVADDR (8192 + 1 * PAGE_SIZE))).coremap 1 2 ∧
    (∀ j, (j < 1 ∨ 1 + 2 ≤ j) →
      (free_kpages ⟨[0, 2, 2, 1], 8192⟩ (PADDR_TO_KVADDR (8192 + 1 * PAGE_SIZE))).coremap[j]? =
        ([0, 2, 2, 1] : List Int)[j]?) ∧
    (free_kpages ⟨[0, 2, 2, 1], 8192⟩ (PADDR_TO_KVADDR (8192 + 1 * PAGE_SIZE))).coremap.length =
      4 ∧
    (free_kpages ⟨[0, 2, 2, 1], 8192⟩ (PADDR_TO_KVADDR (8192 + 1 * PAGE_SIZE))).startaddr =
      8192 :=
  free_kpages_live_run ⟨[0, 2, 2, 1], 8192⟩ 1 2 (by decide) (by decide) (by decide)

/-! ## Counting free frames -/

theorem fillRun_eq_append (cm : List Int) (s : Nat) (v : Int) (k : Nat)
    (h : s + k ≤ cm.length) :
    fillRun cm s v k = cm.take s ++ (List.replicate k v ++ cm.drop (s + k)) := by
  apply List.ext_getElem?
  intro j
  rw [fillRun_get]
  simp only [List.getElem?_append, List.getElem?_take, List.getElem?_drop,
    List.getElem?_replicate, List.length_take, List.length_replicate]
  have hmin : min s cm.length = s := by omega
  rw [hmin]
  by_cases h1 : j < s
  · rw [if_neg (by omega), if_pos h1, if_pos h1]
  · by_cases h2 : j < s + k
    · rw [if_pos (by omega), if_neg h1, if_pos (by omega), if_pos (by omega)]
    · rw [if_neg (by omega), if_neg h1, if_neg (by omega)]
      congr 1
      omega

theorem freeCount_fillRun (cm : List Int) (s : Nat) (v : Int) (k : Nat)
    (h : s + k ≤ cm.length) :
    freeCount (fillRun cm s v k) =
      freeCount (cm.take s) + (if v = 0 then k else 0) + freeCount (cm.drop (s + k)) := by
  unfold freeCount
  rw [fillRun_eq_append cm s v k h, List.count_append, List.count_append, List.count_replicate]
  simp only [beq_iff_eq]
  omega

/-- A table that already holds `v` on `s .. s+k-1` is not changed by storing `v` there. -/
theorem fillRun_self (cm : List Int) (s : Nat) (v : Int) (k : Nat)
    (h : ∀ j, j < k → cm[s + j]? = some v) : fillRun cm s v k = cm := by
  apply List.ext_getElem?
  intro j
  rw [fillRun_get]
  by_cases hj : s ≤ j ∧ j < s + k ∧ j < cm.length
  · rw [if_pos hj]
    have := h (j - s) (by omega)
    rw [show s + (j - s) = j by omega] at this
    exact this.symm
  · rw [if_neg hj]

theorem freeCount_of_run (cm : List Int) (s : Nat) (v : Int) (k : Nat) (hk : 0 < k)
    (h : ∀ j, j < k → cm[s + j]? = some v) :
    freeCount cm =
      freeCount (cm.take s) + (if v = 0 then k else 0) + freeCount (cm.drop (s + k)) := by
  have hb : s + k ≤ cm.length := by
    have h1 := h (k - 1) (by omega)
    by_contra hlt
    rw [List.getElem?_eq_none (by omega)] at h1
    cases h1
  have := freeCount_fillRun cm s v k hb
  rw [fillRun_self cm s v k h] at this
  exact this

/-! ## Call sequences preserve the allocator invariant -/

theorem Sys.step_allocate_fail (ENOMEM : Nat) (σ : Sys) (n : Nat) (hn : 0 < n)
    (hn32 : n < 4294967296) (hnone : ∀ s, ¬ FreeRun σ.vm.coremap s n) :
    σ.step ENOMEM (.allocate n) = σ := by
  simp only [Sys.step, getppages_no_run ENOMEM σ.vm n hn hn32 hnone, if_true]

theorem Sys.step_allocate_ok (ENOMEM : Nat) (σ : Sys) (n s : Nat) (hn : 0 < n)
    (hwf : σ.vm.WF) (hE : ENOMEM % PAGE_SIZE ≠ 0) (hfree : FreeRun σ.vm.coremap s n)
    (hleast : ∀ t, t < s → ¬ FreeRun σ.vm.coremap t n) :
    σ.step ENOMEM (.allocate n) =
      ⟨{ σ.vm with coremap := fillRun σ.vm.coremap s (n : Int) n }, σ.live ++ [(s, n)]⟩ := by
  have hne : σ.vm.startaddr + s * PAGE_SIZE ≠ ENOMEM := by
    intro h
    apply hE
    obtain ⟨ha, _⟩ := hwf
    rw [← h]
    unfold PAGE_SIZE at *
    omega
  have hidx : (σ.vm.startaddr + s * PAGE_SIZE - σ.vm.startaddr) / PAGE_SIZE = s := by
    unfold PAGE_SIZE
    omega
  simp only [Sys.step, getppages_of_firstFit ENOMEM σ.vm n s hn hwf hfree hleast, hne,
    if_false, hidx]

theorem Sys.Inv.start_lt {σ : Sys} (hinv : σ.Inv) {r : Nat × Nat} (hr : r ∈ σ.live) :
    r.1 < σ.vm.coremap.length := by
  obtain ⟨hpos, htag⟩ := hinv.tagged r hr
  have := htag.tagged_le_length hpos
  omega

theorem Sys.step_free (ENOMEM : Nat) (σ : Sys) (hinv : σ.Inv) (r : Nat × Nat)
    (hr : r ∈ σ.live) :
    σ.step ENOMEM (.free (PADDR_TO_KVADDR (σ.vm.frameAddr r.1))) =
      ⟨{ σ.vm with coremap := fillRun σ.vm.coremap r.1 0 r.2 },
        σ.live.filter (fun x => decide (x.1 ≠ r.1))⟩ := by
  obtain ⟨hpos, htag⟩ := hinv.tagged r hr
  have hs : σ.vm.coremap[r.1]? = some (r.2 : Int) := by
    have := htag 0 hpos
    simpa using this
  have hfilter : σ.live.filter
        (fun x => decide (PADDR_TO_KVADDR (σ.vm.frameAddr x.1) ≠
          PADDR_TO_KVADDR (σ.vm.frameAddr r.1))) =
      σ.live.filter (fun x => decide (x.1 ≠ r.1)) := by
    apply List.filter_congr
    intro x hx
    have hxlt := hinv.start_lt hx
    have hrlt := hinv.start_lt hr
    rw [kvaddr_frame σ.vm hinv.wf x.1 hxlt, kvaddr_frame σ.vm hinv.wf r.1 hrlt]
    congr 1
    apply propext
    unfold PAGE_SIZE
    constructor <;> intro h <;> omega
  simp only [Sys.step, free_kpages_frame σ.vm hinv.wf r.1 r.2 hs, Int.toNat_ofNat, hfilter]

theorem liveFrames_append (l : List (Nat × Nat)) (r : Nat × Nat) :
    liveFrames (l ++ [r]) = liveFrames l + r.2 := by
  simp [liveFrames]

/-- Removing the one run that starts at `r.1` lowers the live total by its length. -/
theorem liveFrames_filter (l : List (Nat × Nat)) (r : Nat × Nat)
    (hpos : ∀ x ∈ l, 0 < x.2) (hdis : l.Pairwise RunsDisjoint) (hr : r ∈ l) :
    liveFrames (l.filter (fun x => decide (x.1 ≠ r.1))) + r.2 = liveFrames l := by
  induction l with
  | nil => cases hr
  | cons a t ih =>
    rw [List.pairwise_cons] at hdis
    obtain ⟨hat, ht⟩ := hdis
    have hposr : 0 < r.2 := hpos r hr
    have hposa : 0 < a.2 := hpos a (List.mem_cons_self _ _)
    rcases List.mem_cons.1 hr with hra | hrt
    · subst hra
      have hrest : t.filter (fun x => decide (x.1 ≠ r.1)) = t := by
        apply List.filter_eq_self.2
        intro x hx
        have hd := hat x hx
        have hx0 : 0 < x.2 := hpos x (List.mem_cons_of_mem _ hx)
        unfold RunsDisjoint at hd
        simp only [decide_eq_true_eq]
        omega
      rw [List.filter_cons]
      simp only [ne_eq, not_true_eq_false, decide_False, Bool.false_eq_true, if_false, hrest]
      simp [liveFrames]
      omega
    · have hne : a.1 ≠ r.1 := by
        have hd := hat r hrt
        unfold RunsDisjoint at hd
        omega
      have ih2 := ih (fun x hx => hpos x (List.mem_cons_of_mem _ hx)) ht hrt
      rw [List.filter_cons]
      simp only [ne_eq, hne, not_false_eq_true, decide_True, if_true]
      simp only [ne_eq, liveFrames, List.map_cons, List.sum_cons] at ih2 ⊢
      omega

theorem free_find_none (vm : VM) (addr : Nat) :
    ∀ (remaining i : Nat),
      (∀ j, i ≤ j → j < i + remaining → PADDR_TO_KVADDR (vm.frameAddr j) ≠ addr) →
      free_find vm addr i remaining = none := by
  intro remaining
  induction remaining with
  | zero =>
    intro i _
    rfl
  | succ r ih =>
    intro i h
    simp only [free_find, h i (le_refl _) (by omega), if_false]
    exact ih (i + 1) (fun j h1 h2 => h j (by omega) (by omega))

/-- An address that is the kernel address of no frame is ignored by `free_kpages`. -/
theorem free_kpages_no_frame (vm : VM) (addr : Nat)
    (h : ∀ j, j < vm.coremap.length → PADDR_TO_KVADDR (vm.frameAddr j) ≠ addr) :
    free_kpages vm addr = vm := by
  unfold free_kpages
  by_cases h0 : addr = 0
  · rw [if_pos h0]
  · rw [if_neg h0, free_find_none vm addr vm.totalFrames 0
      (fun j _ hj => h j (by simpa [VM.totalFrames] using hj))]

theorem kvaddr_frame_inj (vm : VM) (hwf : vm.WF) (i j : Nat) (hi : i < vm.coremap.length)
    (hj : j < vm.coremap.length)
    (h : PADDR_TO_KVADDR (vm.frameAddr i) = PADDR_TO_KVADDR (vm.frameAddr j)) : i = j := by
  rw [kvaddr_frame vm hwf i hi, kvaddr_frame vm hwf j hj] at h
  unfold PAGE_SIZE at h
  omega

/-- A call of `free_kpages` that respects the contract either changes nothing or
releases one live run. -/
theorem Sys.step_free_cases (ENOMEM : Nat) (σ : Sys) (hinv : σ.Inv) (addr : Nat)
    (hc : σ.Admits (.free addr)) :
    σ.step ENOMEM (.free addr) = σ ∨
    ∃ r ∈ σ.live, σ.step ENOMEM (.free addr) =
      ⟨{ σ.vm with coremap := fillRun σ.vm.coremap r.1 0 r.2 },
        σ.live.filter (fun x => decide (x.1 ≠ r.1))⟩ := by
  have hkeep : (∀ x ∈ σ.live, PADDR_TO_KVADDR (σ.vm.frameAddr x.1) ≠ addr) →
      free_kpages σ.vm addr = σ.vm → σ.step ENOMEM (.free addr) = σ := by
    intro hno hvm
    have hf : σ.live.filter
        (fun x => decide (PADDR_TO_KVADDR (σ.vm.frameAddr x.1) ≠ addr)) = σ.live := by
      apply List.filter_eq_self.2
      intro x hx
      simp only [decide_eq_true_eq]
      exact hno x hx
    simp only [Sys.step, hvm, hf]
  by_cases hex : ∃ j, j < σ.vm.coremap.length ∧ PADDR_TO_KVADDR (σ.vm.frameAddr j) = addr
  · obtain ⟨j, hj, hjaddr⟩ := hex
    subst hjaddr
    have hget : σ.vm.coremap[j]? = some (σ.vm.coremap.getD j 0) := by
      rw [List.getD_eq_getElem?_getD, List.getElem?_eq_getElem hj]
      rfl
    by_cases ht : σ.vm.coremap.getD j 0 = 0
    · left
      apply hkeep
      · intro x hx hcon
        have hxj := kvaddr_frame_inj σ.vm hinv.wf x.1 j (hinv.start_lt hx) hj hcon
        obtain ⟨hpos, htag⟩ := hinv.tagged x hx
        have h0 := htag 0 hpos
        rw [Nat.add_zero, hxj, hget, ht] at h0
        injection h0 with h1
        omega
      · rw [free_kpages_frame σ.vm hinv.wf j _ hget, ht]
        rfl
    · right
      obtain ⟨r, hr, h1, h2⟩ := hinv.covered j _ hget ht
      have hjr : j = r.1 := by
        by_contra hne
        exact hc r hr j (by omega) h2 rfl
      subst hjr
      exact ⟨r, hr, Sys.step_free ENOMEM σ hinv r hr⟩
  · left
    have hno : ∀ j, j < σ.vm.coremap.length → PADDR_TO_KVADDR (σ.vm.frameAddr j) ≠ addr :=
      fun j hj hcon => hex ⟨j, hj, hcon⟩
    exact hkeep (fun x hx => hno x.1 (hinv.start_lt hx)) (free_kpages_no_frame σ.vm addr hno)

theorem Sys.Inv.boot (totalFrames startaddr : Nat)
    (hwf : (Sys.boot totalFrames startaddr).vm.WF) : (Sys.boot totalFrames startaddr).Inv := by
  refine ⟨hwf, ?_, ?_, ?_, ?_⟩
  · intro r hr
    cases hr
  · exact List.Pairwise.nil
  · intro j t hj ht
    simp only [Sys.boot, List.getElem?_replicate] at hj
    split at hj
    · injection hj with h0
      exact absurd h0.symm ht
    · cases hj
  · simp [Sys.boot, freeCount, liveFrames]

theorem Sys.Inv.step (ENOMEM : Nat) (hE : ENOMEM % PAGE_SIZE ≠ 0) (σ : Sys) (hinv : σ.Inv)
    (c : Call) (hc : σ.Admits c) : (σ.step ENOMEM c).Inv := by
  cases c with
  | allocate n =>
    obtain ⟨hn, hn32⟩ := hc
    by_cases hex : ∃ s, FreeRun σ.vm.coremap s n
    · obtain ⟨s0, hs0⟩ := hex
      obtain ⟨s, hfree, hleast⟩ := exists_least_freeRun σ.vm.coremap n s0 hs0
      have hb := hfree.run_le_length hn
      have hlen := hinv.wf.length_le
      rw [Sys.step_allocate_ok ENOMEM σ n s hn hinv.wf hE hfree hleast]
      have hold : ∀ r ∈ σ.live, RunsDisjoint r (s, n) := by
        intro r hr
        obtain ⟨hpos, htag⟩ := hinv.tagged r hr
        unfold RunsDisjoint
        by_contra hcon
        simp only [not_or, not_le] at hcon
        have h1 := htag (max r.1 s - r.1) (by omega)
        have h2 := hfree (max r.1 s - s) (by omega)
        rw [show r.1 + (max r.1 s - r.1) = max r.1 s by omega] at h1
        rw [show s + (max r.1 s - s) = max r.1 s by omega, h1] at h2
        injection h2 with h3
        omega
      refine ⟨?_, ?_, ?_, ?_, ?_⟩
      · obtain ⟨h1, h2⟩ := hinv.wf
        exact ⟨h1, by simpa [length_fillRun] using h2⟩
      · intro r hr
        rcases List.mem_append.1 hr with hr1 | hr1
        · obtain ⟨hpos, htag⟩ := hinv.tagged r hr1
          refine ⟨hpos, fun j hj => ?_⟩
          have hd := hold r hr1
          unfold RunsDisjoint at hd
          simp only at hd ⊢
          rw [fillRun_get, if_neg (by omega)]
          exact htag j hj
        · simp only [List.mem_singleton] at hr1
          subst hr1
          refine ⟨hn, fun j hj => ?_⟩
          simp only
          rw [fillRun_get, if_pos (by omega)]
      · rw [List.pairwise_append]
        refine ⟨hinv.disjoint, List.pairwise_singleton _ _, ?_⟩
        intro a ha b hb2
        simp only [List.mem_singleton] at hb2
        subst hb2
        exact hold a ha
      · intro j t hj ht
        simp only [fillRun_get] at hj
        by_cases hin : s ≤ j ∧ j < s + n ∧ j < σ.vm.coremap.length
        · exact ⟨(s, n), List.mem_append_right _ (List.mem_singleton_self _), hin.1, hin.2.1⟩
        · rw [if_neg hin] at hj
          obtain ⟨r, hr, h1, h2⟩ := hinv.covered j t hj ht
          exact ⟨r, List.mem_append_left _ hr, h1, h2⟩
      · have hc1 := hinv.count
        have hc2 := freeCount_of_run σ.vm.coremap s 0 n hn hfree
        have hc3 := freeCount_fillRun σ.vm.coremap s (n : Int) n hb
        have hn0 : ((n : Int) = 0) = False := by
          apply propext
          constructor
          · intro h; omega
          · intro h; exact h.elim
        simp only [if_true, hn0, if_false] at hc2 hc3
        simp only [liveFrames_append, length_fillRun, hc3]
        omega
    · rw [Sys.step_allocate_fail ENOMEM σ n hn hn32 (fun s hs => hex ⟨s, hs⟩)]
      exact hinv
  | free addr =>
    rcases Sys.step_free_cases ENOMEM σ hinv addr hc with hsame | ⟨r, hr, hstep⟩
    · rw [hsame]
      exact hinv
    obtain ⟨hpos, htag⟩ := hinv.tagged r hr
    have hb := htag.tagged_le_length hpos
    rw [hstep]
    have hsym : Symmetric RunsDisjoint := by
      intro a b h
      unfold RunsDisjoint at *
      omega
    have hother : ∀ x ∈ σ.live, x.1 ≠ r.1 → RunsDisjoint x r := by
      intro x hx hne
      have hxr : x ≠ r := fun h => hne (by rw [h])
      exact List.Pairwise.forall hsym hinv.disjoint hx hr hxr
    refine ⟨?_, ?_, ?_, ?_, ?_⟩
    · obtain ⟨h1, h2⟩ := hinv.wf
      exact ⟨h1, by simpa [length_fillRun] using h2⟩
    · intro x hx
      obtain ⟨hxl, hxne⟩ := List.mem_filter.1 hx
      simp only [decide_eq_true_eq] at hxne
      obtain ⟨hxpos, hxtag⟩ := hinv.tagged x hxl
      refine ⟨hxpos, fun j hj => ?_⟩
      have hd := hother x hxl hxne
      unfold RunsDisjoint at hd
      simp only
      rw [fillRun_get, if_neg (by omega)]
      exact hxtag j hj
    · exact hinv.disjoint.filter _
    · intro j t hj ht
      simp only [fillRun_get] at hj
      by_cases hin : r.1 ≤ j ∧ j < r.1 + r.2 ∧ j < σ.vm.coremap.length
      · rw [if_pos hin] at hj
        injection hj with h0
        exact absurd h0.symm ht
      · rw [if_neg hin] at hj
        obtain ⟨x, hx, h1, h2⟩ := hinv.covered j t hj ht
        refine ⟨x, List.mem_filter.2 ⟨hx, ?_⟩, h1, h2⟩
        simp only [decide_eq_true_eq]
        intro hxr
        by_cases hxeq : x = r
        · subst hxeq
          omega
        · have hd := List.Pairwise.forall hsym hinv.disjoint hx hr hxeq
          have hxpos := (hinv.tagged x hx).1
          unfold RunsDisjoint at hd
          omega
    · have hc1 := hinv.count
      have hc2 := freeCount_of_run σ.vm.coremap r.1 (r.2 : Int) r.2 hpos htag
      have hc3 := freeCount_fillRun σ.vm.coremap r.1 0 r.2 hb
      have hc4 := liveFrames_filter σ.live r (fun x hx => (hinv.tagged x hx).1) hinv.disjoint hr
      have hn0 : ((r.2 : Int) = 0) = False := by
        apply propext
        constructor
        · intro h; omega
        · intro h; exact h.elim
      simp only [hn0, if_false] at hc2
      simp only [eq_self_iff_true, if_true] at hc3
      simp only [length_fillRun, hc3]
      omega

theorem Sys.Inv.run (ENOMEM : Nat) (hE : ENOMEM % PAGE_SIZE ≠ 0) (cs : List Call) :
    ∀ σ : Sys, σ.Inv → σ.Valid ENOMEM cs → (σ.run ENOMEM cs).Inv := by
  induction cs with
  | nil =>
    intro σ hinv _
    exact hinv
  | cons c cs ih =>
    intro σ hinv hvalid
    obtain ⟨hc, hrest⟩ := hvalid
    exact ih (σ.step ENOMEM c) (hinv.step ENOMEM hE σ c hc) hrest

theorem Sys.run_length (ENOMEM : Nat) (hE : ENOMEM % PAGE_SIZE ≠ 0) (cs : List Call) :
    ∀ σ : Sys, σ.Inv → σ.Valid ENOMEM cs →
      (σ.run ENOMEM cs).vm.coremap.length = σ.vm.coremap.length := by
  induction cs with
  | nil =>
    intro σ _ _
    rfl
  | cons c cs ih =>
    intro σ hinv hvalid
    obtain ⟨hc, hrest⟩ := hvalid
    have h1 := ih (σ.step ENOMEM c) (hinv.step ENOMEM hE σ c hc) hrest
    have h2 : (σ.step ENOMEM c).vm.coremap.length = σ.vm.coremap.length := by
      cases c with
      | allocate n =>
        obtain ⟨hn, hn32⟩ := hc
        by_cases hex : ∃ s, FreeRun σ.vm.coremap s n
        · obtain ⟨s0, hs0⟩ := hex
          obtain ⟨s, hfree, hleast⟩ := exists_least_freeRun σ.vm.coremap n s0 hs0
          rw [Sys.step_allocate_ok ENOMEM σ n s hn hinv.wf hE hfree hleast]
          simp [length_fillRun]
        · rw [Sys.step_allocate_fail ENOMEM σ n hn hn32 (fun s hs => hex ⟨s, hs⟩)]
      | free addr =>
        rcases Sys.step_free_cases ENOMEM σ hinv addr hc with hsame | ⟨r, _, hstep⟩
        · rw [hsame]
        · rw [hstep]
          simp [length_fillRun]
    exact h1.trans h2

/-- **C4 (as stated, refuted).** Ten frames at `0x2000`: after `getppages(4)`,
`getppages(3)` and `free_kpages` of the kernel address `0x80006000` of frame 2, an
interior frame of the first run, both runs are still live (neither was handed back),
seven frames are tagged `0`, and free frames plus frames of live runs make 14, not 10. -/
theorem free_plus_live_after_interior_free :
    PADDR_TO_KVADDR (8192 + 2 * PAGE_SIZE) = 2147500032 ∧
    ((Sys.boot 10 8192).run 3 [.allocate 4, .allocate 3, .free 2147500032]).vm.coremap =
      [4, 4, 0, 0, 0, 0, 3, 0, 0, 0] ∧
    ((Sys.boot 10 8192).run 3 [.allocate 4, .allocate 3, .free 2147500032]).live =
      [(0, 4), (4, 3)] ∧
    freeCount ((Sys.boot 10 8192).run 3
        [.allocate 4, .allocate 3, .free 2147500032]).vm.coremap +
      liveFrames ((Sys.boot 10 8192).run 3
        [.allocate 4, .allocate 3, .free 2147500032]).live = 14 ∧
    ((Sys.boot 10 8192).run 3 [.allocate 4, .allocate 3, .free 2147500032]).vm.coremap.length =
      10 := by
  decide

/-- **C5 (as stated, refuted).** Ten frames at `0x2000`: after `getppages(4)`,
`getppages(3)`, `free_kpages` of the kernel address of frame 2 (an interior frame of the
first run) and `getppages(4)`, the last call has returned frames 2 to 5, so the three
live runs `(0, 4)`, `(4, 3)` and `(2, 4)` overlap, and frames 4 and 5 of the live run of
length 3 carry the tag 4. -/
theorem live_runs_overlap_after_interior_free :
    ((Sys.boot 10 8192).run 3
        [.allocate 4, .allocate 3, .free 2147500032, .allocate 4]).vm.coremap =
      [4, 4, 4, 4, 4, 4, 3, 0, 0, 0] ∧
    ((Sys.boot 10 8192).run 3
        [.allocate 4, .allocate 3, .free 2147500032, .allocate 4]).live =
      [(0, 4), (4, 3), (2, 4)] ∧
    ¬ RunsDisjoint (0, 4) (2, 4) ∧ ¬ RunsDisjoint (4, 3) (2, 4) ∧
    ¬ ((Sys.boot 10 8192).run 3
        [.allocate 4, .allocate 3, .free 2147500032, .allocate 4]).live.Pairwise RunsDisjoint ∧
    ((Sys.boot 10 8192).run 3
        [.allocate 4, .allocate 3, .free 2147500032, .allocate 4]).vm.coremap[4]? = some 4 := by
  decide

/-- **C4 (amended).** Starting from the all-free frame table that boot produces, after every
sequence of allocator calls that respects the interface contract (`getppages` of a
positive page count; `free_kpages` never given the address of a non-first frame of a
live run), the number of frames tagged `0` plus the sum of the lengths of the live runs
(returned by `getppages` and not yet freed) equals the total frame count. -/
theorem free_plus_live_eq_total (ENOMEM totalFrames startaddr : Nat) (cs : List Call)
    (hE : ENOMEM % PAGE_SIZE ≠ 0) (hwf : (Sys.boot totalFrames startaddr).vm.WF)
    (hvalid : (Sys.boot totalFrames startaddr).Valid ENOMEM cs) :
    freeCount ((Sys.boot totalFrames startaddr).run ENOMEM cs).vm.coremap +
      liveFrames ((Sys.boot totalFrames startaddr).run ENOMEM cs).live = totalFrames := by
  have hinv := Sys.Inv.run ENOMEM hE cs _ (Sys.Inv.boot totalFrames startaddr hwf) hvalid
  have hlen := Sys.run_length ENOMEM hE cs _ (Sys.Inv.boot totalFrames startaddr hwf) hvalid
  rw [hinv.count, hlen]
  simp [Sys.boot]

/-- **C5 (amended).** Starting from the all-free frame table, after every sequence of allocator
calls that respects the interface contract, the live runs occupy pairwise disjoint
frame-index ranges, and every frame of a live run of length `k` carries the tag `k`. -/
theorem live_runs_disjoint_tagged (ENOMEM totalFrames startaddr : Nat) (cs : List Call)
    (hE : ENOMEM % PAGE_SIZE ≠ 0) (hwf : (Sys.boot totalFrames startaddr).vm.WF)
    (hvalid : (Sys.boot totalFrames startaddr).Valid ENOMEM cs) :
    ((Sys.boot totalFrames startaddr).run ENOMEM cs).live.Pairwise RunsDisjoint ∧
    ∀ r ∈ ((Sys.boot totalFrames startaddr).run ENOMEM cs).live,
      ∀ j, r.1 ≤ j → j < r.1 + r.2 →
        ((Sys.boot totalFrames startaddr).run ENOMEM cs).vm.coremap[j]? = some (r.2 : Int) := by
  have hinv := Sys.Inv.run ENOMEM hE cs _ (Sys.Inv.boot totalFrames startaddr hwf) hvalid
  refine ⟨hinv.disjoint, fun r hr j h1 h2 => ?_⟩
  have := (hinv.tagged r hr).2 (j - r.1) (by omega)
  rw [show r.1 + (j - r.1) = j by omega] at this
  exact this

/-- Witness for the amended C4: three allocations on eight frames, then the middle run is released
and the same address is freed once more. -/
theorem free_plus_live_eq_total_witness :
    freeCount ((Sys.boot 8 8192).run 3
        [.allocate 2, .allocate 3, .allocate 1, .free 2147500032, .free 2147500032]).vm.coremap +
      liveFrames ((Sys.boot 8 8192).run 3
        [.allocate 2, .allocate 3, .allocate 1, .free 2147500032, .free 2147500032]).live = 8 :=
  free_plus_live_eq_total 3 8 8192 [.allocate 2, .allocate 3, .allocate 1, .free 2147500032, .free 2147500032]
    (by decide) (by decide) (by decide)

/-- Witness for the amended C5: two runs stay live after the first of three is released. -/
theorem live_runs_disjoint_tagged_witness :
    ((Sys.boot 6 4096).run 3
        [.allocate 1, .allocate 2, .allocate 2, .free 2147487744]).live.Pairwise RunsDisjoint ∧
    ∀ r ∈ ((Sys.boot 6 4096).run 3
        [.allocate 1, .allocate 2, .allocate 2, .free 2147487744]).live,
      ∀ j, r.1 ≤ j → j < r.1 + r.2 →
        ((Sys.boot 6 4096).run 3
          [.allocate 1, .allocate 2, .allocate 2, .free 2147487744]).vm.coremap[j]? =
            some (r.2 : Int) :=
  live_runs_disjoint_tagged 3 6 4096 [.allocate 1, .allocate 2, .allocate 2, .free 2147487744]
    (by decide) (by decide) (by decide)

/-! ## The ten-frame scenario and first-fit reuse -/

/-- **C6.** On a table of 10 free frames (laid out as at boot at any `startaddr`) the
calls `getppages(4)`, `getppages(3)`, `free_kpages(frame 0)`, `getppages(2)`,
`getppages(5)` give in turn: frame 0 with frames 0-3 tagged 4; frame 4 with frames 4-6
tagged 3; frames 0-3 tagged 0; frame 0 with frames 0-1 tagged 2; and `ENOMEM` with the
table left as `[2,2,0,0,3,3,3,0,0,0]`. -/
theorem scenario_ten_frames (ENOMEM startaddr : Nat)
    (hwf : (VM.mk (List.replicate 10 0) startaddr).WF) :
    getppages ENOMEM ⟨[0, 0, 0, 0, 0, 0, 0, 0, 0, 0], startaddr⟩ 4 =
      (startaddr + 0 * PAGE_SIZE, ⟨[4, 4, 4, 4, 0, 0, 0, 0, 0, 0], startaddr⟩) ∧
    getppages ENOMEM ⟨[4, 4, 4, 4, 0, 0, 0, 0, 0, 0], startaddr⟩ 3 =
      (startaddr + 4 * PAGE_SIZE, ⟨[4, 4, 4, 4, 3, 3, 3, 0, 0, 0], startaddr⟩) ∧
    free_kpages ⟨[4, 4, 4, 4, 3, 3, 3, 0, 0, 0], startaddr⟩
        (PADDR_TO_KVADDR (startaddr + 0 * PAGE_SIZE)) =
      ⟨[0, 0, 0, 0, 3, 3, 3, 0, 0, 0], startaddr⟩ ∧
    getppages ENOMEM ⟨[0, 0, 0, 0, 3, 3, 3, 0, 0, 0], startaddr⟩ 2 =
      (startaddr + 0 * PAGE_SIZE, ⟨[2, 2, 0, 0, 3, 3, 3, 0, 0, 0], startaddr⟩) ∧
    getppages ENOMEM ⟨[2, 2, 0, 0, 3, 3, 3, 0, 0, 0], startaddr⟩ 5 =
      (ENOMEM, ⟨[2, 2, 0, 0, 3, 3, 3, 0, 0, 0], startaddr⟩) := by
  have hwf1 : ∀ cm : List Int, cm.length = 10 → (VM.mk cm startaddr).WF := by
    intro cm hcm
    obtain ⟨h1, h2⟩ := hwf
    refine ⟨h1, ?_⟩
    simp only [List.length_replicate] at h2
    simp only [hcm]
    exact h2
  have f1 : FreeRun ([0, 0, 0, 0, 0, 0, 0, 0, 0, 0] : List Int) 0 4 := by decide
  have f2 : FreeRun ([4, 4, 4, 4, 0, 0, 0, 0, 0, 0] : List Int) 4 3 := by decide
  have l2 : ∀ t, t < 4 → ¬ FreeRun ([4, 4, 4, 4, 0, 0, 0, 0, 0, 0] : List Int) t 3 := by decide
  have e3 : ([4, 4, 4, 4, 3, 3, 3, 0, 0, 0] : List Int)[0]? = some 4 := rfl
  have f4 : FreeRun ([0, 0, 0, 0, 3, 3, 3, 0, 0, 0] : List Int) 0 2 := by decide
  have s5 : (getppages_scan 5 ([2, 2, 0, 0, 3, 3, 3, 0, 0, 0] : List Int) 0 (toInt32 (5 : Nat))
      0).1 ≠ 0 := by decide
  refine ⟨?_, ?_, ?_, ?_, ?_⟩
  · rw [getppages_of_firstFit ENOMEM ⟨[0, 0, 0, 0, 0, 0, 0, 0, 0, 0], startaddr⟩ 4 0
      (by decide) (hwf1 _ rfl) f1 (fun t ht => absurd ht (Nat.not_lt_zero t))]
    rfl
  · rw [getppages_of_firstFit ENOMEM ⟨[4, 4, 4, 4, 0, 0, 0, 0, 0, 0], startaddr⟩ 3 4
      (by decide) (hwf1 _ rfl) f2 l2]
    rfl
  · have h := free_kpages_frame ⟨[4, 4, 4, 4, 3, 3, 3, 0, 0, 0], startaddr⟩ (hwf1 _ rfl) 0 4 e3
    rw [VM.frameAddr_eq ⟨[4, 4, 4, 4, 3, 3, 3, 0, 0, 0], startaddr⟩ (hwf1 _ rfl) 0
      (Nat.zero_le _)] at h
    rw [h]
    rfl
  · rw [getppages_of_firstFit ENOMEM ⟨[0, 0, 0, 0, 3, 3, 3, 0, 0, 0], startaddr⟩ 2 0
      (by decide) (hwf1 _ rfl) f4 (fun t ht => absurd ht (Nat.not_lt_zero t))]
    rfl
  · exact getppages_fail_eq ENOMEM ⟨[2, 2, 0, 0, 3, 3, 3, 0, 0, 0], startaddr⟩ 5 s5

/-- Witness for C6: the scenario with frame 0 at physical address `0x100000`. -/
theorem scenario_ten_frames_witness :
    getppages 3 ⟨[0, 0, 0, 0, 0, 0, 0, 0, 0, 0], 1048576⟩ 4 =
      (1048576 + 0 * PAGE_SIZE, ⟨[4, 4, 4, 4, 0, 0, 0, 0, 0, 0], 1048576⟩) ∧
    getppages 3 ⟨[4, 4, 4, 4, 0, 0, 0, 0, 0, 0], 1048576⟩ 3 =
      (1048576 + 4 * PAGE_SIZE, ⟨[4, 4, 4, 4, 3, 3, 3, 0, 0, 0], 1048576⟩) ∧
    free_kpages ⟨[4, 4, 4, 4, 3, 3, 3, 0, 0, 0], 1048576⟩
        (PADDR_TO_KVADDR (1048576 + 0 * PAGE_SIZE)) =
      ⟨[0, 0, 0, 0, 3, 3, 3, 0, 0, 0], 1048576⟩ ∧
    getppages 3 ⟨[0, 0, 0, 0, 3, 3, 3, 0, 0, 0], 1048576⟩ 2 =
      (1048576 + 0 * PAGE_SIZE, ⟨[2, 2, 0, 0, 3, 3, 3, 0, 0, 0], 1048576⟩) ∧
    getppages 3 ⟨[2, 2, 0, 0, 3, 3, 3, 0, 0, 0], 1048576⟩ 5 =
      (3, ⟨[2, 2, 0, 0, 3, 3, 3, 0, 0, 0], 1048576⟩) :=
  scenario_ten_frames 3 1048576 (by decide)

/-- **C7.** On a live coremap laid out as at boot, for every run of length `k > 0`
starting at frame `s` (frames `s .. s+k-1` all tagged `k`): if, after `free_kpages` of
the address of frame `s`, no run of `k` consecutive free frames starts at an index
below `s`, then an immediately following `getppages(k)` returns the address of frame
`s` and restores the frame table to its state before the free. -/
theorem free_then_allocate_reuses (ENOMEM : Nat) (vm : VM) (s k : Nat) (hwf : vm.WF)
    (hk : 0 < k) (hrun : TaggedRun vm.coremap s k)
    (hfirst : ∀ t, t < s →
      ¬ FreeRun (free_kpages vm (PADDR_TO_KVADDR (vm.startaddr + s * PAGE_SIZE))).coremap t k) :
    getppages ENOMEM (free_kpages vm (PADDR_TO_KVADDR (vm.startaddr + s * PAGE_SIZE))) k =
      (vm.startaddr + s * PAGE_SIZE, vm) := by
  have hb := hrun.tagged_le_length hk
  have hs : vm.coremap[s]? = some (k : Int) := by
    have := hrun 0 hk
    simpa using this
  have heq := free_kpages_frame vm hwf s k hs
  rw [vm.frameAddr_eq hwf s (by omega)] at heq
  simp only [Int.toNat_ofNat] at heq
  rw [heq] at hfirst ⊢
  have hwf1 : (VM.mk (fillRun vm.coremap s 0 k) vm.startaddr).WF := by
    obtain ⟨h1, h2⟩ := hwf
    exact ⟨h1, by simpa [length_fillRun] using h2⟩
  have hfree : FreeRun (fillRun vm.coremap s 0 k) s k := by
    intro j hj
    rw [fillRun_get, if_pos (by omega)]
  rw [getppages_of_firstFit ENOMEM _ k s hk hwf1 hfree hfirst]
  have hback : fillRun (fillRun vm.coremap s 0 k) s (k : Int) k = vm.coremap := by
    apply List.ext_getElem?
    intro j
    rw [fillRun_get, length_fillRun]
    by_cases hj : s ≤ j ∧ j < s + k ∧ j < vm.coremap.length
    · rw [if_pos hj]
      have := hrun (j - s) (by omega)
      rw [show s + (j - s) = j by omega] at this
      exact this.symm
    · rw [if_neg hj, fillRun_get, if_neg hj]
  simp only [hback]

/-- Witness for C7: the run of two at frame 1 is released and taken again. -/
theorem free_then_allocate_reuses_witness :
    getppages 3 (free_kpages ⟨[1, 2, 2, 0, 0], 8192⟩
      (PADDR_TO_KVADDR (8192 + 1 * PAGE_SIZE))) 2 =
      (8192 + 1 * PAGE_SIZE, ⟨[1, 2, 2, 0, 0], 8192⟩) :=
  free_then_allocate_reuses 3 ⟨[1, 2, 2, 0, 0], 8192⟩ 1 2 (by decide) (by decide) (by decide)
    (by decide)

/-! ## `as_prepare_load` -/

/-- Whenever `as_prepare_load` returns, it returns `0`: the table pointers it tests are
never null, so no outcome of the frame allocations reaches a `return ENOMEM`. -/
theorem as_prepare_load_result (ENOMEM : Nat) (kmallocOk : Bool) (as : addrspace) (vm : VM)
    (mem : Mem) (r : Nat × addrspace × VM × Mem)
    (h : as_prepare_load ENOMEM kmallocOk as vm mem = some r) : r.1 = 0 := by
  unfold as_prepare_load at h
  split at h
  · simp only [Option.isNone_some, Bool.false_eq_true, if_false] at h
    split at h
    · injection h with h1
      rw [← h1]
    · cases h
  · cases h

/-- **C8 (the code departs from it).** An address space with two one-page regions, on a
frame table with a single free frame: the first `getppages(1)` succeeds, the other
thirteen return `ENOMEM` (here 3), and `as_prepare_load` still returns `0`, with
`ENOMEM` stored as the frame address of region 2 and of the stack pages. -/
theorem as_prepare_load_ignores_enomem :
    (as_prepare_load 3 true
      ⟨4194304, some [0], 1, 268435456, some [0], 1, none, false, true, true, false⟩
      ⟨[1, 0], 8192⟩ (fun _ => 255)).map (fun r => (r.1, r.2.1, r.2.2.1)) =
    some (0,
      ⟨4194304, some [12288], 1, 268435456, some [3], 1,
        some [3, 3, 3, 3, 3, 3, 3, 3, 3, 3, 3, 3], false, true, true, false⟩,
      ⟨[1, 1], 8192⟩) := by
  decide

theorem length_bind_frames (ENOMEM : Nat) :
    ∀ (remaining i : Nat) (vm : VM) (tbl : List Nat),
      (bind_frames ENOMEM i remaining vm tbl).1.length = tbl.length := by
  intro remaining
  induction remaining with
  | zero =>
    intro i vm tbl
    rfl
  | succ r ih =>
    intro i vm tbl
    simp only [bind_frames, ih, List.length_set]

theorem bzero_keeps_zero (mem : Mem) (p len a : Nat) (h : mem a = 0) : bzero mem p len a = 0 := by
  unfold bzero
  split
  · rfl
  · exact h

theorem zero_frames_keeps_zero :
    ∀ (remaining x : Nat) (tbl : List Nat) (mem : Mem) (a : Nat),
      mem a = 0 → zero_frames x remaining tbl mem a = 0 := by
  intro remaining
  induction remaining with
  | zero =>
    intro x tbl mem a h
    exact h
  | succ r ih =>
    intro x tbl mem a h
    simp only [zero_frames]
    apply ih
    unfold as_zero_region
    exact bzero_keeps_zero mem (PADDR_TO_KVADDR (tbl.getD x 0)) (1 * PAGE_SIZE) a h

theorem zero_frames_zero :
    ∀ (remaining x : Nat) (tbl : List Nat) (mem : Mem) (t b : Nat),
      x ≤ t → t < x + remaining → b < PAGE_SIZE →
      zero_frames x remaining tbl mem (PADDR_TO_KVADDR (tbl.getD t 0) + b) = 0 := by
  intro remaining
  induction remaining with
  | zero =>
    intro x tbl mem t b h1 h2 _
    omega
  | succ r ih =>
    intro x tbl mem t b h1 h2 hb
    simp only [zero_frames]
    by_cases hxt : x = t
    · subst hxt
      apply zero_frames_keeps_zero
      unfold as_zero_region bzero
      rw [if_pos (by omega)]
    · exact ih (x + 1) tbl _ t b (by omega) (by omega) hb

theorem as_prepare_load_eq (ENOMEM : Nat) (as : addrspace) (vm : VM) (mem : Mem)
    (t1 t2 : List Nat) (h1 : as.as_pbase1 = some t1) (h2 : as.as_pbase2 = some t2)
    (h3 : as.as_stackpbase = none) :
    as_prepare_load ENOMEM true as vm mem =
      some (0,
        { as with
          as_pbase1 := some (bind_frames ENOMEM 0 as.as_npages1 vm t1).1,
          as_pbase2 := some (bind_frames ENOMEM 0 as.as_npages2
            (bind_frames ENOMEM 0 as.as_npages1 vm t1).2 t2).1,
          as_stackpbase := some (bind_frames ENOMEM 0 DUMBVM_STACKPAGES
            (bind_frames ENOMEM 0 as.as_npages2
              (bind_frames ENOMEM 0 as.as_npages1 vm t1).2 t2).2
            (List.replicate DUMBVM_STACKPAGES 0)).1 },
        (bind_frames ENOMEM 0 DUMBVM_STACKPAGES
          (bind_frames ENOMEM 0 as.as_npages2
            (bind_frames ENOMEM 0 as.as_npages1 vm t1).2 t2).2
          (List.replicate DUMBVM_STACKPAGES 0)).2,
        zero_frames 0 DUMBVM_STACKPAGES
          (bind_frames ENOMEM 0 DUMBVM_STACKPAGES
            (bind_frames ENOMEM 0 as.as_npages2
              (bind_frames ENOMEM 0 as.as_npages1 vm t1).2 t2).2
            (List.replicate DUMBVM_STACKPAGES 0)).1
          (zero_frames 0 as.as_npages2
            (bind_frames ENOMEM 0 as.as_npages2
              (bind_frames ENOMEM 0 as.as_npages1 vm t1).2 t2).1
            (zero_frames 0 as.as_npages1 (bind_frames ENOMEM 0 as.as_npages1 vm t1).1 mem))) := by
  unfold as_prepare_load
  rw [h1, h2, h3]
  rfl

theorem as_prepare_load_no_table (ENOMEM : Nat) (as : addrspace) (vm : VM) (mem : Mem) :
    as_prepare_load ENOMEM false as vm mem = none := by
  unfold as_prepare_load
  split
  · simp only [Option.isNone_some, Bool.false_eq_true, if_false]
  · rfl

theorem getElem?_getD_of_lt (tbl : List Nat) (i : Nat) (h : i < tbl.length) :
    tbl[i]? = some (tbl.getD i 0) := by
  rw [List.getD_eq_getElem?_getD, List.getElem?_eq_getElem h]
  rfl

/-- **C10.** For an address space with both regions defined, whatever the memory held
before: after `as_prepare_load` returns `0`, each page of region 1, of region 2 and of
the 12-page stack has a frame address in its table, and every byte of that frame
(`PAGE_SIZE` bytes from its kernel address) reads as zero. -/
theorem as_prepare_load_zeroes (ENOMEM : Nat) (kmallocOk : Bool) (as as' : addrspace)
    (vm vm' : VM) (mem mem' : Mem) (hdef : as.RegionsDefined)
    (hret : as_prepare_load ENOMEM kmallocOk as vm mem = some (0, as', vm', mem')) :
    ∃ t1 t2 ts, as'.as_pbase1 = some t1 ∧ as'.as_pbase2 = some t2 ∧
      as'.as_stackpbase = some ts ∧
      (∀ i, i < as'.as_npages1 → ∃ p, t1[i]? = some p ∧
        ∀ b, b < PAGE_SIZE → mem' (PADDR_TO_KVADDR p + b) = 0) ∧
      (∀ i, i < as'.as_npages2 → ∃ p, t2[i]? = some p ∧
        ∀ b, b < PAGE_SIZE → mem' (PADDR_TO_KVADDR p + b) = 0) ∧
      (∀ i, i < DUMBVM_STACKPAGES → ∃ p, ts[i]? = some p ∧
        ∀ b, b < PAGE_SIZE → mem' (PADDR_TO_KVADDR p + b) = 0) := by
  obtain ⟨hd1, hd2, hd3⟩ := hdef
  cases h1 : as.as_pbase1 with
  | none => rw [h1] at hd1; cases hd1
  | some t1 =>
  cases h2 : as.as_pbase2 with
  | none => rw [h2] at hd2; cases hd2
  | some t2 =>
  rw [h1] at hd1
  rw [h2] at hd2
  simp only [Option.map_some', Option.some.injEq] at hd1 hd2
  cases kmallocOk with
  | false =>
    rw [as_prepare_load_no_table] at hret
    cases hret
  | true =>
    rw [as_prepare_load_eq ENOMEM as vm mem t1 t2 h1 h2 hd3] at hret
    simp only [Option.some.injEq, Prod.mk.injEq, true_and] at hret
    obtain ⟨has, _, hmem⟩ := hret
    subst has
    subst hmem
    refine ⟨_, _, _, rfl, rfl, rfl, ?_, ?_, ?_⟩
    · intro i hi
      simp only at hi
      refine ⟨_, getElem?_getD_of_lt _ i (by rw [length_bind_frames]; omega), ?_⟩
      intro b hb
      apply zero_frames_keeps_zero
      apply zero_frames_keeps_zero
      exact zero_frames_zero _ 0 _ _ i b (Nat.zero_le _) (by omega) hb
    · intro i hi
      simp only at hi
      refine ⟨_, getElem?_getD_of_lt _ i (by rw [length_bind_frames]; omega), ?_⟩
      intro b hb
      apply zero_frames_keeps_zero
      exact zero_frames_zero _ 0 _ _ i b (Nat.zero_le _) (by omega) hb
    · intro i hi
      refine ⟨_, getElem?_getD_of_lt _ i
        (by rw [length_bind_frames, List.length_replicate]; exact hi), ?_⟩
      intro b hb
      exact zero_frames_zero _ 0 _ _ i b (Nat.zero_le _) (by omega) hb

/-- Witness for C10: two one-page regions on a table with room for all fourteen frames,
the memory holding `0xff` everywhere before the call. -/
theorem as_prepare_load_zeroes_witness :
    ∃ as' vm' mem',
      as_prepare_load 3 true
        ⟨4194304, some [0], 1, 268435456, some [0], 1, none, false, true, true, false⟩
        ⟨List.replicate 16 0, 8192⟩ (fun _ => 255) = some (0, as', vm', mem') ∧
      ∃ t1 t2 ts, as'.as_pbase1 = some t1 ∧ as'.as_pbase2 = some t2 ∧
        as'.as_stackpbase = some ts ∧
        (∀ i, i < as'.as_npages1 → ∃ p, t1[i]? = some p ∧
          ∀ b, b < PAGE_SIZE → mem' (PADDR_TO_KVADDR p + b) = 0) ∧
        (∀ i, i < as'.as_npages2 → ∃ p, t2[i]? = some p ∧
          ∀ b, b < PAGE_SIZE → mem' (PADDR_TO_KVADDR p + b) = 0) ∧
        (∀ i, i < DUMBVM_STACKPAGES → ∃ p, ts[i]? = some p ∧
          ∀ b, b < PAGE_SIZE → mem' (PADDR_TO_KVADDR p + b) = 0) :=
  ⟨_, _, _, as_prepare_load_eq 3 _ _ _ [0] [0] rfl rfl rfl,
    as_prepare_load_zeroes 3 true
      ⟨4194304, some [0], 1, 268435456, some [0], 1, none, false, true, true, false⟩ _
      ⟨List.replicate 16 0, 8192⟩ _ (fun _ => 255) _ (by decide)
      (as_prepare_load_eq 3 _ _ _ [0] [0] rfl rfl rfl)⟩

/-! ## Binding frames one at a time -/

theorem VM.WF.of_eq {vm vm2 : VM} (hwf : vm.WF) (h1 : vm2.startaddr = vm.startaddr)
    (h2 : vm2.coremap.length = vm.coremap.length) : vm2.WF := by
  obtain ⟨ha, hb⟩ := hwf
  unfold VM.WF
  rw [h1, h2]
  exact ⟨ha, hb⟩

theorem FramesBound.refl (vm : VM) : FramesBound vm vm [] := by
  refine ⟨rfl, rfl, List.nodup_nil, ?_, ?_, ?_⟩
  · intro f hf
    cases hf
  · intro j
    simp
  · simp

theorem FramesBound.trans {vm vm1 vm2 : VM} {fs1 fs2 : List Nat}
    (h1 : FramesBound vm vm1 fs1) (h2 : FramesBound vm1 vm2 fs2) :
    FramesBound vm vm2 (fs1 ++ fs2) := by
  have hdisj : ∀ f, f ∈ fs1 → f ∈ fs2 → False := by
    intro f hf1 hf2
    have ha := h1.tags f
    rw [if_pos hf1, h2.free f hf2] at ha
    injection ha with hb
    omega
  refine ⟨h2.startaddr.trans h1.startaddr, h2.length.trans h1.length, ?_, ?_, ?_, ?_⟩
  · rw [List.nodup_append]
    exact ⟨h1.nodup, h2.nodup, fun {a} ha hb => hdisj a ha hb⟩
  · intro f hf
    rcases List.mem_append.1 hf with hf1 | hf2
    · exact h1.free f hf1
    · have ha := h1.tags f
      rw [if_neg (fun hf1 => hdisj f hf1 hf2), h2.free f hf2] at ha
      exact ha.symm
  · intro j
    rw [h2.tags j, h1.tags j]
    by_cases hj2 : j ∈ fs2
    · simp [hj2]
    · by_cases hj1 : j ∈ fs1
      · simp [hj1]
      · simp [hj1, hj2]
  · have ha := h1.count
    have hb := h2.count
    simp only [List.length_append]
    omega

/-- With a free frame present, `getppages(1)` takes the first free frame. -/
theorem getppages_one (ENOMEM : Nat) (vm : VM) (hwf : vm.WF) (hfree : 0 < freeCount vm.coremap) :
    ∃ m, (getppages ENOMEM vm 1).1 = vm.startaddr + m * PAGE_SIZE ∧
      FramesBound vm (getppages ENOMEM vm 1).2 [m] := by
  have hmem : (0 : Int) ∈ vm.coremap := List.count_pos_iff.1 hfree
  obtain ⟨i, hi⟩ := List.mem_iff_getElem?.1 hmem
  have hrun : FreeRun vm.coremap i 1 := by
    intro j hj
    have hj0 : j = 0 := by omega
    subst hj0
    exact hi
  obtain ⟨m, hm, hleast⟩ := exists_least_freeRun vm.coremap 1 i hrun
  have hb := hm.run_le_length (by decide)
  refine ⟨m, ?_, ?_⟩
  · rw [getppages_of_firstFit ENOMEM vm 1 m (by decide) hwf hm hleast]
  · rw [getppages_of_firstFit ENOMEM vm 1 m (by decide) hwf hm hleast]
    simp only [Nat.cast_one]
    refine ⟨rfl, length_fillRun _ _ _ _, List.nodup_singleton m, ?_, ?_, ?_⟩
    · intro f hf
      simp only [List.mem_singleton] at hf
      subst hf
      have := hm 0 (by decide)
      simpa using this
    · intro j
      simp only [fillRun_get, List.mem_singleton]
      by_cases hj : j = m
      · subst hj
        rw [if_pos (by omega), if_pos rfl]
      · rw [if_neg (by omega), if_neg hj]
    · have hc2 := freeCount_of_run vm.coremap m 0 1 (by decide) hm
      have hc3 := freeCount_fillRun vm.coremap m 1 1 hb
      simp only [eq_self_iff_true, if_true] at hc2
      simp only [one_ne_zero, if_false] at hc3
      simp only [List.length_singleton, hc3]
      omega

theorem bind_frames_spec (ENOMEM : Nat) :
    ∀ (remaining i : Nat) (vm : VM) (tbl : List Nat), vm.WF →
      remaining ≤ freeCount vm.coremap → i + remaining ≤ tbl.length →
      ∃ frames : List Nat, frames.length = remaining ∧
        FramesBound vm (bind_frames ENOMEM i remaining vm tbl).2 frames ∧
        ∀ t, (bind_frames ENOMEM i remaining vm tbl).1[t]? =
          if i ≤ t ∧ t < i + remaining then
            (frames[t - i]?).map (fun f => vm.startaddr + f * PAGE_SIZE)
          else tbl[t]? := by
  intro remaining
  induction remaining with
  | zero =>
    intro i vm tbl _ _ _
    refine ⟨[], rfl, FramesBound.refl vm, fun t => ?_⟩
    simp only [bind_frames]
    rw [if_neg (by omega)]
  | succ r ih =>
    intro i vm tbl hwf hcount hlen
    obtain ⟨m, haddr, hb1⟩ := getppages_one ENOMEM vm hwf (by omega)
    have hwf1 : (getppages ENOMEM vm 1).2.WF := hwf.of_eq hb1.startaddr hb1.length
    have hc1 := hb1.count
    simp only [List.length_singleton] at hc1
    obtain ⟨frames, hfl, hb2, htbl⟩ := ih (i + 1) (getppages ENOMEM vm 1).2
      (tbl.set i (getppages ENOMEM vm 1).1) hwf1 (by omega)
      (by rw [List.length_set]; omega)
    refine ⟨m :: frames, by simp [hfl], ?_, fun t => ?_⟩
    · simp only [bind_frames]
      exact FramesBound.trans hb1 hb2
    · simp only [bind_frames]
      rw [htbl t, hb1.startaddr, haddr]
      by_cases ht : t = i
      · subst ht
        rw [if_neg (by omega), if_pos (by omega), List.getElem?_set]
        simp only [if_true, Nat.sub_self, List.getElem?_cons_zero, Option.map_some']
        rw [if_pos (by omega)]
      · by_cases hin : i + 1 ≤ t ∧ t < i + 1 + r
        · rw [if_pos hin, if_pos (by omega)]
          have hsub : t - i = (t - (i + 1)) + 1 := by omega
          rw [hsub, List.getElem?_cons_succ]
        · rw [if_neg hin, if_neg (by omega), List.getElem?_set]
          rw [if_neg (fun h => ht h.symm)]

/-- A table filled from index 0 over its whole length holds the addresses of the bound
frames, in order. -/
theorem bind_frames_full (ENOMEM : Nat) (vm : VM) (tbl : List Nat) (hwf : vm.WF)
    (hcount : tbl.length ≤ freeCount vm.coremap) :
    ∃ frames : List Nat, frames.length = tbl.length ∧
      FramesBound vm (bind_frames ENOMEM 0 tbl.length vm tbl).2 frames ∧
      (bind_frames ENOMEM 0 tbl.length vm tbl).1 =
        frames.map (fun f => vm.startaddr + f * PAGE_SIZE) := by
  obtain ⟨frames, hfl, hb, htbl⟩ :=
    bind_frames_spec ENOMEM tbl.length 0 vm tbl hwf hcount (by omega)
  refine ⟨frames, hfl, hb, ?_⟩
  apply List.ext_getElem?
  intro t
  rw [htbl t, List.getElem?_map]
  by_cases ht : t < tbl.length
  · rw [if_pos (by omega)]
    simp
  · rw [if_neg (by omega), List.getElem?_eq_none (by omega),
      List.getElem?_eq_none (by omega)]
    rfl

/-- **C9.** For an address space with both regions defined (and the `kmalloc` of the
stack table succeeding), on a live coremap laid out as at boot that holds at least
`as_npages1 + as_npages2 + 12` free frames, contiguous or not: `as_prepare_load` returns
`0` and binds one frame per page of region 1, of region 2 and of the stack (the tables
hold the frames `f1`, `f2`, `f3`); the bound frames are pairwise distinct, each was
tagged `0` before the call and is tagged `1` after it, and no other tag changes. -/
theorem as_prepare_load_binds (ENOMEM : Nat) (as : addrspace) (vm : VM) (mem : Mem)
    (hdef : as.RegionsDefined) (hwf : vm.WF)
    (hfree : as.as_npages1 + as.as_npages2 + DUMBVM_STACKPAGES ≤ freeCount vm.coremap) :
    ∃ (f1 f2 f3 : List Nat) (vm' : VM) (mem' : Mem),
      as_prepare_load ENOMEM true as vm mem =
        some (0,
          { as with
            as_pbase1 := some (f1.map (fun f => vm.startaddr + f * PAGE_SIZE)),
            as_pbase2 := some (f2.map (fun f => vm.startaddr + f * PAGE_SIZE)),
            as_stackpbase := some (f3.map (fun f => vm.startaddr + f * PAGE_SIZE)) },
          vm', mem') ∧
      f1.length = as.as_npages1 ∧ f2.length = as.as_npages2 ∧
      f3.length = DUMBVM_STACKPAGES ∧
      (f1 ++ f2 ++ f3).Nodup ∧
      (∀ f ∈ f1 ++ f2 ++ f3, vm.coremap[f]? = some 0 ∧ vm'.coremap[f]? = some 1) ∧
      (∀ j, j ∉ f1 ++ f2 ++ f3 → vm'.coremap[j]? = vm.coremap[j]?) ∧
      vm'.coremap.length = vm.coremap.length ∧ vm'.startaddr = vm.startaddr := by
  obtain ⟨hd1, hd2, hd3⟩ := hdef
  cases h1 : as.as_pbase1 with
  | none => rw [h1] at hd1; cases hd1
  | some t1 =>
  cases h2 : as.as_pbase2 with
  | none => rw [h2] at hd2; cases hd2
  | some t2 =>
  rw [h1] at hd1
  rw [h2] at hd2
  simp only [Option.map_some', Option.some.injEq] at hd1 hd2
  obtain ⟨f1, hl1, hb1, ht1⟩ := bind_frames_full ENOMEM vm t1 hwf (by omega)
  rw [hd1] at hl1 hb1 ht1
  have hc1 := hb1.count
  have hwf1 := hwf.of_eq hb1.startaddr hb1.length
  obtain ⟨f2, hl2, hb2, ht2⟩ := bind_frames_full ENOMEM
    (bind_frames ENOMEM 0 as.as_npages1 vm t1).2 t2 hwf1 (by omega)
  rw [hd2] at hl2 hb2 ht2
  rw [hb1.startaddr] at ht2
  have hc2 := hb2.count
  have hb12 := FramesBound.trans hb1 hb2
  have hwf2 := hwf.of_eq hb12.startaddr hb12.length
  obtain ⟨f3, hl3, hb3, ht3⟩ := bind_frames_full ENOMEM
    (bind_frames ENOMEM 0 as.as_npages2 (bind_frames ENOMEM 0 as.as_npages1 vm t1).2 t2).2
    (List.replicate DUMBVM_STACKPAGES 0) hwf2
    (by rw [List.length_replicate]; omega)
  rw [List.length_replicate] at hl3 hb3 ht3
  rw [hb12.startaddr] at ht3
  have hb := FramesBound.trans hb12 hb3
  have hres := as_prepare_load_eq ENOMEM as vm mem t1 t2 h1 h2 hd3
  rw [ht1, ht2, ht3] at hres
  exact ⟨f1, f2, f3, _, _, hres, hl1, hl2, hl3, hb.nodup,
    fun f hf => ⟨hb.free f hf, by rw [hb.tags f, if_pos hf]⟩,
    fun j hj => by rw [hb.tags j, if_neg hj], hb.length, hb.startaddr⟩

/-- Witness for C9: a fragmented table of twenty-one frames, fourteen of them free, and an
address space with two one-page regions. -/
theorem as_prepare_load_binds_witness :
    ∃ (f1 f2 f3 : List Nat) (vm' : VM) (mem' : Mem),
      as_prepare_load 3 true
        ⟨4194304, some [0], 1, 268435456, some [0], 1, none, false, true, true, false⟩
        ⟨[1, 0, 0, 2, 2, 0, 0, 0, 1, 0, 0, 0, 3, 3, 3, 0, 0, 0, 0, 0, 0], 8192⟩ (fun _ => 255) =
        some (0,
          { (⟨4194304, some [0], 1, 268435456, some [0], 1, none, false, true, true, false⟩ :
              addrspace) with
            as_pbase1 := some (f1.map (fun f => 8192 + f * PAGE_SIZE)),
            as_pbase2 := some (f2.map (fun f => 8192 + f * PAGE_SIZE)),
            as_stackpbase := some (f3.map (fun f => 8192 + f * PAGE_SIZE)) },
          vm', mem') ∧
      f1.length = 1 ∧ f2.length = 1 ∧ f3.length = DUMBVM_STACKPAGES ∧
      (f1 ++ f2 ++ f3).Nodup ∧
      (∀ f ∈ f1 ++ f2 ++ f3,
        ([1, 0, 0, 2, 2, 0, 0, 0, 1, 0, 0, 0, 3, 3, 3, 0, 0, 0, 0, 0, 0] : List Int)[f]? = some 0 ∧
        vm'.coremap[f]? = some 1) ∧
      (∀ j, j ∉ f1 ++ f2 ++ f3 → vm'.coremap[j]? =
        ([1, 0, 0, 2, 2, 0, 0, 0, 1, 0, 0, 0, 3, 3, 3, 0, 0, 0, 0, 0, 0] : List Int)[j]?) ∧
      vm'.coremap.length = 21 ∧ vm'.startaddr = 8192 :=
  as_prepare_load_binds 3
    ⟨4194304, some [0], 1, 268435456, some [0], 1, none, false, true, true, false⟩
    ⟨[1, 0, 0, 2, 2, 0, 0, 0, 1, 0, 0, 0, 3, 3, 3, 0, 0, 0, 0, 0, 0], 8192⟩ (fun _ => 255)
    (by decide) (by decide) (by decide)

/-! ## Page masks -/

theorem land_bnot32_PAGE_FRAME (x : Nat) : x &&& bnot32 PAGE_FRAME = x % PAGE_SIZE := by
  have h := Nat.and_pow_two_sub_one_eq_mod x 12
  have e1 : bnot32 PAGE_FRAME = 2 ^ 12 - 1 := by decide
  have e2 : PAGE_SIZE = 2 ^ 12 := by decide
  rw [e1, e2]
  exact h

theorem land_PAGE_FRAME (x : Nat) (hx : x < 4294967296) :
    x &&& PAGE_FRAME = x - x % PAGE_SIZE := by
  have e1 : PAGE_FRAME = 2 ^ 12 * (2 ^ 20 - 1) := by decide
  have key : x &&& PAGE_FRAME = 2 ^ 12 * (x / 2 ^ 12) := by
    apply Nat.eq_of_testBit_eq
    intro i
    rw [Nat.testBit_and, e1, Nat.testBit_mul_pow_two, Nat.testBit_mul_pow_two,
      Nat.testBit_two_pow_sub_one, ← Nat.shiftRight_eq_div_pow, Nat.testBit_shiftRight]
    by_cases hi : i ≥ 12
    · have e : 12 + (i - 12) = i := by omega
      rw [e]
      by_cases h32 : i - 12 < 20
      · simp [hi, h32]
      · have hlt : x < 2 ^ i := by
          have : (2 : Nat) ^ 32 ≤ 2 ^ i := Nat.pow_le_pow_right (by decide) (by omega)
          omega
        simp [hi, h32, Nat.testBit_lt_two_pow hlt]
    · simp [hi]
  rw [key]
  unfold PAGE_SIZE
  omega

/-! ## `as_define_region` and `as_complete_load` -/

/-- With both regions taken, `as_define_region` only rewrites the permission flags. -/
theorem as_define_region_full (EUNIMP : Nat) (kmallocOk : Bool) (as : addrspace)
    (vaddr sz : Nat) (readable writeable executable : Int)
    (h1 : as.as_vbase1 ≠ 0) (h2 : as.as_vbase2 ≠ 0) :
    as_define_region EUNIMP kmallocOk as vaddr sz readable writeable executable =
      (EUNIMP, { as with readable := decide (readable ≠ 0),
                         writeable := decide (writeable ≠ 0),
                         executable := decide (executable ≠ 0) }) := by
  unfold as_define_region
  simp only [h1, h2, if_false]

/-- **C14 (as stated, refuted).** A fresh address space on which two regions have been
defined, both calls returning `0`: 8192 bytes at `0x400000`, then 100 bytes at `0x123`.
The second region's aligned base is `0`, so region 2, with its one-page table, looks
unset: a third request (8192 bytes at `0x20000000`) returns `0`, not `EUNIMP` (here 1),
and replaces the base, the page count and the table of region 2. -/
theorem as_define_region_third_accepted :
    as_define_region 1 true ⟨0, none, 0, 0, none, 0, none, false, true, true, false⟩
        4194304 8192 1 0 1 =
      (0, ⟨4194304, some [0, 0], 2, 0, none, 0, none, false, true, false, true⟩) ∧
    as_define_region 1 true
        ⟨4194304, some [0, 0], 2, 0, none, 0, none, false, true, false, true⟩
        291 100 1 1 0 =
      (0, ⟨4194304, some [0, 0], 2, 0, some [0], 1, none, false, true, true, false⟩) ∧
    addrspace.RegionsDefined
      ⟨4194304, some [0, 0], 2, 0, some [0], 1, none, false, true, true, false⟩ ∧
    as_define_region 1 true
        ⟨4194304, some [0, 0], 2, 0, some [0], 1, none, false, true, true, false⟩
        536870912 8192 1 1 0 =
      (0, ⟨4194304, some [0, 0], 2, 536870912, some [0, 0], 2, none, false, true, true,
        false⟩) ∧
    (0 : Nat) ≠ 1 := by
  decide

/-- **C14 (amended).** For every address space in which region 1 and region 2 are both
already defined with an aligned base other than `0` (`as_vbase1` and `as_vbase2`
non-zero) and for every requested base, size and permissions, `as_define_region` returns `EUNIMP` and leaves the virtual base, the page
count and the frame table of both regions unchanged. -/
theorem as_define_region_third (EUNIMP : Nat) (kmallocOk : Bool) (as : addrspace)
    (vaddr sz : Nat) (readable writeable executable : Int)
    (h1 : as.as_vbase1 ≠ 0) (h2 : as.as_vbase2 ≠ 0) :
    (as_define_region EUNIMP kmallocOk as vaddr sz readable writeable executable).1 = EUNIMP ∧
    (as_define_region EUNIMP kmallocOk as vaddr sz readable writeable executable).2.as_vbase1 =
      as.as_vbase1 ∧
    (as_define_region EUNIMP kmallocOk as vaddr sz readable writeable executable).2.as_npages1 =
      as.as_npages1 ∧
    (as_define_region EUNIMP kmallocOk as vaddr sz readable writeable executable).2.as_pbase1 =
      as.as_pbase1 ∧
    (as_define_region EUNIMP kmallocOk as vaddr sz readable writeable executable).2.as_vbase2 =
      as.as_vbase2 ∧
    (as_define_region EUNIMP kmallocOk as vaddr sz readable writeable executable).2.as_npages2 =
      as.as_npages2 ∧
    (as_define_region EUNIMP kmallocOk as vaddr sz readable writeable executable).2.as_pbase2 =
      as.as_pbase2 := by
  rw [as_define_region_full EUNIMP kmallocOk as vaddr sz readable writeable executable h1 h2]
  exact ⟨rfl, rfl, rfl, rfl, rfl, rfl, rfl⟩

/-- Witness for the amended C14: a third region requested at `0x20000000` from an address space
holding a code region and a data region. -/
theorem as_define_region_third_witness :
    (as_define_region 1 true
      ⟨4194304, some [0, 0], 2, 268435456, some [0], 1, none, false, true, false, true⟩
      536870912 8192 1 1 0).1 = 1 ∧
    (as_define_region 1 true
      ⟨4194304, some [0, 0], 2, 268435456, some [0], 1, none, false, true, false, true⟩
      536870912 8192 1 1 0).2.as_vbase1 = 4194304 ∧
    (as_define_region 1 true
      ⟨4194304, some [0, 0], 2, 268435456, some [0], 1, none, false, true, false, true⟩
      536870912 8192 1 1 0).2.as_npages1 = 2 ∧
    (as_define_region 1 true
      ⟨4194304, some [0, 0], 2, 268435456, some [0], 1, none, false, true, false, true⟩
      536870912 8192 1 1 0).2.as_pbase1 = some [0, 0] ∧
    (as_define_region 1 true
      ⟨4194304, some [0, 0], 2, 268435456, some [0], 1, none, false, true, false, true⟩
      536870912 8192 1 1 0).2.as_vbase2 = 268435456 ∧
    (as_define_region 1 true
      ⟨4194304, some [0, 0], 2, 268435456, some [0], 1, none, false, true, false, true⟩
      536870912 8192 1 1 0).2.as_npages2 = 1 ∧
    (as_define_region 1 true
      ⟨4194304, some [0, 0], 2, 268435456, some [0], 1, none, false, true, false, true⟩
      536870912 8192 1 1 0).2.as_pbase2 = some [0] :=
  as_define_region_third 1 true
    ⟨4194304, some [0, 0], 2, 268435456, some [0], 1, none, false, true, false, true⟩
    536870912 8192 1 1 0 (by decide) (by decide)

/-- **C15 (as stated, refuted).** A third region requested with write permission from an
address space whose `writeable` flag is clear: the call returns `EUNIMP` (here 1) and
the address space is not what it was, its `writeable` flag now being set. -/
theorem as_define_region_third_writes_flags :
    (as_define_region 1 true
      ⟨4194304, some [0, 0], 2, 268435456, some [0], 1, none, false, true, false, true⟩
      536870912 8192 1 1 0).1 = 1 ∧
    (as_define_region 1 true
      ⟨4194304, some [0, 0], 2, 268435456, some [0], 1, none, false, true, false, true⟩
      536870912 8192 1 1 0).2 ≠
      ⟨4194304, some [0, 0], 2, 268435456, some [0], 1, none, false, true, false, true⟩ ∧
    (as_define_region 1 true
      ⟨4194304, some [0, 0], 2, 268435456, some [0], 1, none, false, true, false, true⟩
      536870912 8192 1 1 0).2.writeable = true := by
  decide

/-- **C15 (amended).** When `as_define_region` fails with `EUNIMP` (both regions already
defined), every field of the address space other than the three permission flags has
the value it had before the call, and the three flags record the permissions of the
rejected request. -/
theorem as_define_region_third_flags_only (EUNIMP : Nat) (kmallocOk : Bool) (as : addrspace)
    (vaddr sz : Nat) (readable writeable executable : Int)
    (h1 : as.as_vbase1 ≠ 0) (h2 : as.as_vbase2 ≠ 0) :
    as_define_region EUNIMP kmallocOk as vaddr sz readable writeable executable =
      (EUNIMP,
        ⟨as.as_vbase1, as.as_pbase1, as.as_npages1, as.as_vbase2, as.as_pbase2, as.as_npages2,
          as.as_stackpbase, as.complete,
          decide (readable ≠ 0), decide (writeable ≠ 0), decide (executable ≠ 0)⟩) :=
  as_define_region_full EUNIMP kmallocOk as vaddr sz readable writeable executable h1 h2

/-- Witness for the amended C15. -/
theorem as_define_region_third_flags_only_witness :
    as_define_region 1 true
      ⟨4194304, some [0, 0], 2, 268435456, some [0], 1, none, false, true, false, true⟩
      536870912 8192 1 1 0 =
      (1, ⟨4194304, some [0, 0], 2, 268435456, some [0], 1, none, false,
        decide ((1 : Int) ≠ 0), decide ((1 : Int) ≠ 0), decide ((0 : Int) ≠ 0)⟩) :=
  as_define_region_third_flags_only 1 true
    ⟨4194304, some [0, 0], 2, 268435456, some [0], 1, none, false, true, false, true⟩
    536870912 8192 1 1 0 (by decide) (by decide)

/-- **C17 (as stated, refuted).** `as_complete_load` on an address space whose `complete`
flag is clear returns `0` and leaves the flag clear. -/
theorem as_complete_load_leaves_flag :
    (as_complete_load
      ⟨4194304, some [8192, 12288], 2, 268435456, some [16384], 1, none, false, true, true,
        true⟩).1 = 0 ∧
    (as_complete_load
      ⟨4194304, some [8192, 12288], 2, 268435456, some [16384], 1, none, false, true, true,
        true⟩).2.complete = false := by
  decide

/-- **C17 (amended).** For every address space, `as_complete_load` returns `0` and changes
no field of the address space, the `complete` flag included. -/
theorem as_complete_load_noop (as : addrspace) : as_complete_load as = (0, as) := rfl

/-- The base and the page count `as_define_region` computes, when the size rounded up
to whole pages fits a 32-bit word. -/
theorem as_define_region_geometry (vaddr sz : Nat) (hv : vaddr < 4294967296)
    (hfit : sz + vaddr % PAGE_SIZE + PAGE_SIZE - 1 < 4294967296) :
    vaddr &&& PAGE_FRAME = vaddr - vaddr % PAGE_SIZE ∧
    (u32 (u32 (sz + (vaddr &&& bnot32 PAGE_FRAME)) + PAGE_SIZE - 1) &&& PAGE_FRAME) / PAGE_SIZE =
      (sz + vaddr % PAGE_SIZE + PAGE_SIZE - 1) / PAGE_SIZE := by
  refine ⟨land_PAGE_FRAME vaddr hv, ?_⟩
  rw [land_bnot32_PAGE_FRAME]
  have e1 : u32 (sz + vaddr % PAGE_SIZE) = sz + vaddr % PAGE_SIZE := by
    unfold u32
    unfold PAGE_SIZE at *
    omega
  have e2 : u32 (sz + vaddr % PAGE_SIZE + PAGE_SIZE - 1) = sz + vaddr % PAGE_SIZE + PAGE_SIZE - 1 := by
    unfold u32
    unfold PAGE_SIZE at *
    omega
  rw [e1, e2, land_PAGE_FRAME _ hfit]
  unfold PAGE_SIZE
  omega

/-- **C16 (as stated, refuted).** A region requested at base `0` with size `2^32 - 1`
(so that base plus size does not overflow 32 bits) on a fresh address space: the call
succeeds and records page count `0`, although the range needs `2^20` pages; the
recorded range `[0, 0)` does not contain `[0, 2^32 - 1)`. -/
theorem as_define_region_wraps :
    0 + 4294967295 < 4294967296 ∧
    (as_define_region 1 true
      ⟨0, none, 0, 0, none, 0, none, false, false, false, false⟩ 0 4294967295 1 1 0).1 = 0 ∧
    (as_define_region 1 true
      ⟨0, none, 0, 0, none, 0, none, false, false, false, false⟩ 0 4294967295 1 1 0).2.as_npages1
      = 0 ∧
    (4294967295 + 0 % PAGE_SIZE + PAGE_SIZE - 1) / PAGE_SIZE = 1048576 ∧
    ¬ (0 + 4294967295 ≤
      (as_define_region 1 true
        ⟨0, none, 0, 0, none, 0, none, false, false, false, false⟩ 0 4294967295 1 1 0).2.as_vbase1 +
      (as_define_region 1 true
        ⟨0, none, 0, 0, none, 0, none, false, false, false, false⟩ 0 4294967295 1 1
          0).2.as_npages1 * PAGE_SIZE) := by
  decide

/-- **C16 (amended).** For every requested virtual base `v` and size `sz` such that the
size rounded up to whole pages fits a 32-bit word (`sz + v mod PAGE_SIZE + PAGE_SIZE - 1
< 2^32`), a successful `as_define_region` (one of the two regions still unset) records,
in region 1 if it was unset and else in region 2, the base `v` rounded down to a multiple
of the page size and the page count `ceil ((sz + v mod PAGE_SIZE) / PAGE_SIZE)`; the
recorded page-aligned range contains `[v, v + sz)` and no smaller page count does. -/
theorem as_define_region_aligns (EUNIMP : Nat) (kmallocOk : Bool) (as : addrspace)
    (v sz : Nat) (readable writeable executable : Int) (hv : v < 4294967296)
    (hfit : sz + v % PAGE_SIZE + PAGE_SIZE - 1 < 4294967296)
    (hfree : as.as_vbase1 = 0 ∨ as.as_vbase2 = 0) :
    (as_define_region EUNIMP kmallocOk as v sz readable writeable executable).1 = 0 ∧
    (as.as_vbase1 = 0 →
      (as_define_region EUNIMP kmallocOk as v sz readable writeable executable).2.as_vbase1 =
        v - v % PAGE_SIZE ∧
      (as_define_region EUNIMP kmallocOk as v sz readable writeable executable).2.as_npages1 =
        (sz + v % PAGE_SIZE + PAGE_SIZE - 1) / PAGE_SIZE) ∧
    (as.as_vbase1 ≠ 0 →
      (as_define_region EUNIMP kmallocOk as v sz readable writeable executable).2.as_vbase2 =
        v - v % PAGE_SIZE ∧
      (as_define_region EUNIMP kmallocOk as v sz readable writeable executable).2.as_npages2 =
        (sz + v % PAGE_SIZE + PAGE_SIZE - 1) / PAGE_SIZE) ∧
    (v - v % PAGE_SIZE) % PAGE_SIZE = 0 ∧
    v - v % PAGE_SIZE ≤ v ∧ v < v - v % PAGE_SIZE + PAGE_SIZE ∧
    v + sz ≤ v - v % PAGE_SIZE + (sz + v % PAGE_SIZE + PAGE_SIZE - 1) / PAGE_SIZE * PAGE_SIZE ∧
    ∀ m, m < (sz + v % PAGE_SIZE + PAGE_SIZE - 1) / PAGE_SIZE →
      v - v % PAGE_SIZE + m * PAGE_SIZE < v + sz := by
  obtain ⟨hbase, hn⟩ := as_define_region_geometry v sz hv hfit
  refine ⟨?_, ?_, ?_, ?_, ?_, ?_, ?_, ?_⟩
  · unfold as_define_region
    by_cases h1 : as.as_vbase1 = 0
    · simp only [h1, if_true]
    · have h2 : as.as_vbase2 = 0 := by
        rcases hfree with h | h
        · exact absurd h h1
        · exact h
      simp only [h1, h2, if_true, if_false]
  · intro h1
    unfold as_define_region
    simp only [h1, if_true, hbase, hn, and_self]
  · intro h1
    have h2 : as.as_vbase2 = 0 := by
      rcases hfree with h | h
      · exact absurd h h1
      · exact h
    unfold as_define_region
    simp only [h1, h2, if_true, if_false, hbase, hn, and_self]
  · unfold PAGE_SIZE
    omega
  · omega
  · unfold PAGE_SIZE
    omega
  · unfold PAGE_SIZE
    omega
  · intro m hm
    unfold PAGE_SIZE at *
    omega

/-- Witness for the amended C16: 5000 bytes requested at `0x400123` need two pages from
`0x400000`. -/
theorem as_define_region_aligns_witness :
    (as_define_region 1 true
      ⟨0, none, 0, 0, none, 0, none, false, false, false, false⟩ 4194595 5000 1 0 1).1 = 0 ∧
    ((0 : Nat) = 0 →
      (as_define_region 1 true
        ⟨0, none, 0, 0, none, 0, none, false, false, false, false⟩ 4194595 5000 1 0
          1).2.as_vbase1 = 4194595 - 4194595 % PAGE_SIZE ∧
      (as_define_region 1 true
        ⟨0, none, 0, 0, none, 0, none, false, false, false, false⟩ 4194595 5000 1 0
          1).2.as_npages1 = (5000 + 4194595 % PAGE_SIZE + PAGE_SIZE - 1) / PAGE_SIZE) ∧
    ((0 : Nat) ≠ 0 →
      (as_define_region 1 true
        ⟨0, none, 0, 0, none, 0, none, false, false, false, false⟩ 4194595 5000 1 0
          1).2.as_vbase2 = 4194595 - 4194595 % PAGE_SIZE ∧
      (as_define_region 1 true
        ⟨0, none, 0, 0, none, 0, none, false, false, false, false⟩ 4194595 5000 1 0
          1).2.as_npages2 = (5000 + 4194595 % PAGE_SIZE + PAGE_SIZE - 1) / PAGE_SIZE) ∧
    (4194595 - 4194595 % PAGE_SIZE) % PAGE_SIZE = 0 ∧
    4194595 - 4194595 % PAGE_SIZE ≤ 4194595 ∧
    4194595 < 4194595 - 4194595 % PAGE_SIZE + PAGE_SIZE ∧
    4194595 + 5000 ≤ 4194595 - 4194595 % PAGE_SIZE +
      (5000 + 4194595 % PAGE_SIZE + PAGE_SIZE - 1) / PAGE_SIZE * PAGE_SIZE ∧
    ∀ m, m < (5000 + 4194595 % PAGE_SIZE + PAGE_SIZE - 1) / PAGE_SIZE →
      4194595 - 4194595 % PAGE_SIZE + m * PAGE_SIZE < 4194595 + 5000 :=
  as_define_region_aligns 1 true ⟨0, none, 0, 0, none, 0, none, false, false, false, false⟩
    4194595 5000 1 0 1 (by decide) (by decide) (by decide)

/-! ## Bits of a translation entry -/

theorem land_eq_zero_of_aligned (p m : Nat) (hp : p &&& PAGE_FRAME = p)
    (hm : PAGE_FRAME &&& m = 0) : p &&& m = 0 := by
  rw [← hp, Nat.and_assoc, hm, Nat.and_zero]

theorem land_bnot32_dirty_of_aligned (p : Nat) (hp : p &&& PAGE_FRAME = p) :
    p &&& bnot32 TLBLO_DIRTY = p := by
  have h : PAGE_FRAME &&& bnot32 TLBLO_DIRTY = PAGE_FRAME := by decide
  have h2 : p &&& bnot32 TLBLO_DIRTY = (p &&& PAGE_FRAME) &&& bnot32 TLBLO_DIRTY := by rw [hp]
  rw [h2, Nat.and_assoc, h, hp]

theorem lor_land (a b c : Nat) : (a ||| b) &&& c = a &&& c ||| b &&& c := by
  rw [Nat.and_comm, Nat.and_or_distrib_left, Nat.and_comm c a, Nat.and_comm c b]

/-- The low word built for a frame address: frame bits, valid bit, dirty bit. -/
theorem vm_fault_elo_bits (complete inRegion1 : Bool) (p : Nat) (hp : p &&& PAGE_FRAME = p) :
    vm_fault_elo complete inRegion1 p &&& PAGE_FRAME = p ∧
    vm_fault_elo complete inRegion1 p &&& TLBLO_VALID = TLBLO_VALID ∧
    vm_fault_elo complete inRegion1 p &&& TLBLO_DIRTY =
      (if complete && inRegion1 then 0 else TLBLO_DIRTY) := by
  have hv : p &&& TLBLO_VALID = 0 := land_eq_zero_of_aligned p _ hp (by decide)
  have hd : p &&& TLBLO_DIRTY = 0 := land_eq_zero_of_aligned p _ hp (by decide)
  have hn := land_bnot32_dirty_of_aligned p hp
  have c1 : TLBLO_DIRTY &&& PAGE_FRAME = 0 := by decide
  have c2 : TLBLO_VALID &&& PAGE_FRAME = 0 := by decide
  have c3 : TLBLO_DIRTY &&& TLBLO_VALID = 0 := by decide
  have c4 : TLBLO_VALID &&& TLBLO_VALID = TLBLO_VALID := by decide
  have c5 : TLBLO_DIRTY &&& TLBLO_DIRTY = TLBLO_DIRTY := by decide
  have c6 : TLBLO_VALID &&& TLBLO_DIRTY = 0 := by decide
  have c7 : TLBLO_DIRTY &&& bnot32 TLBLO_DIRTY = 0 := by decide
  have c8 : TLBLO_VALID &&& bnot32 TLBLO_DIRTY = TLBLO_VALID := by decide
  unfold vm_fault_elo
  cases hc : (complete && inRegion1)
  · simp only [Bool.false_eq_true, if_false]
    refine ⟨?_, ?_, ?_⟩
    · rw [lor_land, lor_land, hp, c1, c2, Nat.or_zero, Nat.or_zero]
    · rw [lor_land, lor_land, hv, c3, c4]
      rfl
    · rw [lor_land, lor_land, hd, c5, c6, Nat.zero_or, Nat.or_zero]
  · simp only [if_true]
    have e : ((p ||| TLBLO_DIRTY) ||| TLBLO_VALID) &&& bnot32 TLBLO_DIRTY = p ||| TLBLO_VALID := by
      rw [lor_land, lor_land, hn, c7, c8, Nat.or_zero]
    rw [e]
    refine ⟨?_, ?_, ?_⟩
    · rw [lor_land, hp, c2, Nat.or_zero]
    · rw [lor_land, hv, c4, Nat.zero_or]
    · rw [lor_land, hd, c6]
      rfl

/-! ## Choosing the slot -/

theorem tlb_install_none (tlb : TLB) (ehi elo : Nat) :
    ∀ (remaining i : Nat), (∀ t, i ≤ t → t < i + remaining → ¬ TLB.invalidAt tlb t) →
      tlb_install tlb ehi elo i remaining = none := by
  intro remaining
  induction remaining with
  | zero =>
    intro i _
    rfl
  | succ r ih =>
    intro i h
    have hi := h i (le_refl _) (by omega)
    unfold TLB.invalidAt at hi
    simp only [tlb_install, ne_eq, hi, not_false_eq_true, if_true]
    exact ih (i + 1) (fun t h1 h2 => h t (by omega) (by omega))

theorem tlb_install_first (tlb : TLB) (ehi elo s : Nat) (hs : TLB.invalidAt tlb s) :
    ∀ (remaining i : Nat), i ≤ s → s < i + remaining →
      (∀ t, i ≤ t → t < s → ¬ TLB.invalidAt tlb t) →
      tlb_install tlb ehi elo i remaining = some (tlb.set s (ehi, elo)) := by
  intro remaining
  induction remaining with
  | zero =>
    intro i h1 h2 _
    omega
  | succ r ih =>
    intro i h1 h2 h
    by_cases his : i = s
    · subst his
      unfold TLB.invalidAt at hs
      simp only [tlb_install, ne_eq, hs, not_true_eq_false, if_false]
    · have hi := h i (le_refl _) (by omega)
      unfold TLB.invalidAt at hi
      simp only [tlb_install, ne_eq, hi, not_false_eq_true, if_true]
      exact ih (i + 1) (by omega) (by omega) (fun t h3 h4 => h t (by omega) h4)

/-! ## `vm_fault` on a page of the address space -/

theorem addrspace.SetUp.tables {as : addrspace} (h : as.SetUp) :
    ∃ t1 t2 ts, as.as_pbase1 = some t1 ∧ as.as_pbase2 = some t2 ∧
      as.as_stackpbase = some ts ∧
      t1.length = as.as_npages1 ∧ t2.length = as.as_npages2 ∧
      ts.length = DUMBVM_STACKPAGES ∧ vm_fault_asserts as t1 t2 ts ∧
      as.as_vbase1 + as.as_npages1 * PAGE_SIZE < 4294967296 ∧
      as.as_vbase2 + as.as_npages2 * PAGE_SIZE < 4294967296 := by
  unfold addrspace.SetUp at h
  split at h
  · next t1 t2 ts h1 h2 h3 =>
    exact ⟨t1, t2, ts, h1, h2, h3, h⟩
  · exact h.elim

theorem tlb_slot_choice (tlb : TLB) (ehi elo random : Nat) (hrand : random < NUM_TLB) :
    ∃ slot, slot < NUM_TLB ∧
      (tlb_install tlb ehi elo 0 NUM_TLB = some (tlb.set slot (ehi, elo)) ∨
        (tlb_install tlb ehi elo 0 NUM_TLB = none ∧ slot = random)) ∧
      ((∃ s, s < NUM_TLB ∧ TLB.invalidAt tlb s) →
        TLB.invalidAt tlb slot ∧ ∀ t, t < slot → ¬ TLB.invalidAt tlb t) ∧
      ((∀ s, s < NUM_TLB → ¬ TLB.invalidAt tlb s) → slot = random) := by
  by_cases hex : ∃ s, s < NUM_TLB ∧ TLB.invalidAt tlb s
  · have hlt := (Nat.find_spec hex).1
    have hinv := (Nat.find_spec hex).2
    have hmin : ∀ t, t < Nat.find hex → ¬ TLB.invalidAt tlb t := by
      intro t ht hcon
      exact Nat.find_min hex ht ⟨by omega, hcon⟩
    refine ⟨Nat.find hex, hlt, Or.inl ?_, fun _ => ⟨hinv, hmin⟩, fun hall => ?_⟩
    · exact tlb_install_first tlb ehi elo _ hinv NUM_TLB 0 (Nat.zero_le _) (by omega)
        (fun t _ ht => hmin t ht)
    · exact absurd hinv (hall _ hlt)
  · have hall : ∀ s, s < NUM_TLB → ¬ TLB.invalidAt tlb s := fun s hs hcon => hex ⟨s, hs, hcon⟩
    refine ⟨random, hrand, Or.inr ⟨?_, rfl⟩, fun h => absurd h hex, fun _ => rfl⟩
    exact tlb_install_none tlb ehi elo NUM_TLB 0 (fun t _ ht => hall t (by omega))

/-- The body of `vm_fault` once the region lookup has produced an aligned frame address. -/
theorem vm_fault_of_frame (EFAULT EINVAL random : Nat) (as : addrspace) (tlb : TLB)
    (faulttype : Int) (fa page : Nat) (t1 t2 ts : List Nat) (paddr : Nat)
    (hpage : fa &&& PAGE_FRAME = page)
    (h1 : as.as_pbase1 = some t1) (h2 : as.as_pbase2 = some t2)
    (h3 : as.as_stackpbase = some ts) (hassert : vm_fault_asserts as t1 t2 ts)
    (hty : faulttype = VM_FAULT_READ ∨ faulttype = VM_FAULT_WRITE)
    (hsel : (if as.as_vbase1 ≤ page ∧
          page < u32 (as.as_vbase1 + u32 (as.as_npages1 * PAGE_SIZE)) then
        some (t1.getD ((page - as.as_vbase1) / PAGE_SIZE) 0)
      else if as.as_vbase2 ≤ page ∧
          page < u32 (as.as_vbase2 + u32 (as.as_npages2 * PAGE_SIZE)) then
        some (t2.getD ((page - as.as_vbase2) / PAGE_SIZE) 0)
      else if USERSTACK - DUMBVM_STACKPAGES * PAGE_SIZE ≤ page ∧ page < USERSTACK then
        some (ts.getD ((page - (USERSTACK - DUMBVM_STACKPAGES * PAGE_SIZE)) / PAGE_SIZE) 0)
      else none) = some paddr)
    (halign : paddr &&& PAGE_FRAME = paddr) :
    vm_fault EFAULT EINVAL random (some (some as)) tlb faulttype fa =
      match tlb_install tlb page
        (vm_fault_elo as.complete
          (decide (as.as_vbase1 ≤ page ∧
            page < u32 (as.as_vbase1 + u32 (as.as_npages1 * PAGE_SIZE)))) paddr)
        0 NUM_TLB with
      | some tlb2 => some (0, tlb2)
      | none => some (0, tlb.set random (page,
          vm_fault_elo as.complete
            (decide (as.as_vbase1 ≤ page ∧
              page < u32 (as.as_vbase1 + u32 (as.as_npages1 * PAGE_SIZE))))
            paddr)) := by
  have hne : faulttype ≠ VM_FAULT_READONLY := by
    rcases hty with h | h <;> rw [h] <;> decide
  unfold vm_fault
  simp only [hpage, hne, hty, if_true, if_false, h1, h2, h3, hassert, hsel, halign]

/-- The frame `vm_fault` looks up for a page of one of the three regions, the entry it
builds and the slot it writes. -/
theorem vm_fault_core (EFAULT EINVAL random : Nat) (as : addrspace) (tlb : TLB)
    (faulttype : Int) (fa page : Nat) (hpage : fa &&& PAGE_FRAME = page)
    (hset : as.SetUp) (hty : faulttype = VM_FAULT_READ ∨ faulttype = VM_FAULT_WRITE)
    (hrand : random < NUM_TLB)
    (hin : as.inRegion1 page ∨ as.inRegion2 page ∨ inStack page) :
    ∃ slot paddr elo, slot < NUM_TLB ∧
      vm_fault EFAULT EINVAL random (some (some as)) tlb faulttype fa =
        some (0, tlb.set slot (page, elo)) ∧
      elo &&& PAGE_FRAME = paddr ∧ elo &&& TLBLO_VALID = TLBLO_VALID ∧
      elo &&& TLBLO_DIRTY = (if as.complete = true ∧ as.inRegion1 page then 0 else TLBLO_DIRTY) ∧
      ((∃ s, s < NUM_TLB ∧ TLB.invalidAt tlb s) →
        TLB.invalidAt tlb slot ∧ ∀ t, t < slot → ¬ TLB.invalidAt tlb t) ∧
      ((∀ s, s < NUM_TLB → ¬ TLB.invalidAt tlb s) → slot = random) ∧
      ((as.inRegion1 page ∧ (page - as.as_vbase1) / PAGE_SIZE < as.as_npages1 ∧
          as.as_pbase1.bind (fun t => t[(page - as.as_vbase1) / PAGE_SIZE]?) = some paddr) ∨
        (¬ as.inRegion1 page ∧ as.inRegion2 page ∧
          (page - as.as_vbase2) / PAGE_SIZE < as.as_npages2 ∧
          as.as_pbase2.bind (fun t => t[(page - as.as_vbase2) / PAGE_SIZE]?) = some paddr) ∨
        (¬ as.inRegion1 page ∧ ¬ as.inRegion2 page ∧ inStack page ∧
          (page - (USERSTACK - DUMBVM_STACKPAGES * PAGE_SIZE)) / PAGE_SIZE <
            DUMBVM_STACKPAGES ∧
          as.as_stackpbase.bind
            (fun t => t[(page - (USERSTACK - DUMBVM_STACKPAGES * PAGE_SIZE)) / PAGE_SIZE]?) =
            some paddr)) := by
  obtain ⟨t1, t2, ts, h1, h2, h3, hl1, hl2, hl3, hassert, hb1, hb2⟩ := hset.tables
  obtain ⟨_, _, _, _, _, ha1, ha2, ha3, _⟩ := hassert
  have hvtop1 : u32 (as.as_vbase1 + u32 (as.as_npages1 * PAGE_SIZE)) =
      as.as_vbase1 + as.as_npages1 * PAGE_SIZE := by
    unfold u32
    unfold PAGE_SIZE at *
    omega
  have hvtop2 : u32 (as.as_vbase2 + u32 (as.as_npages2 * PAGE_SIZE)) =
      as.as_vbase2 + as.as_npages2 * PAGE_SIZE := by
    unfold u32
    unfold PAGE_SIZE at *
    omega
  -- the lookup of `vm_fault`, resolved region by region
  have hlook : ∃ paddr, paddr &&& PAGE_FRAME = paddr ∧
      (if as.as_vbase1 ≤ page ∧
          page < u32 (as.as_vbase1 + u32 (as.as_npages1 * PAGE_SIZE)) then
        some (t1.getD ((page - as.as_vbase1) / PAGE_SIZE) 0)
      else if as.as_vbase2 ≤ page ∧
          page < u32 (as.as_vbase2 + u32 (as.as_npages2 * PAGE_SIZE)) then
        some (t2.getD ((page - as.as_vbase2) / PAGE_SIZE) 0)
      else if USERSTACK - DUMBVM_STACKPAGES * PAGE_SIZE ≤ page ∧ page < USERSTACK then
        some (ts.getD ((page - (USERSTACK - DUMBVM_STACKPAGES * PAGE_SIZE)) / PAGE_SIZE) 0)
      else none) = some paddr ∧
      ((as.inRegion1 page ∧ (page - as.as_vbase1) / PAGE_SIZE < as.as_npages1 ∧
          as.as_pbase1.bind (fun t => t[(page - as.as_vbase1) / PAGE_SIZE]?) = some paddr) ∨
        (¬ as.inRegion1 page ∧ as.inRegion2 page ∧
          (page - as.as_vbase2) / PAGE_SIZE < as.as_npages2 ∧
          as.as_pbase2.bind (fun t => t[(page - as.as_vbase2) / PAGE_SIZE]?) = some paddr) ∨
        (¬ as.inRegion1 page ∧ ¬ as.inRegion2 page ∧ inStack page ∧
          (page - (USERSTACK - DUMBVM_STACKPAGES * PAGE_SIZE)) / PAGE_SIZE <
            DUMBVM_STACKPAGES ∧
          as.as_stackpbase.bind
            (fun t => t[(page - (USERSTACK - DUMBVM_STACKPAGES * PAGE_SIZE)) / PAGE_SIZE]?) =
            some paddr)) := by
    rw [hvtop1, hvtop2]
    have e1 : (as.as_vbase1 ≤ page ∧ page < as.as_vbase1 + as.as_npages1 * PAGE_SIZE) =
        as.inRegion1 page := rfl
    have e2 : (as.as_vbase2 ≤ page ∧ page < as.as_vbase2 + as.as_npages2 * PAGE_SIZE) =
        as.inRegion2 page := rfl
    have e3 : (USERSTACK - DUMBVM_STACKPAGES * PAGE_SIZE ≤ page ∧ page < USERSTACK) =
        inStack page := rfl
    by_cases hr1 : as.inRegion1 page
    · have hidx : (page - as.as_vbase1) / PAGE_SIZE < as.as_npages1 := by
        unfold addrspace.inRegion1 at hr1
        unfold PAGE_SIZE at *
        omega
      refine ⟨_, ha1 _ hidx, ?_, Or.inl ⟨hr1, hidx, ?_⟩⟩
      · rw [if_pos (e1 ▸ hr1)]
      · rw [h1]
        exact getElem?_getD_of_lt t1 _ (by omega)
    · by_cases hr2 : as.inRegion2 page
      · have hidx : (page - as.as_vbase2) / PAGE_SIZE < as.as_npages2 := by
          unfold addrspace.inRegion2 at hr2
          unfold PAGE_SIZE at *
          omega
        refine ⟨_, ha2 _ hidx, ?_, Or.inr (Or.inl ⟨hr1, hr2, hidx, ?_⟩)⟩
        · rw [if_neg (e1 ▸ hr1), if_pos (e2 ▸ hr2)]
        · rw [h2]
          exact getElem?_getD_of_lt t2 _ (by omega)
      · have hr3 : inStack page := by
          rcases hin with h | h | h
          · exact absurd h hr1
          · exact absurd h hr2
          · exact h
        have hidx : (page - (USERSTACK - DUMBVM_STACKPAGES * PAGE_SIZE)) / PAGE_SIZE <
            DUMBVM_STACKPAGES := by
          unfold inStack at hr3
          unfold USERSTACK DUMBVM_STACKPAGES PAGE_SIZE at *
          omega
        refine ⟨_, ha3 _ hidx, ?_, Or.inr (Or.inr ⟨hr1, hr2, hr3, hidx, ?_⟩)⟩
        · rw [if_neg (e1 ▸ hr1), if_neg (e2 ▸ hr2), if_pos (e3 ▸ hr3)]
        · rw [h3]
          exact getElem?_getD_of_lt ts _ (by omega)
  obtain ⟨paddr, halign, hsel, hregion⟩ := hlook
  have hfault := vm_fault_of_frame EFAULT EINVAL random as tlb faulttype fa page t1 t2 ts paddr
    hpage h1 h2 h3 ⟨by assumption, by assumption, by assumption, by assumption, by assumption,
      ha1, ha2, ha3, by assumption⟩ hty hsel halign
  obtain ⟨hbit1, hbit2, hbit3⟩ := vm_fault_elo_bits as.complete
    (decide (as.as_vbase1 ≤ page ∧
      page < u32 (as.as_vbase1 + u32 (as.as_npages1 * PAGE_SIZE)))) paddr halign
  obtain ⟨slot, hslot, hinst, hfirst, hfull⟩ := tlb_slot_choice tlb page
    (vm_fault_elo as.complete
      (decide (as.as_vbase1 ≤ page ∧
        page < u32 (as.as_vbase1 + u32 (as.as_npages1 * PAGE_SIZE)))) paddr) random hrand
  refine ⟨slot, paddr, _, hslot, ?_, hbit1, hbit2, ?_, hfirst, hfull, hregion⟩
  · rw [hfault]
    rcases hinst with h | ⟨h, hs⟩
    · rw [h]
    · rw [h, hs]
  · rw [hbit3, hvtop1]
    by_cases hc : as.complete = true ∧ as.inRegion1 page
    · have hb : (as.complete &&
          decide (as.as_vbase1 ≤ page ∧ page < as.as_vbase1 + as.as_npages1 * PAGE_SIZE)) =
          true := by
        simp only [Bool.and_eq_true, decide_eq_true_eq]
        exact hc
      rw [if_pos hb, if_pos hc]
    · have hb : ¬ (as.complete &&
          decide (as.as_vbase1 ≤ page ∧ page < as.as_vbase1 + as.as_npages1 * PAGE_SIZE)) =
          true := by
        simp only [Bool.and_eq_true, decide_eq_true_eq]
        exact hc
      rw [if_neg hb, if_neg hc]

/-- **C18 (as stated, refuted).** The scenario of the spec: region 1 is 2 pages at
`0x400000`, `complete` is false, and `as_complete_load` has been called; a write fault
at `0x400000` then installs, in slot 0 of a flushed cache, an entry whose dirty bit is
still set. -/
theorem vm_fault_after_complete_load_dirty :
    scenario_as.inRegion1 (4194304 &&& PAGE_FRAME) ∧
    vm_fault 6 8 5 (some (some (as_complete_load scenario_as).2)) tlb_flushed VM_FAULT_WRITE
        4194304 =
      some (0, (4194304, 1050112) :: List.replicate 63 (0, 0)) ∧
    1050112 &&& TLBLO_DIRTY = TLBLO_DIRTY := by
  decide

/-- **C18 (amended).** For every properly set-up address space and every virtual address
whose page lies in region 1, a Read or Write fault installs an entry whose dirty bit is
set while `complete` is false and clear while `complete` is true; `as_complete_load`
leaves the flag as it is, so a fault at the same address taken after calling it has
the same outcome as before the call. -/
theorem vm_fault_region1_dirty (EFAULT EINVAL random : Nat) (as : addrspace) (tlb : TLB)
    (faulttype : Int) (fa : Nat) (hset : as.SetUp)
    (hty : faulttype = VM_FAULT_READ ∨ faulttype = VM_FAULT_WRITE)
    (hlen : tlb.length = NUM_TLB) (hrand : random < NUM_TLB)
    (hin : as.inRegion1 (fa &&& PAGE_FRAME)) :
    (∃ slot elo tlb2, slot < NUM_TLB ∧
      vm_fault EFAULT EINVAL random (some (some as)) tlb faulttype fa = some (0, tlb2) ∧
      tlb2[slot]? = some (fa &&& PAGE_FRAME, elo) ∧
      elo &&& TLBLO_DIRTY = (if as.complete = true then 0 else TLBLO_DIRTY)) ∧
    vm_fault EFAULT EINVAL random (some (some (as_complete_load as).2)) tlb faulttype fa =
      vm_fault EFAULT EINVAL random (some (some as)) tlb faulttype fa := by
  obtain ⟨slot, paddr, elo, hslot, hfault, _, _, hb3, _, _, _⟩ :=
    vm_fault_core EFAULT EINVAL random as tlb faulttype fa _ rfl hset hty hrand (Or.inl hin)
  refine ⟨⟨slot, elo, _, hslot, hfault, ?_, ?_⟩, rfl⟩
  · rw [List.getElem?_set]
    simp only [if_true]
    rw [if_pos (by omega)]
  · rw [hb3]
    by_cases hc : as.complete = true
    · rw [if_pos ⟨hc, hin⟩, if_pos hc]
    · rw [if_neg (fun h => hc h.1), if_neg hc]

/-- Witness for the amended C18: the scenario address space with `complete` set, a write
fault at `0x400000`. -/
theorem vm_fault_region1_dirty_witness :
    (∃ slot elo tlb2, slot < NUM_TLB ∧
      vm_fault 6 8 5 (some (some { scenario_as with complete := true })) tlb_flushed
        VM_FAULT_WRITE 4194304 = some (0, tlb2) ∧
      tlb2[slot]? = some (4194304 &&& PAGE_FRAME, elo) ∧
      elo &&& TLBLO_DIRTY =
        (if ({ scenario_as with complete := true } : addrspace).complete = true then 0
          else TLBLO_DIRTY)) ∧
    vm_fault 6 8 5 (some (some (as_complete_load { scenario_as with complete := true }).2))
        tlb_flushed VM_FAULT_WRITE 4194304 =
      vm_fault 6 8 5 (some (some { scenario_as with complete := true })) tlb_flushed
        VM_FAULT_WRITE 4194304 :=
  vm_fault_region1_dirty 6 8 5 { scenario_as with complete := true } tlb_flushed
    VM_FAULT_WRITE 4194304 (by decide) (by decide) (by decide) (by decide) (by decide)

/-! ## Binding frames when memory may run out -/

/-- A call `getppages(1)` either fails, leaving the state as it is, or takes one frame
that was free. -/
theorem getppages_one_cases (ENOMEM : Nat) (vm : VM) (hwf : vm.WF) :
    getppages ENOMEM vm 1 = (ENOMEM, vm) ∨
    ∃ m, (getppages ENOMEM vm 1).1 = vm.startaddr + m * PAGE_SIZE ∧
      FramesBound vm (getppages ENOMEM vm 1).2 [m] := by
  by_cases hfree : 0 < freeCount vm.coremap
  · exact Or.inr (getppages_one ENOMEM vm hwf hfree)
  · left
    apply getppages_no_run ENOMEM vm 1 (by decide) (by decide)
    intro s hs
    apply hfree
    have h0 := hs 0 (by decide)
    exact List.count_pos_iff.2 (List.mem_iff_getElem?.2 ⟨s + 0, h0⟩)

theorem bind_frames_general (ENOMEM : Nat) :
    ∀ (remaining i : Nat) (vm : VM) (tbl : List Nat), vm.WF → i + remaining ≤ tbl.length →
      ∃ frames : List Nat,
        FramesBound vm (bind_frames ENOMEM i remaining vm tbl).2 frames ∧
        (∀ t, i ≤ t → t < i + remaining →
          (bind_frames ENOMEM i remaining vm tbl).1[t]? = some ENOMEM ∨
          ∃ f ∈ frames, (bind_frames ENOMEM i remaining vm tbl).1[t]? =
            some (vm.startaddr + f * PAGE_SIZE)) ∧
        (∀ f ∈ frames, ∃ t, i ≤ t ∧ t < i + remaining ∧
          (bind_frames ENOMEM i remaining vm tbl).1[t]? =
            some (vm.startaddr + f * PAGE_SIZE)) ∧
        (∀ t, ¬ (i ≤ t ∧ t < i + remaining) →
          (bind_frames ENOMEM i remaining vm tbl).1[t]? = tbl[t]?) := by
  intro remaining
  induction remaining with
  | zero =>
    intro i vm tbl _ _
    refine ⟨[], FramesBound.refl vm, ?_, ?_, ?_⟩
    · intro t h1 h2
      omega
    · intro f hf
      cases hf
    · intro t _
      rfl
  | succ r ih =>
    intro i vm tbl hwf hlen
    have hset : ∀ v : Nat, (tbl.set i v)[i]? = some v := by
      intro v
      rw [List.getElem?_set]
      simp only [if_true]
      rw [if_pos (by omega)]
    rcases getppages_one_cases ENOMEM vm hwf with hfail | ⟨m, haddr, hb1⟩
    · obtain ⟨frames, hb, hent, hall, hout⟩ := ih (i + 1) vm (tbl.set i ENOMEM) hwf
        (by rw [List.length_set]; omega)
      simp only [bind_frames, hfail]
      refine ⟨frames, hb, ?_, ?_, ?_⟩
      · intro t h1 h2
        by_cases ht : t = i
        · subst ht
          left
          rw [hout t (by omega), hset]
        · exact hent t (by omega) (by omega)
      · intro f hf
        obtain ⟨t, h1, h2, h3⟩ := hall f hf
        exact ⟨t, by omega, by omega, h3⟩
      · intro t ht
        rw [hout t (by omega), List.getElem?_set, if_neg (by omega)]
    · have hwf1 : (getppages ENOMEM vm 1).2.WF := hwf.of_eq hb1.startaddr hb1.length
      obtain ⟨frames, hb, hent, hall, hout⟩ := ih (i + 1) (getppages ENOMEM vm 1).2
        (tbl.set i (getppages ENOMEM vm 1).1) hwf1 (by rw [List.length_set]; omega)
      rw [hb1.startaddr] at hent hall
      simp only [bind_frames]
      refine ⟨[m] ++ frames, FramesBound.trans hb1 hb, ?_, ?_, ?_⟩
      · intro t h1 h2
        by_cases ht : t = i
        · subst ht
          right
          refine ⟨m, by simp, ?_⟩
          rw [hout t (by omega), hset, haddr]
        · rcases hent t (by omega) (by omega) with h | ⟨f, hf, h⟩
          · exact Or.inl h
          · exact Or.inr ⟨f, List.mem_append_right _ hf, h⟩
      · intro f hf
        rcases List.mem_append.1 hf with hf1 | hf2
        · simp only [List.mem_singleton] at hf1
          subst hf1
          refine ⟨i, le_refl _, by omega, ?_⟩
          rw [hout i (by omega), hset, haddr]
        · obtain ⟨t, h1, h2, h3⟩ := hall f hf2
          exact ⟨t, by omega, by omega, h3⟩
      · intro t ht
        rw [hout t (by omega), List.getElem?_set, if_neg (by omega)]

/-- The table a binding loop fills over its whole length: every entry is `ENOMEM` or the
address of a bound frame, and every bound frame is an entry. -/
theorem bind_frames_entries (ENOMEM : Nat) (vm : VM) (tbl : List Nat) (hwf : vm.WF) :
    ∃ frames : List Nat,
      FramesBound vm (bind_frames ENOMEM 0 tbl.length vm tbl).2 frames ∧
      (∀ p ∈ (bind_frames ENOMEM 0 tbl.length vm tbl).1,
        p = ENOMEM ∨ ∃ f ∈ frames, p = vm.startaddr + f * PAGE_SIZE) ∧
      (∀ f ∈ frames,
        vm.startaddr + f * PAGE_SIZE ∈ (bind_frames ENOMEM 0 tbl.length vm tbl).1) := by
  obtain ⟨frames, hb, hent, hall, _⟩ :=
    bind_frames_general ENOMEM tbl.length 0 vm tbl hwf (by omega)
  refine ⟨frames, hb, ?_, ?_⟩
  · intro p hp
    obtain ⟨t, ht⟩ := List.mem_iff_getElem?.1 hp
    have hlt : t < tbl.length := by
      by_contra hge
      rw [List.getElem?_eq_none (by rw [length_bind_frames]; omega)] at ht
      cases ht
    rcases hent t (Nat.zero_le _) (by omega) with h | ⟨f, hf, h⟩
    · left
      rw [ht] at h
      injection h
    · right
      rw [ht] at h
      injection h with h
      exact ⟨f, hf, h⟩
  · intro f hf
    obtain ⟨t, _, _, h⟩ := hall f hf
    exact List.mem_iff_getElem?.2 ⟨t, h⟩

/-! ## Releasing the frames of a table -/

theorem Releasable.carry_over (vm vm2 : VM) (q : Nat) (h : Releasable vm q)
    (hs : vm2.startaddr = vm.startaddr) (hl : vm2.coremap.length = vm.coremap.length)
    (ht : ∀ f : Nat, vm.coremap[f]? = some 1 ∨ vm.coremap[f]? = some 0 →
      vm2.coremap[f]? = some 1 ∨ vm2.coremap[f]? = some 0) : Releasable vm2 q := by
  rcases h with ⟨f, hf, hq, htag⟩ | hno
  · exact Or.inl ⟨f, by omega, by rw [hs]; exact hq, ht f htag⟩
  · right
    intro j hj
    have := hno j (by omega)
    unfold VM.frameAddr at *
    rw [hs]
    exact this

/-- One `free_kpages` of a releasable address: its frame, if it has one, ends up free;
every other tag is kept. -/
theorem free_kpages_releasable (vm : VM) (hwf : vm.WF) (p : Nat) (h : Releasable vm p) :
    (free_kpages vm (PADDR_TO_KVADDR p)).startaddr = vm.startaddr ∧
    (free_kpages vm (PADDR_TO_KVADDR p)).coremap.length = vm.coremap.length ∧
    (∀ j, j < vm.coremap.length → p = vm.startaddr + j * PAGE_SIZE →
      (free_kpages vm (PADDR_TO_KVADDR p)).coremap[j]? = some 0) ∧
    (∀ j, p ≠ vm.startaddr + j * PAGE_SIZE →
      (free_kpages vm (PADDR_TO_KVADDR p)).coremap[j]? = vm.coremap[j]?) ∧
    (∀ q, Releasable vm q → Releasable (free_kpages vm (PADDR_TO_KVADDR p)) q) := by
  rcases h with ⟨f, hf, hp, htag⟩ | hno
  · have haddr : vm.frameAddr f = p := by
      rw [vm.frameAddr_eq hwf f (by omega), hp]
    rcases htag with h1 | h0
    · have heq := free_kpages_frame vm hwf f 1 h1
      rw [haddr] at heq
      rw [heq]
      have hget : ∀ j, (fillRun vm.coremap f 0 (1 : Int).toNat)[j]? =
          if j = f then some 0 else vm.coremap[j]? := by
        intro j
        have h1 : (1 : Int).toNat = 1 := rfl
        rw [h1, fillRun_get]
        by_cases hj : j = f
        · rw [if_pos (by omega), if_pos hj]
        · rw [if_neg (by omega), if_neg hj]
      refine ⟨rfl, length_fillRun _ _ _ _, ?_, ?_, ?_⟩
      · intro j _ hj
        have hjf : j = f := by
          rw [hp] at hj
          unfold PAGE_SIZE at hj
          omega
        simp only [hget, hjf, if_true]
      · intro j hj
        have hjf : j ≠ f := by
          intro h
          apply hj
          rw [hp, h]
        simp only [hget, hjf, if_false]
      · intro q hq
        refine Releasable.carry_over vm ⟨fillRun vm.coremap f 0 (1 : Int).toNat, vm.startaddr⟩ q
          hq rfl (length_fillRun _ _ _ _) ?_
        intro g hg
        simp only [hget]
        by_cases hgf : g = f
        · rw [if_pos hgf]
          exact Or.inr rfl
        · rw [if_neg hgf]
          exact hg
    · have heq := free_kpages_frame vm hwf f 0 h0
      rw [haddr] at heq
      have heq2 : free_kpages vm (PADDR_TO_KVADDR p) = vm := heq
      rw [heq2]
      refine ⟨rfl, rfl, ?_, fun _ _ => rfl, fun _ hq => hq⟩
      intro j _ hj
      have hjf : j = f := by
        rw [hp] at hj
        unfold PAGE_SIZE at hj
        omega
      rw [hjf]
      exact h0
  · rw [free_kpages_no_frame vm (PADDR_TO_KVADDR p) hno]
    refine ⟨rfl, rfl, ?_, fun _ _ => rfl, fun _ hq => hq⟩
    intro j hj hpj
    exfalso
    apply hno j hj
    rw [vm.frameAddr_eq hwf j (by omega), hpj]

theorem free_frames_spec :
    ∀ (remaining i : Nat) (tbl : List Nat) (vm : VM), vm.WF →
      (∀ t, i ≤ t → t < i + remaining → Releasable vm (tbl.getD t 0)) →
      (free_frames i remaining tbl vm).startaddr = vm.startaddr ∧
      (free_frames i remaining tbl vm).coremap.length = vm.coremap.length ∧
      (∀ j t, j < vm.coremap.length → i ≤ t → t < i + remaining →
        tbl.getD t 0 = vm.startaddr + j * PAGE_SIZE →
        (free_frames i remaining tbl vm).coremap[j]? = some 0) ∧
      (∀ j, (∀ t, i ≤ t → t < i + remaining → tbl.getD t 0 ≠ vm.startaddr + j * PAGE_SIZE) →
        (free_frames i remaining tbl vm).coremap[j]? = vm.coremap[j]?) ∧
      (∀ q, Releasable vm q → Releasable (free_frames i remaining tbl vm) q) := by
  intro remaining
  induction remaining with
  | zero =>
    intro i tbl vm _ _
    refine ⟨rfl, rfl, ?_, fun _ _ => rfl, fun _ hq => hq⟩
    intro j t _ h1 h2
    omega
  | succ r ih =>
    intro i tbl vm hwf hrel
    obtain ⟨hs1, hl1, hz1, hk1, hr1⟩ :=
      free_kpages_releasable vm hwf (tbl.getD i 0) (hrel i (le_refl _) (by omega))
    have hwf1 := hwf.of_eq hs1 hl1
    obtain ⟨hs2, hl2, hz2, hk2, hr2⟩ := ih (i + 1) tbl
      (free_kpages vm (PADDR_TO_KVADDR (tbl.getD i 0))) hwf1
      (fun t h1 h2 => hr1 _ (hrel t (by omega) (by omega)))
    rw [hs1] at hz2 hk2
    rw [hl1] at hz2
    simp only [free_frames]
    refine ⟨hs2.trans hs1, hl2.trans hl1, ?_, ?_, fun q hq => hr2 q (hr1 q hq)⟩
    · intro j t hj h1 h2 hent
      by_cases hlater : ∃ u, i + 1 ≤ u ∧ u < i + 1 + r ∧
          tbl.getD u 0 = vm.startaddr + j * PAGE_SIZE
      · obtain ⟨u, hu1, hu2, hu3⟩ := hlater
        exact hz2 j u hj hu1 hu2 hu3
      · have hti : t = i := by
          by_contra hne
          exact hlater ⟨t, by omega, by omega, hent⟩
        subst hti
        rw [hk2 j (fun u hu1 hu2 hu3 => hlater ⟨u, hu1, hu2, hu3⟩)]
        exact hz1 j hj hent
    · intro j hno
      rw [hk2 j (fun u hu1 hu2 => hno u (by omega) (by omega))]
      exact hk1 j (hno i (le_refl _) (by omega))

/-- What `as_prepare_load` leaves when it returns, whether or not the frame allocations
succeeded: the geometry is kept, the three tables have one entry per page, every entry
is `ENOMEM` or the address of one of the frames bound by the call, and every frame
bound by the call is an entry. -/
theorem as_prepare_load_general (ENOMEM : Nat) (kmallocOk : Bool) (as0 as : addrspace)
    (vm0 vm : VM) (mem0 mem : Mem) (hdef : as0.RegionsDefined) (hwf : vm0.WF)
    (hret : as_prepare_load ENOMEM kmallocOk as0 vm0 mem0 = some (0, as, vm, mem)) :
    ∃ t1 t2 ts frames, as.as_pbase1 = some t1 ∧ as.as_pbase2 = some t2 ∧
      as.as_stackpbase = some ts ∧
      t1.length = as.as_npages1 ∧ t2.length = as.as_npages2 ∧
      ts.length = DUMBVM_STACKPAGES ∧
      as.as_vbase1 = as0.as_vbase1 ∧ as.as_npages1 = as0.as_npages1 ∧
      as.as_vbase2 = as0.as_vbase2 ∧ as.as_npages2 = as0.as_npages2 ∧
      as.complete = as0.complete ∧
      FramesBound vm0 vm frames ∧
      (∀ p ∈ t1 ++ t2 ++ ts, p = ENOMEM ∨ ∃ f ∈ frames, p = vm0.startaddr + f * PAGE_SIZE) ∧
      (∀ f ∈ frames, vm0.startaddr + f * PAGE_SIZE ∈ t1 ++ t2 ++ ts) := by
  obtain ⟨hd1, hd2, hd3⟩ := hdef
  cases h1 : as0.as_pbase1 with
  | none => rw [h1] at hd1; cases hd1
  | some t1 =>
  cases h2 : as0.as_pbase2 with
  | none => rw [h2] at hd2; cases hd2
  | some t2 =>
  rw [h1] at hd1
  rw [h2] at hd2
  simp only [Option.map_some', Option.some.injEq] at hd1 hd2
  cases kmallocOk with
  | false =>
    rw [as_prepare_load_no_table] at hret
    cases hret
  | true =>
    rw [as_prepare_load_eq ENOMEM as0 vm0 mem0 t1 t2 h1 h2 hd3] at hret
    simp only [Option.some.injEq, Prod.mk.injEq, true_and] at hret
    obtain ⟨has, hvm, _⟩ := hret
    obtain ⟨f1, hb1, he1, ha1⟩ := bind_frames_entries ENOMEM vm0 t1 hwf
    rw [hd1] at hb1 he1 ha1
    have hwf1 := hwf.of_eq hb1.startaddr hb1.length
    obtain ⟨f2, hb2, he2, ha2⟩ := bind_frames_entries ENOMEM
      (bind_frames ENOMEM 0 as0.as_npages1 vm0 t1).2 t2 hwf1
    rw [hd2] at hb2 he2 ha2
    rw [hb1.startaddr] at he2 ha2
    have hb12 := FramesBound.trans hb1 hb2
    have hwf2 := hwf.of_eq hb12.startaddr hb12.length
    obtain ⟨f3, hb3, he3, ha3⟩ := bind_frames_entries ENOMEM
      (bind_frames ENOMEM 0 as0.as_npages2 (bind_frames ENOMEM 0 as0.as_npages1 vm0 t1).2 t2).2
      (List.replicate DUMBVM_STACKPAGES 0) hwf2
    rw [List.length_replicate] at hb3 he3 ha3
    rw [hb12.startaddr] at he3 ha3
    have hb := FramesBound.trans hb12 hb3
    subst has
    subst hvm
    refine ⟨_, _, _, f1 ++ f2 ++ f3, rfl, rfl, rfl, ?_, ?_, ?_, rfl, rfl, rfl, rfl, rfl, hb,
      ?_, ?_⟩
    · simp only [length_bind_frames, hd1]
    · simp only [length_bind_frames, hd2]
    · simp only [length_bind_frames, List.length_replicate]
    · intro p hp
      rcases List.mem_append.1 hp with hp12 | hp3
      · rcases List.mem_append.1 hp12 with hp1 | hp2
        · rcases he1 p hp1 with h | ⟨f, hf, h⟩
          · exact Or.inl h
          · exact Or.inr ⟨f, List.mem_append_left _ (List.mem_append_left _ hf), h⟩
        · rcases he2 p hp2 with h | ⟨f, hf, h⟩
          · exact Or.inl h
          · exact Or.inr ⟨f, List.mem_append_left _ (List.mem_append_right _ hf), h⟩
      · rcases he3 p hp3 with h | ⟨f, hf, h⟩
        · exact Or.inl h
        · exact Or.inr ⟨f, List.mem_append_right _ hf, h⟩
    · intro f hf
      rcases List.mem_append.1 hf with hf12 | hf3
      · rcases List.mem_append.1 hf12 with hf1 | hf2
        · exact List.mem_append_left _ (List.mem_append_left _ (ha1 f hf1))
        · exact List.mem_append_left _ (List.mem_append_right _ (ha2 f hf2))
      · exact List.mem_append_right _ (ha3 f hf3)

/-! ## Teardown of an address space -/

/-- The release loop over a whole table, in terms of membership. -/
theorem free_frames_table (tbl : List Nat) (vm : VM) (hwf : vm.WF)
    (hrel : ∀ p ∈ tbl, Releasable vm p) :
    (free_frames 0 tbl.length tbl vm).startaddr = vm.startaddr ∧
    (free_frames 0 tbl.length tbl vm).coremap.length = vm.coremap.length ∧
    (∀ j, j < vm.coremap.length → vm.startaddr + j * PAGE_SIZE ∈ tbl →
      (free_frames 0 tbl.length tbl vm).coremap[j]? = some 0) ∧
    (∀ j, vm.startaddr + j * PAGE_SIZE ∉ tbl →
      (free_frames 0 tbl.length tbl vm).coremap[j]? = vm.coremap[j]?) ∧
    (∀ q, Releasable vm q → Releasable (free_frames 0 tbl.length tbl vm) q) := by
  have hget : ∀ t, t < tbl.length → tbl.getD t 0 ∈ tbl := by
    intro t ht
    rw [List.getD_eq_getElem _ _ ht]
    exact List.getElem_mem ht
  obtain ⟨hs, hl, hz, hk, hr⟩ := free_frames_spec tbl.length 0 tbl vm hwf
    (fun t _ ht => hrel _ (hget t (by omega)))
  refine ⟨hs, hl, ?_, ?_, hr⟩
  · intro j hj hmem
    obtain ⟨t, ht, he⟩ := List.mem_iff_getElem.1 hmem
    exact hz j t hj (Nat.zero_le _) (by omega)
      (by rw [List.getD_eq_getElem _ _ ht]; exact he)
  · intro j hno
    refine hk j (fun t _ ht he => hno ?_)
    rw [← he]
    exact hget t (by omega)

/-- An address that is not page-aligned is the address of no frame. -/
theorem Releasable.of_unaligned (vm : VM) (hwf : vm.WF) (p : Nat)
    (hp : p % PAGE_SIZE ≠ 0) : Releasable vm p := by
  right
  intro j hj
  rw [kvaddr_frame vm hwf j hj]
  obtain ⟨h1, _⟩ := hwf
  unfold PADDR_TO_KVADDR u32
  unfold PAGE_SIZE MIPS_KSEG0 at *
  omega

/-- With its three tables allocated, `as_destroy` is the three release loops in turn. -/
theorem as_destroy_eq (as : addrspace) (vm : VM) (t1 t2 ts : List Nat)
    (h1 : as.as_pbase1 = some t1) (h2 : as.as_pbase2 = some t2)
    (h3 : as.as_stackpbase = some ts) :
    as_destroy as vm = some (free_frames 0 DUMBVM_STACKPAGES ts
      (free_frames 0 as.as_npages2 t2 (free_frames 0 as.as_npages1 t1 vm))) := by
  unfold as_destroy free_table
  rw [h1, h2, h3]
  rfl

/-- Teardown of an address space whose three tables are allocated, one entry per page,
every entry releasable: the frames listed end up free, every other tag is kept. -/
theorem as_destroy_tables (as : addrspace) (vm : VM) (t1 t2 ts : List Nat) (hwf : vm.WF)
    (h1 : as.as_pbase1 = some t1) (h2 : as.as_pbase2 = some t2)
    (h3 : as.as_stackpbase = some ts)
    (hl1 : t1.length = as.as_npages1) (hl2 : t2.length = as.as_npages2)
    (hl3 : ts.length = DUMBVM_STACKPAGES)
    (hrel : ∀ p ∈ t1 ++ t2 ++ ts, Releasable vm p) :
    ∃ vm2, as_destroy as vm = some vm2 ∧
      vm2.startaddr = vm.startaddr ∧ vm2.coremap.length = vm.coremap.length ∧
      (∀ j, j < vm.coremap.length → vm.startaddr + j * PAGE_SIZE ∈ t1 ++ t2 ++ ts →
        vm2.coremap[j]? = some 0) ∧
      (∀ j, vm.startaddr + j * PAGE_SIZE ∉ t1 ++ t2 ++ ts →
        vm2.coremap[j]? = vm.coremap[j]?) := by
  have hd := as_destroy_eq as vm t1 t2 ts h1 h2 h3
  rw [← hl1, ← hl2, ← hl3] at hd
  obtain ⟨hs1, hn1, hz1, hk1, hr1⟩ := free_frames_table t1 vm hwf
    (fun p hp => hrel p (List.mem_append_left _ (List.mem_append_left _ hp)))
  have hwf1 := hwf.of_eq hs1 hn1
  obtain ⟨hs2, hn2, hz2, hk2, hr2⟩ := free_frames_table t2 _ hwf1
    (fun p hp => hr1 p (hrel p (List.mem_append_left _ (List.mem_append_right _ hp))))
  have hwf2 := hwf1.of_eq hs2 hn2
  obtain ⟨hs3, hn3, hz3, hk3, _⟩ := free_frames_table ts _ hwf2
    (fun p hp => hr2 p (hr1 p (hrel p (List.mem_append_right _ hp))))
  rw [hs1] at hs2 hz2 hk2
  rw [hn1] at hn2 hz2
  rw [hs2] at hs3 hz3 hk3
  rw [hn2] at hn3 hz3
  refine ⟨_, hd, hs3, hn3, ?_, ?_⟩
  · intro j hj hmem
    by_cases m3 : vm.startaddr + j * PAGE_SIZE ∈ ts
    · exact hz3 j hj m3
    · rw [hk3 j m3]
      by_cases m2 : vm.startaddr + j * PAGE_SIZE ∈ t2
      · exact hz2 j hj m2
      · rw [hk2 j m2]
        rcases List.mem_append.1 hmem with h12 | h
        · rcases List.mem_append.1 h12 with h | h
          · exact hz1 j hj h
          · exact absurd h m2
        · exact absurd h m3
  · intro j hno
    rw [hk3 j (fun h => hno (List.mem_append_right _ h)),
      hk2 j (fun h => hno (List.mem_append_left _ (List.mem_append_right _ h))),
      hk1 j (fun h => hno (List.mem_append_left _ (List.mem_append_left _ h)))]

/-- **C13.** Take an address space on which `as_prepare_load` has just returned `0`
(both regions defined, the frame table well laid out, `ENOMEM` not page-aligned, as a
small errno is). Then `as_destroy` returns; afterwards every frame whose address is
listed in the region-1, region-2 or stack table is tagged `0`, the tag of every other
frame is what it was, and the frame table is again the one before `as_prepare_load`. -/
theorem as_destroy_releases (ENOMEM : Nat) (kmallocOk : Bool) (as0 as : addrspace)
    (vm0 vm : VM) (mem0 : Mem) (hwf : vm0.WF) (hE : ENOMEM % PAGE_SIZE ≠ 0)
    (hdef : as0.RegionsDefined)
    (hret : (as_prepare_load ENOMEM kmallocOk as0 vm0 mem0).map
      (fun r => (r.1, r.2.1, r.2.2.1)) = some (0, as, vm)) :
    ∃ t1 t2 ts vm2, as.as_pbase1 = some t1 ∧ as.as_pbase2 = some t2 ∧
      as.as_stackpbase = some ts ∧
      as_destroy as vm = some vm2 ∧
      (∀ j, j < vm.coremap.length → vm.startaddr + j * PAGE_SIZE ∈ t1 ++ t2 ++ ts →
        vm2.coremap[j]? = some 0) ∧
      (∀ j, vm.startaddr + j * PAGE_SIZE ∉ t1 ++ t2 ++ ts →
        vm2.coremap[j]? = vm.coremap[j]?) ∧
      vm2 = vm0 := by
  cases hres : as_prepare_load ENOMEM kmallocOk as0 vm0 mem0 with
  | none => rw [hres] at hret; cases hret
  | some r =>
  obtain ⟨rc, as', vm', mem⟩ := r
  rw [hres] at hret
  simp only [Option.map_some', Option.some.injEq, Prod.mk.injEq] at hret
  obtain ⟨hrc, has, hvm⟩ := hret
  subst hrc
  subst has
  subst hvm
  obtain ⟨t1, t2, ts, frames, h1, h2, h3, hl1, hl2, hl3, _, _, _, _, _, hb, hent, hall⟩ :=
    as_prepare_load_general ENOMEM kmallocOk as0 as' vm0 vm' mem0 mem hdef hwf hres
  have hwf' := hwf.of_eq hb.startaddr hb.length
  have hrel : ∀ p ∈ t1 ++ t2 ++ ts, Releasable vm' p := by
    intro p hp
    rcases hent p hp with h | ⟨f, hf, h⟩
    · rw [h]
      exact Releasable.of_unaligned vm' hwf' ENOMEM hE
    · have hfree := hb.free f hf
      have hlt : f < vm0.coremap.length := by
        by_contra hge
        rw [List.getElem?_eq_none (by omega)] at hfree
        cases hfree
      refine Or.inl ⟨f, by rw [hb.length]; exact hlt, by rw [hb.startaddr]; exact h, Or.inl ?_⟩
      rw [hb.tags f, if_pos hf]
  obtain ⟨vm2, hd, hs, hn, hz, hk⟩ :=
    as_destroy_tables as' vm' t1 t2 ts hwf' h1 h2 h3 hl1 hl2 hl3 hrel
  refine ⟨t1, t2, ts, vm2, h1, h2, h3, hd, hz, hk, ?_⟩
  have hcm : vm2.coremap = vm0.coremap := by
    apply List.ext_getElem?
    intro j
    by_cases hj : j < vm0.coremap.length
    · by_cases hm : vm'.startaddr + j * PAGE_SIZE ∈ t1 ++ t2 ++ ts
      · rw [hz j (by rw [hb.length]; exact hj) hm]
        rcases hent _ hm with h | ⟨f, hf, h⟩
        · exfalso
          obtain ⟨ha, _⟩ := hwf'
          rw [← h] at hE
          unfold PAGE_SIZE at *
          omega
        · rw [hb.startaddr] at h
          have hjf : j = f := by
            unfold PAGE_SIZE at h
            omega
          rw [hjf]
          exact (hb.free f hf).symm
      · rw [hk j hm, hb.tags j, if_neg]
        intro hf
        apply hm
        rw [hb.startaddr]
        exact hall j hf
    · rw [List.getElem?_eq_none (by rw [hn, hb.length]; omega),
        List.getElem?_eq_none (by omega)]
  have hsa : vm2.startaddr = vm0.startaddr := by rw [hs, hb.startaddr]
  cases vm2
  cases vm0
  simp only at hcm hsa
  rw [hcm, hsa]

/-- Witness for C13: a fragmented table of twenty-one frames, fourteen of them free, and
an address space with two one-page regions, after `as_prepare_load`. -/
theorem as_destroy_releases_witness :
    ∃ t1 t2 ts vm2,
      (some [12288] : Option (List Nat)) = some t1 ∧
      (some [16384] : Option (List Nat)) = some t2 ∧
      (some [28672, 32768, 36864, 45056, 49152, 53248, 69632, 73728, 77824, 81920, 86016,
        90112] : Option (List Nat)) = some ts ∧
      as_destroy
        ⟨4194304, some [12288], 1, 268435456, some [16384], 1,
          some [28672, 32768, 36864, 45056, 49152, 53248, 69632, 73728, 77824, 81920, 86016,
            90112], false, true, true, false⟩
        ⟨[1, 1, 1, 2, 2, 1, 1, 1, 1, 1, 1, 1, 3, 3, 3, 1, 1, 1, 1, 1, 1], 8192⟩ = some vm2 ∧
      (∀ j, j < 21 → 8192 + j * PAGE_SIZE ∈ t1 ++ t2 ++ ts → vm2.coremap[j]? = some 0) ∧
      (∀ j, 8192 + j * PAGE_SIZE ∉ t1 ++ t2 ++ ts → vm2.coremap[j]? =
        ([1, 1, 1, 2, 2, 1, 1, 1, 1, 1, 1, 1, 3, 3, 3, 1, 1, 1, 1, 1, 1] : List Int)[j]?) ∧
      vm2 = ⟨[1, 0, 0, 2, 2, 0, 0, 0, 1, 0, 0, 0, 3, 3, 3, 0, 0, 0, 0, 0, 0], 8192⟩ :=
  as_destroy_releases 3 true
    ⟨4194304, some [0], 1, 268435456, some [0], 1, none, false, true, true, false⟩
    ⟨4194304, some [12288], 1, 268435456, some [16384], 1,
      some [28672, 32768, 36864, 45056, 49152, 53248, 69632, 73728, 77824, 81920, 86016,
        90112], false, true, true, false⟩
    ⟨[1, 0, 0, 2, 2, 0, 0, 0, 1, 0, 0, 0, 3, 3, 3, 0, 0, 0, 0, 0, 0], 8192⟩
    ⟨[1, 1, 1, 2, 2, 1, 1, 1, 1, 1, 1, 1, 3, 3, 3, 1, 1, 1, 1, 1, 1], 8192⟩
    (fun _ => 255) (by decide) (by decide) (by decide) (by decide)

/-! ## Copying an address space: what a successful call went through -/

theorem as_copy_ok (ENOMEM : Nat) (raw : Option addrspace) (k1 k2 kS : Bool)
    (old new : addrspace) (vm vm2 : VM) (mem mem3 : Mem)
    (h : as_copy ENOMEM raw k1 k2 kS old vm mem = some (0, some new, vm2, mem3)) :
    ∃ new0 mem2 n1 n2 ns m1 m2, as_create raw = some new0 ∧
      as_prepare_load ENOMEM kS
        { new0 with as_vbase1 := old.as_vbase1, as_npages1 := old.as_npages1,
                    as_vbase2 := old.as_vbase2, as_npages2 := old.as_npages2,
                    as_pbase1 := kmalloc_table k1 old.as_npages1,
                    as_pbase2 := kmalloc_table k2 old.as_npages2 } vm mem =
        some (0, new, vm2, mem2) ∧
      new.as_pbase1 = some n1 ∧ new.as_pbase2 = some n2 ∧ new.as_stackpbase = some ns ∧
      copy_table n1 old.as_pbase1 old.as_npages1 mem2 = some m1 ∧
      copy_table n2 old.as_pbase2 old.as_npages2 m1 = some m2 ∧
      copy_table ns old.as_stackpbase DUMBVM_STACKPAGES m2 = some mem3 := by
  unfold as_copy at h
  cases hc : as_create raw with
  | none =>
    rw [hc] at h
    simp only [Option.some.injEq, Prod.mk.injEq] at h
    obtain ⟨_, h2, _⟩ := h
    cases h2
  | some new0 =>
    rw [hc] at h
    simp only at h
    cases hp : as_prepare_load ENOMEM kS
        { new0 with as_vbase1 := old.as_vbase1, as_npages1 := old.as_npages1,
                    as_vbase2 := old.as_vbase2, as_npages2 := old.as_npages2,
                    as_pbase1 := kmalloc_table k1 old.as_npages1,
                    as_pbase2 := kmalloc_table k2 old.as_npages2 } vm mem with
    | none =>
      rw [hp] at h
      cases h
    | some r =>
      obtain ⟨rc, new2, vmr, mem2⟩ := r
      rw [hp] at h
      simp only at h
      by_cases hrc : rc = 0
      · subst hrc
        simp only [ne_eq, not_true_eq_false, if_false] at h
        cases h1 : new2.as_pbase1 with
        | none => rw [h1] at h; cases h
        | some n1 =>
        cases h2 : new2.as_pbase2 with
        | none => rw [h1, h2] at h; cases h
        | some n2 =>
        cases h3 : new2.as_stackpbase with
        | none => rw [h1, h2, h3] at h; cases h
        | some ns =>
        rw [h1, h2, h3] at h
        simp only at h
        cases c1 : copy_table n1 old.as_pbase1 old.as_npages1 mem2 with
        | none => rw [c1] at h; cases h
        | some m1 =>
        rw [c1] at h
        simp only [Option.some_bind] at h
        cases c2 : copy_table n2 old.as_pbase2 old.as_npages2 m1 with
        | none => rw [c2] at h; cases h
        | some m2 =>
        rw [c2] at h
        simp only [Option.some_bind] at h
        cases c3 : copy_table ns old.as_stackpbase DUMBVM_STACKPAGES m2 with
        | none => rw [c3] at h; cases h
        | some m3 =>
        rw [c3] at h
        simp only [Option.map_some', Option.some.injEq, Prod.mk.injEq, true_and] at h
        obtain ⟨hn, hv, hm⟩ := h
        subst hn
        subst hv
        subst hm
        exact ⟨new0, mem2, n1, n2, ns, m1, m2, rfl, hp, h1, h2, h3, c1, c2, c3⟩
      · simp only [ne_eq, hrc, not_false_eq_true, if_true] at h
        cases hd : as_destroy new2 vmr with
        | none => rw [hd] at h; cases h
        | some vm3 =>
          rw [hd] at h
          simp only [Option.map_some', Option.some.injEq, Prod.mk.injEq] at h
          obtain ⟨_, h2, _⟩ := h
          cases h2

/-- The address space `as_copy` hands to `as_prepare_load` has both regions defined
whenever that call returns at all. -/
theorem as_copy_new_defined (ENOMEM : Nat) (raw : Option addrspace) (k1 k2 kS : Bool)
    (old new0 : addrspace) (vm : VM) (mem : Mem) (r : Nat × addrspace × VM × Mem)
    (hc : as_create raw = some new0)
    (hp : as_prepare_load ENOMEM kS
        { new0 with as_vbase1 := old.as_vbase1, as_npages1 := old.as_npages1,
                    as_vbase2 := old.as_vbase2, as_npages2 := old.as_npages2,
                    as_pbase1 := kmalloc_table k1 old.as_npages1,
                    as_pbase2 := kmalloc_table k2 old.as_npages2 } vm mem = some r) :
    addrspace.RegionsDefined
        { new0 with as_vbase1 := old.as_vbase1, as_npages1 := old.as_npages1,
                    as_vbase2 := old.as_vbase2, as_npages2 := old.as_npages2,
                    as_pbase1 := kmalloc_table k1 old.as_npages1,
                    as_pbase2 := kmalloc_table k2 old.as_npages2 } := by
  have hs : new0.as_stackpbase = none := by
    unfold as_create at hc
    cases raw with
    | none => cases hc
    | some a =>
      simp only [Option.some.injEq] at hc
      rw [← hc]
  cases k1 with
  | false =>
    unfold as_prepare_load kmalloc_table at hp
    simp only [Bool.false_eq_true, if_false] at hp
    cases hp
  | true =>
    cases k2 with
    | false =>
      unfold as_prepare_load kmalloc_table at hp
      simp only [Bool.false_eq_true, if_false, if_true] at hp
      cases hp
    | true =>
      unfold addrspace.RegionsDefined kmalloc_table
      simp only [if_true, Option.map_some', List.length_replicate, true_and]
      exact hs

/-- **C12.** Let every address listed in the three tables of `old` be the address of a
frame whose tag is not `0` (the frame table being well laid out, and the errno `ENOMEM`
more than a page below the first managed frame).  When `as_copy` returns `0`, the new
address space has its three tables, one entry per page, and no address listed in them
is listed in a table of `old`; moreover the page at an address listed in the copy and
the page at an address listed in `old` have no byte in common, so a write within the
former changes nothing of the latter. -/
theorem as_copy_frames_disjoint (ENOMEM : Nat) (raw : Option addrspace) (k1 k2 kS : Bool)
    (old new : addrspace) (vm vm2 : VM) (mem : Mem)
    (hwf : vm.WF) (hE : ENOMEM + PAGE_SIZE ≤ vm.startaddr)
    (hold : ∀ q ∈ old.listed, ∃ f, f < vm.coremap.length ∧
      q = vm.startaddr + f * PAGE_SIZE ∧ vm.coremap[f]? ≠ some 0)
    (hret : (as_copy ENOMEM raw k1 k2 kS old vm mem).map
      (fun r => (r.1, r.2.1, r.2.2.1)) = some (0, some new, vm2)) :
    (new.as_pbase1.map List.length = some old.as_npages1 ∧
      new.as_pbase2.map List.length = some old.as_npages2 ∧
      new.as_stackpbase.map List.length = some DUMBVM_STACKPAGES) ∧
    ∀ p ∈ new.listed, ∀ q ∈ old.listed, p ≠ q ∧
      ∀ b b', b < PAGE_SIZE → b' < PAGE_SIZE →
        PADDR_TO_KVADDR p + b ≠ PADDR_TO_KVADDR q + b' := by
  cases hres : as_copy ENOMEM raw k1 k2 kS old vm mem with
  | none => rw [hres] at hret; cases hret
  | some r =>
  obtain ⟨rc, ret, vmr, mem3⟩ := r
  rw [hres] at hret
  simp only [Option.map_some', Option.some.injEq, Prod.mk.injEq] at hret
  obtain ⟨hrc, hnew, hvm⟩ := hret
  subst hrc
  subst hnew
  subst hvm
  obtain ⟨new0, mem2, n1, n2, ns, m1, m2, hc, hp, h1, h2, h3, _, _, _⟩ :=
    as_copy_ok ENOMEM raw k1 k2 kS old new vm vmr mem mem3 hres
  have hdef := as_copy_new_defined ENOMEM raw k1 k2 kS old new0 vm mem _ hc hp
  obtain ⟨t1, t2, ts, frames, g1, g2, g3, hl1, hl2, hl3, _, hn1, _, hn2, _, hb, hent, _⟩ :=
    as_prepare_load_general ENOMEM kS _ new vm vmr mem mem2 hdef hwf hp
  rw [h1] at g1
  rw [h2] at g2
  rw [h3] at g3
  cases g1
  cases g2
  cases g3
  refine ⟨⟨by rw [h1, Option.map_some', hl1, hn1], by rw [h2, Option.map_some', hl2, hn2],
    by rw [h3, Option.map_some', hl3]⟩, ?_⟩
  intro p hp q hq
  have hp2 : p ∈ n1 ++ n2 ++ ns := by
    unfold addrspace.listed at hp
    rw [h1, h2, h3] at hp
    exact hp
  obtain ⟨g, hg, hqg, htag⟩ := hold q hq
  obtain ⟨ha, hbnd⟩ := hwf
  have kq : PADDR_TO_KVADDR q = MIPS_KSEG0 + q := by
    unfold PADDR_TO_KVADDR u32
    unfold PAGE_SIZE MIPS_KSEG0 at *
    omega
  rcases hent p hp2 with hpe | ⟨f, hf, hpf⟩
  · have kp : PADDR_TO_KVADDR p = MIPS_KSEG0 + p := by
      unfold PADDR_TO_KVADDR u32
      unfold PAGE_SIZE MIPS_KSEG0 at *
      omega
    rw [kp, kq]
    unfold PAGE_SIZE MIPS_KSEG0 at *
    refine ⟨by omega, fun b b' hb1 hb2 => by omega⟩
  · have hfree := hb.free f hf
    have hlt : f < vm.coremap.length := by
      by_contra hge
      rw [List.getElem?_eq_none (by omega)] at hfree
      cases hfree
    have hfg : f ≠ g := by
      intro e
      rw [e] at hfree
      exact htag hfree
    have kp : PADDR_TO_KVADDR p = MIPS_KSEG0 + p := by
      unfold PADDR_TO_KVADDR u32
      unfold PAGE_SIZE MIPS_KSEG0 at *
      omega
    rw [kp, kq]
    unfold PAGE_SIZE MIPS_KSEG0 at *
    refine ⟨by omega, fun b b' hb1 hb2 => by omega⟩

/-- Witness for C12: a table of thirty-five frames; `old` owns frames 1, 2 and 5 to 16,
fifteen frames further up are free, and the copy gets the first fourteen of those. -/
theorem as_copy_frames_disjoint_witness :
    ((some [90112] : Option (List Nat)).map List.length = some 1 ∧
      (some [94208] : Option (List Nat)).map List.length = some 1 ∧
      (some [98304, 102400, 106496, 110592, 114688, 118784, 122880, 126976, 131072, 135168,
        139264, 143360] : Option (List Nat)).map List.length = some DUMBVM_STACKPAGES) ∧
    ∀ p ∈ addrspace.listed
        ⟨4194304, some [90112], 1, 268435456, some [94208], 1,
          some [98304, 102400, 106496, 110592, 114688, 118784, 122880, 126976, 131072,
            135168, 139264, 143360], false, true, true, false⟩,
      ∀ q ∈ addrspace.listed
          ⟨4194304, some [12288], 1, 268435456, some [16384], 1,
            some [28672, 32768, 36864, 40960, 45056, 49152, 53248, 57344, 61440, 65536,
              69632, 73728], false, true, true, false⟩,
        p ≠ q ∧ ∀ b b', b < PAGE_SIZE → b' < PAGE_SIZE →
          PADDR_TO_KVADDR p + b ≠ PADDR_TO_KVADDR q + b' :=
  as_copy_frames_disjoint 3
    (some ⟨7, some [5], 9, 11, none, 13, some [], true, true, true, false⟩) true true true
    ⟨4194304, some [12288], 1, 268435456, some [16384], 1,
      some [28672, 32768, 36864, 40960, 45056, 49152, 53248, 57344, 61440, 65536, 69632,
        73728], false, true, true, false⟩
    ⟨4194304, some [90112], 1, 268435456, some [94208], 1,
      some [98304, 102400, 106496, 110592, 114688, 118784, 122880, 126976, 131072, 135168,
        139264, 143360], false, true, true, false⟩
    ⟨[1, 1, 1, 2, 2, 1, 1, 1, 1, 1, 1, 1, 1, 1, 1, 1, 1, 3, 3, 3, 0, 0, 0, 0, 0, 0, 0, 0, 0,
      0, 0, 0, 0, 0, 0], 8192⟩
    ⟨[1, 1, 1, 2, 2, 1, 1, 1, 1, 1, 1, 1, 1, 1, 1, 1, 1, 3, 3, 3, 1, 1, 1, 1, 1, 1, 1, 1, 1,
      1, 1, 1, 1, 1, 0], 8192⟩
    (fun _ => 255) (by decide) (by decide) (by decide) (by decide)

/-- **C11 (the code departs from it).** `old` owns all fourteen frames of the table (its
region-1 page holds the byte 170 throughout, its region-2 page 187, its stack pages 204)
and no frame is free.  Every `getppages(1)` of the copy returns `ENOMEM` (here 3),
`as_copy` still returns `0`, and all fourteen pages of the new address space are the one
page at address 3: after the three copy loops its first byte is 204, a stack byte of
`old`, whereas the first byte of the region-1 page of `old` is 170. -/
theorem as_copy_aliases_failed_pages :
    (as_copy 3 (some ⟨7, some [5], 9, 11, none, 13, some [], true, true, true, false⟩)
      true true true
      ⟨4194304, some [8192], 1, 268435456, some [12288], 1,
        some [16384, 20480, 24576, 28672, 32768, 36864, 40960, 45056, 49152, 53248, 57344,
          61440], false, true, true, false⟩
      ⟨[1, 1, 1, 1, 1, 1, 1, 1, 1, 1, 1, 1, 1, 1], 8192⟩
      (fun a => if a < 2147495936 then 170 else if a < 2147500032 then 187 else 204)).map
        (fun r => (r.1, r.2.1, r.2.2.1, r.2.2.2 (PADDR_TO_KVADDR 3))) =
      some (0,
        some ⟨4194304, some [3], 1, 268435456, some [3], 1,
          some [3, 3, 3, 3, 3, 3, 3, 3, 3, 3, 3, 3], false, true, true, false⟩,
        ⟨[1, 1, 1, 1, 1, 1, 1, 1, 1, 1, 1, 1, 1, 1], 8192⟩, 204) ∧
    (fun a => if a < 2147495936 then 170 else if a < 2147500032 then 187 else 204)
      (PADDR_TO_KVADDR 8192) = 170 := by
  decide

/-! ## Memory after the zeroing and the copy loops -/

theorem PagesApart.not_inPage {p q : Nat} (h : PagesApart p q) (b : Nat) (hb : b < PAGE_SIZE) :
    ¬ InPage p (PADDR_TO_KVADDR q + b) := by
  unfold PagesApart at h
  unfold InPage
  omega

theorem PagesApart.flip {p q : Nat} (h : PagesApart p q) : PagesApart q p :=
  Or.symm h

theorem zero_frames_outside :
    ∀ (remaining x : Nat) (tbl : List Nat) (mem : Mem) (a : Nat),
      (∀ t, x ≤ t → t < x + remaining → ¬ InPage (tbl.getD t 0) a) →
      zero_frames x remaining tbl mem a = mem a := by
  intro remaining
  induction remaining with
  | zero =>
    intro x tbl mem a _
    rfl
  | succ r ih =>
    intro x tbl mem a h
    simp only [zero_frames]
    rw [ih (x + 1) tbl _ a (fun t h1 h2 => h t (by omega) (by omega))]
    have hx := h x (le_refl _) (by omega)
    unfold InPage at hx
    unfold as_zero_region bzero
    rw [if_neg (by rw [Nat.one_mul]; exact hx)]

theorem copy_frames_outside :
    ∀ (remaining i : Nat) (new old : List Nat) (mem : Mem) (a : Nat),
      (∀ t, i ≤ t → t < i + remaining → ¬ InPage (new.getD t 0) a) →
      copy_frames i remaining new old mem a = mem a := by
  intro remaining
  induction remaining with
  | zero =>
    intro i new old mem a _
    rfl
  | succ r ih =>
    intro i new old mem a h
    simp only [copy_frames]
    rw [ih (i + 1) new old _ a (fun t h1 h2 => h t (by omega) (by omega))]
    have hi := h i (le_refl _) (by omega)
    unfold InPage at hi
    unfold memmove
    rw [if_neg hi]

theorem copy_frames_copied :
    ∀ (remaining i : Nat) (new old : List Nat) (mem : Mem),
      (∀ s t, i ≤ s → s < t → t < i + remaining →
        PagesApart (new.getD s 0) (new.getD t 0)) →
      (∀ s t, i ≤ s → s < i + remaining → i ≤ t → t < i + remaining →
        PagesApart (new.getD s 0) (old.getD t 0)) →
      ∀ t b, i ≤ t → t < i + remaining → b < PAGE_SIZE →
        copy_frames i remaining new old mem (PADDR_TO_KVADDR (new.getD t 0) + b) =
          mem (PADDR_TO_KVADDR (old.getD t 0) + b) := by
  intro remaining
  induction remaining with
  | zero =>
    intro i new old mem _ _ t b h1 h2 _
    omega
  | succ r ih =>
    intro i new old mem hdst hsrc t b h1 h2 hb
    simp only [copy_frames]
    by_cases hit : i = t
    · subst hit
      rw [copy_frames_outside r (i + 1) new old _ _
        (fun s hs1 hs2 => (hdst i s (le_refl _) (by omega) (by omega)).flip.not_inPage b hb)]
      unfold memmove
      rw [if_pos ⟨Nat.le_add_right _ _, by omega⟩, Nat.add_sub_cancel_left]
    · rw [ih (i + 1) new old _
        (fun s u hs1 hs2 hs3 => hdst s u (by omega) hs2 (by omega))
        (fun s u hs1 hs2 hu1 hu2 => hsrc s u (by omega) (by omega) (by omega) (by omega))
        t b (by omega) (by omega) hb]
      unfold memmove
      have hno := (hsrc i t (le_refl _) (by omega) (by omega) h2).not_inPage b hb
      unfold InPage at hno
      rw [if_neg hno]

theorem zero_frames_outside_table (tbl : List Nat) (n : Nat) (mem : Mem) (a : Nat)
    (hn : tbl.length = n) (h : ∀ p ∈ tbl, ¬ InPage p a) :
    zero_frames 0 n tbl mem a = mem a := by
  apply zero_frames_outside
  intro t _ ht
  rw [List.getD_eq_getElem _ _ (by omega)]
  exact h _ (List.getElem_mem _)

theorem copy_frames_outside_table (new old : List Nat) (n : Nat) (mem : Mem) (a : Nat)
    (hn : new.length = n) (h : ∀ p ∈ new, ¬ InPage p a) :
    copy_frames 0 n new old mem a = mem a := by
  apply copy_frames_outside
  intro t _ ht
  rw [List.getD_eq_getElem _ _ (by omega)]
  exact h _ (List.getElem_mem _)

theorem copy_frames_copied_table (new old : List Nat) (n : Nat) (mem : Mem)
    (hn : new.length = n) (ho : old.length = n) (hdst : new.Pairwise PagesApart)
    (hsrc : ∀ p ∈ new, ∀ q ∈ old, PagesApart p q) (t b : Nat) (ht : t < n)
    (hb : b < PAGE_SIZE) :
    copy_frames 0 n new old mem (PADDR_TO_KVADDR (new.getD t 0) + b) =
      mem (PADDR_TO_KVADDR (old.getD t 0) + b) := by
  apply copy_frames_copied n 0 new old mem _ _ t b (Nat.zero_le _) (by omega) hb
  · intro s u _ hsu hu
    rw [List.getD_eq_getElem _ _ (by omega : s < new.length),
      List.getD_eq_getElem _ _ (by omega : u < new.length)]
    exact List.pairwise_iff_getElem.1 hdst s u (by omega) (by omega) hsu
  · intro s u _ hs _ hu
    rw [List.getD_eq_getElem _ _ (by omega : s < new.length),
      List.getD_eq_getElem _ _ (by omega : u < old.length)]
    exact hsrc _ (List.getElem_mem _) _ (List.getElem_mem _)

/-- Two distinct frames of a well laid-out table have pages with no byte in common. -/
theorem frames_apart (vm : VM) (hwf : vm.WF) (f g : Nat) (hf : f < vm.coremap.length)
    (hg : g < vm.coremap.length) (hfg : f ≠ g) :
    PagesApart (vm.startaddr + f * PAGE_SIZE) (vm.startaddr + g * PAGE_SIZE) := by
  obtain ⟨_, hbnd⟩ := hwf
  unfold PagesApart PADDR_TO_KVADDR u32
  unfold PAGE_SIZE MIPS_KSEG0 at *
  omega

/-- With room for every page, `as_prepare_load` binds the frames `f1`, `f2`, `f3` and
zeroes exactly their pages. -/
theorem as_prepare_load_room (ENOMEM : Nat) (as : addrspace) (vm : VM) (mem : Mem)
    (hdef : as.RegionsDefined) (hwf : vm.WF)
    (hfree : as.as_npages1 + as.as_npages2 + DUMBVM_STACKPAGES ≤ freeCount vm.coremap) :
    ∃ (f1 f2 f3 : List Nat) (vm' : VM),
      as_prepare_load ENOMEM true as vm mem =
        some (0,
          { as with
            as_pbase1 := some (f1.map (fun f => vm.startaddr + f * PAGE_SIZE)),
            as_pbase2 := some (f2.map (fun f => vm.startaddr + f * PAGE_SIZE)),
            as_stackpbase := some (f3.map (fun f => vm.startaddr + f * PAGE_SIZE)) },
          vm',
          zero_frames 0 DUMBVM_STACKPAGES (f3.map (fun f => vm.startaddr + f * PAGE_SIZE))
            (zero_frames 0 as.as_npages2 (f2.map (fun f => vm.startaddr + f * PAGE_SIZE))
              (zero_frames 0 as.as_npages1 (f1.map (fun f => vm.startaddr + f * PAGE_SIZE))
                mem))) ∧
      f1.length = as.as_npages1 ∧ f2.length = as.as_npages2 ∧
      f3.length = DUMBVM_STACKPAGES ∧ FramesBound vm vm' (f1 ++ f2 ++ f3) := by
  obtain ⟨hd1, hd2, hd3⟩ := hdef
  cases h1 : as.as_pbase1 with
  | none => rw [h1] at hd1; cases hd1
  | some t1 =>
  cases h2 : as.as_pbase2 with
  | none => rw [h2] at hd2; cases hd2
  | some t2 =>
  rw [h1] at hd1
  rw [h2] at hd2
  simp only [Option.map_some', Option.some.injEq] at hd1 hd2
  obtain ⟨f1, hl1, hb1, ht1⟩ := bind_frames_full ENOMEM vm t1 hwf (by omega)
  rw [hd1] at hl1 hb1 ht1
  have hc1 := hb1.count
  have hwf1 := hwf.of_eq hb1.startaddr hb1.length
  obtain ⟨f2, hl2, hb2, ht2⟩ := bind_frames_full ENOMEM
    (bind_frames ENOMEM 0 as.as_npages1 vm t1).2 t2 hwf1 (by omega)
  rw [hd2] at hl2 hb2 ht2
  rw [hb1.startaddr] at ht2
  have hc2 := hb2.count
  have hb12 := FramesBound.trans hb1 hb2
  have hwf2 := hwf.of_eq hb12.startaddr hb12.length
  obtain ⟨f3, hl3, hb3, ht3⟩ := bind_frames_full ENOMEM
    (bind_frames ENOMEM 0 as.as_npages2 (bind_frames ENOMEM 0 as.as_npages1 vm t1).2 t2).2
    (List.replicate DUMBVM_STACKPAGES 0) hwf2
    (by rw [List.length_replicate]; omega)
  rw [List.length_replicate] at hl3 hb3 ht3
  rw [hb12.startaddr] at ht3
  have hb := FramesBound.trans hb12 hb3
  have hres := as_prepare_load_eq ENOMEM as vm mem t1 t2 h1 h2 hd3
  rw [ht1, ht2, ht3] at hres
  exact ⟨f1, f2, f3, _, hres, hl1, hl2, hl3, hb⟩

/-- A call of `as_copy` whose allocations of the structure and of the tables succeed,
once `as_prepare_load` has returned `0`: the three copy loops run and the result is `0`. -/
theorem as_copy_eq (ENOMEM : Nat) (raw : Option addrspace) (old new0 new2 : addrspace)
    (vm vm2 : VM) (mem mem2 : Mem) (n1 n2 ns o1 o2 os : List Nat)
    (hc : as_create raw = some new0)
    (hp : as_prepare_load ENOMEM true
        { new0 with as_vbase1 := old.as_vbase1, as_npages1 := old.as_npages1,
                    as_vbase2 := old.as_vbase2, as_npages2 := old.as_npages2,
                    as_pbase1 := kmalloc_table true old.as_npages1,
                    as_pbase2 := kmalloc_table true old.as_npages2 } vm mem =
        some (0, new2, vm2, mem2))
    (h1 : new2.as_pbase1 = some n1) (h2 : new2.as_pbase2 = some n2)
    (h3 : new2.as_stackpbase = some ns)
    (ho1 : old.as_pbase1 = some o1) (ho2 : old.as_pbase2 = some o2)
    (ho3 : old.as_stackpbase = some os) :
    as_copy ENOMEM raw true true true old vm mem =
      some (0, some new2, vm2,
        copy_frames 0 DUMBVM_STACKPAGES ns os
          (copy_frames 0 old.as_npages2 n2 o2 (copy_frames 0 old.as_npages1 n1 o1 mem2))) := by
  unfold as_copy
  rw [hc]
  simp only
  rw [hp]
  simp only [ne_eq, not_true_eq_false, if_false]
  rw [h1, h2, h3]
  simp only
  unfold copy_table
  rw [ho1, ho2, ho3]
  rfl

/-- The copy where the frames can be had: `old` has its three tables, one
entry per page, every entry the address of a frame whose tag is not `0`, and the frame
table has a free frame for every page of the copy.  Then `as_copy` (its `kmalloc`s
succeeding) returns `0`, the new address space has the bases and page counts of `old`,
every page of it holds byte for byte what the corresponding page of `old` held before
the call, and the pages of `old` hold what they held. -/
theorem as_copy_identical (ENOMEM : Nat) (raw old : addrspace) (vm : VM) (mem : Mem)
    (o1 o2 os : List Nat) (hwf : vm.WF)
    (hroom : old.as_npages1 + old.as_npages2 + DUMBVM_STACKPAGES ≤ freeCount vm.coremap)
    (ho1 : old.as_pbase1 = some o1) (ho2 : old.as_pbase2 = some o2)
    (ho3 : old.as_stackpbase = some os)
    (hl1 : o1.length = old.as_npages1) (hl2 : o2.length = old.as_npages2)
    (hl3 : os.length = DUMBVM_STACKPAGES)
    (hold : ∀ q ∈ o1 ++ o2 ++ os, ∃ f, f < vm.coremap.length ∧
      q = vm.startaddr + f * PAGE_SIZE ∧ vm.coremap[f]? ≠ some 0) :
    ∃ (new : addrspace) (vm2 : VM) (mem3 : Mem) (n1 n2 ns : List Nat),
      as_copy ENOMEM (some raw) true true true old vm mem = some (0, some new, vm2, mem3) ∧
      new.as_vbase1 = old.as_vbase1 ∧ new.as_npages1 = old.as_npages1 ∧
      new.as_vbase2 = old.as_vbase2 ∧ new.as_npages2 = old.as_npages2 ∧
      new.as_pbase1 = some n1 ∧ new.as_pbase2 = some n2 ∧ new.as_stackpbase = some ns ∧
      (∀ t b, t < old.as_npages1 → b < PAGE_SIZE →
        mem3 (PADDR_TO_KVADDR (n1.getD t 0) + b) = mem (PADDR_TO_KVADDR (o1.getD t 0) + b)) ∧
      (∀ t b, t < old.as_npages2 → b < PAGE_SIZE →
        mem3 (PADDR_TO_KVADDR (n2.getD t 0) + b) = mem (PADDR_TO_KVADDR (o2.getD t 0) + b)) ∧
      (∀ t b, t < DUMBVM_STACKPAGES → b < PAGE_SIZE →
        mem3 (PADDR_TO_KVADDR (ns.getD t 0) + b) = mem (PADDR_TO_KVADDR (os.getD t 0) + b)) ∧
      (∀ q ∈ o1 ++ o2 ++ os, ∀ b, b < PAGE_SIZE →
        mem3 (PADDR_TO_KVADDR q + b) = mem (PADDR_TO_KVADDR q + b)) := by
  obtain ⟨new0, hc, hs⟩ : ∃ new0, as_create (some raw) = some new0 ∧
      new0.as_stackpbase = none := ⟨_, rfl, rfl⟩
  have hdef : addrspace.RegionsDefined
      { new0 with as_vbase1 := old.as_vbase1, as_npages1 := old.as_npages1,
                  as_vbase2 := old.as_vbase2, as_npages2 := old.as_npages2,
                  as_pbase1 := kmalloc_table true old.as_npages1,
                  as_pbase2 := kmalloc_table true old.as_npages2 } := by
    unfold addrspace.RegionsDefined kmalloc_table
    simp only [if_true, Option.map_some', List.length_replicate, true_and]
    exact hs
  obtain ⟨f1, f2, f3, vm', hp, hf1, hf2, hf3, hb⟩ :=
    as_prepare_load_room ENOMEM _ vm mem hdef hwf hroom
  have hf1' : f1.length = old.as_npages1 := hf1
  have hf2' : f2.length = old.as_npages2 := hf2
  have hlt : ∀ f ∈ f1 ++ f2 ++ f3, f < vm.coremap.length := by
    intro f hf
    have hfree := hb.free f hf
    by_contra hge
    rw [List.getElem?_eq_none (by omega)] at hfree
    cases hfree
  have hpw : ((f1 ++ f2 ++ f3).map (fun f => vm.startaddr + f * PAGE_SIZE)).Pairwise
      PagesApart := by
    rw [List.pairwise_map]
    exact List.Pairwise.imp_of_mem
      (fun ha hb' hne => frames_apart vm hwf _ _ (hlt _ ha) (hlt _ hb') hne) hb.nodup
  have hno : ∀ p ∈ (f1 ++ f2 ++ f3).map (fun f => vm.startaddr + f * PAGE_SIZE),
      ∀ q ∈ o1 ++ o2 ++ os, PagesApart p q := by
    intro p hp q hq
    obtain ⟨f, hf, hpf⟩ := List.mem_map.1 hp
    obtain ⟨g, hg, hqg, htag⟩ := hold q hq
    rw [← hpf, hqg]
    exact frames_apart vm hwf f g (hlt f hf) hg (fun e => htag (e ▸ hb.free f hf))
  rw [List.map_append, List.map_append] at hpw hno
  obtain ⟨N1, hN1⟩ : ∃ N1, N1 = f1.map (fun f => vm.startaddr + f * PAGE_SIZE) := ⟨_, rfl⟩
  obtain ⟨N2, hN2⟩ : ∃ N2, N2 = f2.map (fun f => vm.startaddr + f * PAGE_SIZE) := ⟨_, rfl⟩
  obtain ⟨N3, hN3⟩ : ∃ N3, N3 = f3.map (fun f => vm.startaddr + f * PAGE_SIZE) := ⟨_, rfl⟩
  rw [← hN1, ← hN2, ← hN3] at hp hpw hno
  have hn1 : N1.length = old.as_npages1 := by rw [hN1, List.length_map]; exact hf1'
  have hn2 : N2.length = old.as_npages2 := by rw [hN2, List.length_map]; exact hf2'
  have hn3 : N3.length = DUMBVM_STACKPAGES := by rw [hN3, List.length_map]; exact hf3
  obtain ⟨h12, hp3, hx3⟩ := List.pairwise_append.1 hpw
  obtain ⟨hp1, hp2, hx12⟩ := List.pairwise_append.1 h12
  have hcopy := as_copy_eq ENOMEM (some raw) old new0 _ vm vm' mem _ N1 N2 N3 o1 o2 os hc hp
    rfl rfl rfl ho1 ho2 ho3
  have hz : ∀ a, (∀ p ∈ N1 ++ N2 ++ N3, ¬ InPage p a) →
      zero_frames 0 DUMBVM_STACKPAGES N3
        (zero_frames 0 old.as_npages2 N2 (zero_frames 0 old.as_npages1 N1 mem)) a = mem a := by
    intro a ha
    rw [zero_frames_outside_table N3 _ _ a hn3 (fun p hp => ha p (List.mem_append_right _ hp)),
      zero_frames_outside_table N2 _ _ a hn2
        (fun p hp => ha p (List.mem_append_left _ (List.mem_append_right _ hp))),
      zero_frames_outside_table N1 _ _ a hn1
        (fun p hp => ha p (List.mem_append_left _ (List.mem_append_left _ hp)))]
  have hgetN : ∀ (l : List Nat) (n t : Nat), l.length = n → t < n → l.getD t 0 ∈ l := by
    intro l n t hl ht
    rw [List.getD_eq_getElem _ _ (by omega)]
    exact List.getElem_mem _
  have m1 : ∀ p, p ∈ N1 → p ∈ N1 ++ N2 ++ N3 :=
    fun p hp => List.mem_append_left _ (List.mem_append_left _ hp)
  have m2 : ∀ p, p ∈ N2 → p ∈ N1 ++ N2 ++ N3 :=
    fun p hp => List.mem_append_left _ (List.mem_append_right _ hp)
  have m3 : ∀ p, p ∈ N3 → p ∈ N1 ++ N2 ++ N3 :=
    fun p hp => List.mem_append_right _ hp
  have q1 : ∀ q, q ∈ o1 → q ∈ o1 ++ o2 ++ os :=
    fun q hq => List.mem_append_left _ (List.mem_append_left _ hq)
  have q2 : ∀ q, q ∈ o2 → q ∈ o1 ++ o2 ++ os :=
    fun q hq => List.mem_append_left _ (List.mem_append_right _ hq)
  have q3 : ∀ q, q ∈ os → q ∈ o1 ++ o2 ++ os :=
    fun q hq => List.mem_append_right _ hq
  refine ⟨_, vm', _, N1, N2, N3, hcopy, rfl, rfl, rfl, rfl, rfl, rfl, rfl, ?_, ?_, ?_, ?_⟩
  · intro t b ht hb'
    have hpm := hgetN N1 _ t hn1 ht
    have hqm := hgetN o1 _ t hl1 ht
    rw [copy_frames_outside_table N3 os _ _ _ hn3
        (fun p hp => (hx3 _ (List.mem_append_left _ hpm) p hp).flip.not_inPage b hb'),
      copy_frames_outside_table N2 o2 _ _ _ hn2
        (fun p hp => (hx12 _ hpm p hp).flip.not_inPage b hb'),
      copy_frames_copied_table N1 o1 _ _ hn1 hl1 hp1
        (fun p hp q hq => hno p (m1 p hp) q (q1 q hq)) t b ht hb']
    exact hz _ (fun p hp => (hno p hp _ (q1 _ hqm)).not_inPage b hb')
  · intro t b ht hb'
    have hpm := hgetN N2 _ t hn2 ht
    have hqm := hgetN o2 _ t hl2 ht
    rw [copy_frames_outside_table N3 os _ _ _ hn3
        (fun p hp => (hx3 _ (List.mem_append_right _ hpm) p hp).flip.not_inPage b hb'),
      copy_frames_copied_table N2 o2 _ _ hn2 hl2 hp2
        (fun p hp q hq => hno p (m2 p hp) q (q2 q hq)) t b ht hb',
      copy_frames_outside_table N1 o1 _ _ _ hn1
        (fun p hp => (hno p (m1 p hp) _ (q2 _ hqm)).not_inPage b hb')]
    exact hz _ (fun p hp => (hno p hp _ (q2 _ hqm)).not_inPage b hb')
  · intro t b ht hb'
    have hqm := hgetN os _ t hl3 ht
    rw [copy_frames_copied_table N3 os _ _ hn3 hl3 hp3
        (fun p hp q hq => hno p (m3 p hp) q (q3 q hq)) t b ht hb',
      copy_frames_outside_table N2 o2 _ _ _ hn2
        (fun p hp => (hno p (m2 p hp) _ (q3 _ hqm)).not_inPage b hb'),
      copy_frames_outside_table N1 o1 _ _ _ hn1
        (fun p hp => (hno p (m1 p hp) _ (q3 _ hqm)).not_inPage b hb')]
    exact hz _ (fun p hp => (hno p hp _ (q3 _ hqm)).not_inPage b hb')
  · intro q hq b hb'
    rw [copy_frames_outside_table N3 os _ _ _ hn3
        (fun p hp => (hno p (m3 p hp) q hq).not_inPage b hb'),
      copy_frames_outside_table N2 o2 _ _ _ hn2
        (fun p hp => (hno p (m2 p hp) q hq).not_inPage b hb'),
      copy_frames_outside_table N1 o1 _ _ _ hn1
        (fun p hp => (hno p (m1 p hp) q hq).not_inPage b hb')]
    exact hz _ (fun p hp => (hno p hp q hq).not_inPage b hb')

/-! ## Faults that install nothing -/

/-- **C21.** For every fault-type code other than `VM_FAULT_READ`, `VM_FAULT_WRITE` and
`VM_FAULT_READONLY`, every fault address and every state (a current process with an
address space, one with none, or no current process), `vm_fault` returns `EINVAL` and
the translation cache is the one it was given. -/
theorem vm_fault_invalid_type (EFAULT EINVAL random : Nat)
    (curproc : Option (Option addrspace)) (tlb : TLB) (faulttype : Int) (fa : Nat)
    (h0 : faulttype ≠ VM_FAULT_READ) (h1 : faulttype ≠ VM_FAULT_WRITE)
    (h2 : faulttype ≠ VM_FAULT_READONLY) :
    vm_fault EFAULT EINVAL random curproc tlb faulttype fa = some (EINVAL, tlb) := by
  unfold vm_fault
  simp only [h0, h1, h2, if_false, or_self]

/-- Witness for C21: fault-type code 7, no current process, a cache holding one valid
entry. -/
theorem vm_fault_invalid_type_witness :
    vm_fault 6 8 5 none ((4194304, 1050112) :: List.replicate 63 (0, 0)) 7 4194304 =
      some (8, (4194304, 1050112) :: List.replicate 63 (0, 0)) :=
  vm_fault_invalid_type 6 8 5 none ((4194304, 1050112) :: List.replicate 63 (0, 0)) 7
    4194304 (by decide) (by decide) (by decide)

/-- **C22.** For every properly set-up current address space and every Read or Write
fault whose page-aligned address lies in none of region 1, region 2 and the stack range
`[USERSTACK - 12 * PAGE_SIZE, USERSTACK)`, `vm_fault` returns `EFAULT` and the
translation cache is the one it was given. -/
theorem vm_fault_no_mapping (EFAULT EINVAL random : Nat) (as : addrspace) (tlb : TLB)
    (faulttype : Int) (fa : Nat) (hset : as.SetUp)
    (hty : faulttype = VM_FAULT_READ ∨ faulttype = VM_FAULT_WRITE)
    (hout : ¬ as.inRegion1 (fa &&& PAGE_FRAME) ∧ ¬ as.inRegion2 (fa &&& PAGE_FRAME) ∧
      ¬ inStack (fa &&& PAGE_FRAME)) :
    vm_fault EFAULT EINVAL random (some (some as)) tlb faulttype fa = some (EFAULT, tlb) := by
  obtain ⟨t1, t2, ts, h1, h2, h3, _, _, _, hassert, hb1, hb2⟩ := hset.tables
  obtain ⟨ho1, ho2, ho3⟩ := hout
  have hvtop1 : u32 (as.as_vbase1 + u32 (as.as_npages1 * PAGE_SIZE)) =
      as.as_vbase1 + as.as_npages1 * PAGE_SIZE := by
    unfold u32
    unfold PAGE_SIZE at *
    omega
  have hvtop2 : u32 (as.as_vbase2 + u32 (as.as_npages2 * PAGE_SIZE)) =
      as.as_vbase2 + as.as_npages2 * PAGE_SIZE := by
    unfold u32
    unfold PAGE_SIZE at *
    omega
  have hne : faulttype ≠ VM_FAULT_READONLY := by
    rcases hty with h | h <;> rw [h] <;> decide
  have e1 : (as.as_vbase1 ≤ (fa &&& PAGE_FRAME) ∧
      (fa &&& PAGE_FRAME) < as.as_vbase1 + as.as_npages1 * PAGE_SIZE) =
      as.inRegion1 (fa &&& PAGE_FRAME) := rfl
  have e2 : (as.as_vbase2 ≤ (fa &&& PAGE_FRAME) ∧
      (fa &&& PAGE_FRAME) < as.as_vbase2 + as.as_npages2 * PAGE_SIZE) =
      as.inRegion2 (fa &&& PAGE_FRAME) := rfl
  have e3 : (USERSTACK - DUMBVM_STACKPAGES * PAGE_SIZE ≤ (fa &&& PAGE_FRAME) ∧
      (fa &&& PAGE_FRAME) < USERSTACK) = inStack (fa &&& PAGE_FRAME) := rfl
  unfold vm_fault
  simp only [hne, hty, if_true, if_false, h1, h2, h3, hassert, hvtop1, hvtop2, e1, e2, e3,
    ho1, ho2, ho3]

/-- Witness for C22: the scenario address space and a read fault at `0x500123`, between
region 1 and region 2. -/
theorem vm_fault_no_mapping_witness :
    vm_fault 6 8 5 (some (some scenario_as)) tlb_flushed VM_FAULT_READ 5243171 =
      some (6, tlb_flushed) :=
  vm_fault_no_mapping 6 8 5 scenario_as tlb_flushed VM_FAULT_READ 5243171 (by decide)
    (by decide) (by decide)

/-- **C23 (as stated, refuted).** The scenario address space with `complete` set and a
flushed cache: a `VM_FAULT_READONLY` fault at `0x400000` returns the code `1`, whereas
the success code, returned by the write fault at the same address that installs an
entry, is `0`. -/
theorem vm_fault_readonly_returns_one :
    vm_fault 6 8 5 (some (some { scenario_as with complete := true })) tlb_flushed
        VM_FAULT_READONLY 4194304 = some (1, tlb_flushed) ∧
    (vm_fault 6 8 5 (some (some { scenario_as with complete := true })) tlb_flushed
        VM_FAULT_WRITE 4194304).map Prod.fst = some 0 ∧
    (1 : Nat) ≠ 0 := by
  decide

/-- **C23 (amended).** For every fault address and every state, a fault of type
`VM_FAULT_READONLY` makes `vm_fault` return the code `1` (not `0`, the code of a fault
that was resolved), and the translation cache is the one it was given; `vm_fault`
has no store to the address space on any path. -/
theorem vm_fault_readonly (EFAULT EINVAL random : Nat) (curproc : Option (Option addrspace))
    (tlb : TLB) (fa : Nat) :
    vm_fault EFAULT EINVAL random curproc tlb VM_FAULT_READONLY fa = some (1, tlb) := by
  unfold vm_fault
  simp only [if_true]

/-! ## Activation flushes the translation cache -/

theorem as_activate_loop_spec :
    ∀ (remaining i : Nat) (tlb : TLB),
      (as_activate_loop tlb i remaining).length = tlb.length ∧
      (∀ j, i ≤ j → j < i + remaining → j < tlb.length →
        (as_activate_loop tlb i remaining)[j]? = some (TLBHI_INVALID j, TLBLO_INVALID)) ∧
      (∀ j, j < i → (as_activate_loop tlb i remaining)[j]? = tlb[j]?) := by
  intro remaining
  induction remaining with
  | zero =>
    intro i tlb
    exact ⟨rfl, fun j h1 h2 _ => by omega, fun j _ => rfl⟩
  | succ r ih =>
    intro i tlb
    obtain ⟨hl, hin, hout⟩ := ih (i + 1) (tlb.set i (TLBHI_INVALID i, TLBLO_INVALID))
    simp only [as_activate_loop]
    rw [List.length_set] at hl hin
    refine ⟨hl, ?_, ?_⟩
    · intro j h1 h2 h3
      by_cases hij : i = j
      · subst hij
        rw [hout i (by omega), List.getElem?_set]
        simp only [if_true]
        rw [if_pos h3]
      · exact hin j (by omega) (by omega) h3
    · intro j hj
      rw [hout j (by omega), List.getElem?_set, if_neg (by omega)]

/-- **C24.** For every state of the translation cache (a cache of `NUM_TLB` slots),
`as_activate` called while the current process has an address space leaves every slot
invalid, slot `i` holding `(TLBHI_INVALID(i), TLBLO_INVALID())` with its valid bit
clear; `as_deactivate` leaves the current address space, the frame table and the
translation cache as they are. -/
theorem as_activate_flushes (as : addrspace) (curas : Option addrspace) (vm : VM) (tlb : TLB)
    (hlen : tlb.length = NUM_TLB) :
    (as_activate (some as) tlb).length = NUM_TLB ∧
    (∀ i, i < NUM_TLB →
      (as_activate (some as) tlb)[i]? = some (TLBHI_INVALID i, TLBLO_INVALID) ∧
      TLB.invalidAt (as_activate (some as) tlb) i) ∧
    as_deactivate curas vm tlb = (curas, vm, tlb) := by
  obtain ⟨hl, hin, _⟩ := as_activate_loop_spec NUM_TLB 0 tlb
  refine ⟨by rw [← hlen]; exact hl, fun i hi => ?_, rfl⟩
  have hget := hin i (Nat.zero_le _) (by omega) (by omega)
  refine ⟨hget, ?_⟩
  unfold TLB.invalidAt
  have hg : (as_activate (some as) tlb).getD i (0, 0) = (TLBHI_INVALID i, TLBLO_INVALID) := by
    rw [List.getD_eq_getElem?_getD]
    unfold as_activate
    simp only
    rw [hget]
    rfl
  rw [hg]
  have hz : TLBLO_INVALID &&& TLBLO_VALID = 0 := by decide
  exact hz

/-- Witness for C24: a cache whose first two slots hold valid entries. -/
theorem as_activate_flushes_witness :
    (as_activate (some scenario_as)
      ((4194304, 1050112) :: (4198400, 1054208) :: List.replicate 62 (0, 0))).length =
      NUM_TLB ∧
    (∀ i, i < NUM_TLB →
      (as_activate (some scenario_as)
        ((4194304, 1050112) :: (4198400, 1054208) :: List.replicate 62 (0, 0)))[i]? =
        some (TLBHI_INVALID i, TLBLO_INVALID) ∧
      TLB.invalidAt (as_activate (some scenario_as)
        ((4194304, 1050112) :: (4198400, 1054208) :: List.replicate 62 (0, 0))) i) ∧
    as_deactivate (some scenario_as) ⟨[1, 0, 0], 8192⟩
        ((4194304, 1050112) :: (4198400, 1054208) :: List.replicate 62 (0, 0)) =
      (some scenario_as, ⟨[1, 0, 0], 8192⟩,
        (4194304, 1050112) :: (4198400, 1054208) :: List.replicate 62 (0, 0)) :=
  as_activate_flushes scenario_as (some scenario_as) ⟨[1, 0, 0], 8192⟩
    ((4194304, 1050112) :: (4198400, 1054208) :: List.replicate 62 (0, 0)) (by decide)

/-! ## Two regions defined in turn -/

/-- A call of `as_define_region` that finds region 1 unset records its values there. -/
theorem as_define_region_first (EUNIMP : Nat) (kmallocOk : Bool) (as : addrspace)
    (vaddr sz : Nat) (readable writeable executable : Int) (h1 : as.as_vbase1 = 0) :
    as_define_region EUNIMP kmallocOk as vaddr sz readable writeable executable =
      (0, { as with
        readable := decide (readable ≠ 0), writeable := decide (writeable ≠ 0),
        executable := decide (executable ≠ 0),
        as_vbase1 := vaddr &&& PAGE_FRAME,
        as_npages1 :=
          (u32 (u32 (sz + (vaddr &&& bnot32 PAGE_FRAME)) + PAGE_SIZE - 1) &&& PAGE_FRAME) /
            PAGE_SIZE,
        as_pbase1 := kmalloc_table kmallocOk
          ((u32 (u32 (sz + (vaddr &&& bnot32 PAGE_FRAME)) + PAGE_SIZE - 1) &&& PAGE_FRAME) /
            PAGE_SIZE) }) := by
  unfold as_define_region
  simp only [h1, if_true]

/-- A call of `as_define_region` that finds region 1 set and region 2 unset records its
values in region 2. -/
theorem as_define_region_second (EUNIMP : Nat) (kmallocOk : Bool) (as : addrspace)
    (vaddr sz : Nat) (readable writeable executable : Int) (h1 : as.as_vbase1 ≠ 0)
    (h2 : as.as_vbase2 = 0) :
    as_define_region EUNIMP kmallocOk as vaddr sz readable writeable executable =
      (0, { as with
        readable := decide (readable ≠ 0), writeable := decide (writeable ≠ 0),
        executable := decide (executable ≠ 0),
        as_vbase2 := vaddr &&& PAGE_FRAME,
        as_npages2 :=
          (u32 (u32 (sz + (vaddr &&& bnot32 PAGE_FRAME)) + PAGE_SIZE - 1) &&& PAGE_FRAME) /
            PAGE_SIZE,
        as_pbase2 := kmalloc_table kmallocOk
          ((u32 (u32 (sz + (vaddr &&& bnot32 PAGE_FRAME)) + PAGE_SIZE - 1) &&& PAGE_FRAME) /
            PAGE_SIZE) }) := by
  unfold as_define_region
  simp only [h1, h2, if_true, if_false]

/-- What `as_create` leaves in the block it was given. -/
theorem as_create_fresh (raw : Option addrspace) (as : addrspace)
    (hc : as_create raw = some as) :
    as.as_vbase1 = 0 ∧ as.as_npages1 = 0 ∧ as.as_pbase1 = none ∧
    as.as_vbase2 = 0 ∧ as.as_npages2 = 0 ∧ as.as_pbase2 = none ∧
    as.as_stackpbase = none ∧ as.complete = false := by
  unfold as_create at hc
  cases raw with
  | none => cases hc
  | some a =>
    simp only [Option.some.injEq] at hc
    rw [← hc]
    exact ⟨rfl, rfl, rfl, rfl, rfl, rfl, rfl, rfl⟩

/-- **C25 (as stated, refuted).** A fresh address space, a first region requested at
base `0x123` (100 bytes) and a second at `0x400000` (8192 bytes): both calls return `0`,
but the first call's aligned base is `0`, which leaves region 1 looking unset, so the
second call is recorded as region 1 (2 pages at `0x400000`, in place of the 1 page the
first call recorded) and region 2 stays unset. -/
theorem as_define_region_twice_low_base :
    as_create (some ⟨7, some [5], 9, 11, none, 13, some [], true, true, true, false⟩) =
      some ⟨0, none, 0, 0, none, 0, none, false, true, true, false⟩ ∧
    as_define_region 1 true ⟨0, none, 0, 0, none, 0, none, false, true, true, false⟩
        291 100 1 0 1 =
      (0, ⟨0, some [0], 1, 0, none, 0, none, false, true, false, true⟩) ∧
    as_define_region 1 true ⟨0, some [0], 1, 0, none, 0, none, false, true, false, true⟩
        4194304 8192 1 1 0 =
      (0, ⟨4194304, some [0, 0], 2, 0, none, 0, none, false, true, true, false⟩) := by
  decide

/-- **C25 (amended).** For every freshly created address space and every two consecutive
`as_define_region` calls of which the first has a base of at least one page (so that
its aligned base is not `0`), with any sizes and permissions: both calls return `0`; the
first call's aligned base, page count and table are recorded as region 1 and are still
there after the second call; the second call's aligned base and page count (the one
the same call records when made alone on the fresh address space) are recorded as
region 2.  Where a size rounded up to whole pages fits a 32-bit word, the page count is
`ceil ((sz + v mod PAGE_SIZE) / PAGE_SIZE)`. -/
theorem as_define_region_twice (EUNIMP : Nat) (raw : Option addrspace) (as0 : addrspace)
    (k1 k2 : Bool) (v1 sz1 v2 sz2 : Nat) (r1 w1 x1 r2 w2 x2 : Int)
    (hc : as_create raw = some as0) (hv1 : v1 < 4294967296) (hv2 : v2 < 4294967296)
    (hbase : PAGE_SIZE ≤ v1) :
    (as_define_region EUNIMP k1 as0 v1 sz1 r1 w1 x1).1 = 0 ∧
    (as_define_region EUNIMP k2 (as_define_region EUNIMP k1 as0 v1 sz1 r1 w1 x1).2
      v2 sz2 r2 w2 x2).1 = 0 ∧
    (as_define_region EUNIMP k1 as0 v1 sz1 r1 w1 x1).2.as_vbase1 = v1 - v1 % PAGE_SIZE ∧
    (as_define_region EUNIMP k2 (as_define_region EUNIMP k1 as0 v1 sz1 r1 w1 x1).2
      v2 sz2 r2 w2 x2).2.as_vbase1 =
      (as_define_region EUNIMP k1 as0 v1 sz1 r1 w1 x1).2.as_vbase1 ∧
    (as_define_region EUNIMP k2 (as_define_region EUNIMP k1 as0 v1 sz1 r1 w1 x1).2
      v2 sz2 r2 w2 x2).2.as_npages1 =
      (as_define_region EUNIMP k1 as0 v1 sz1 r1 w1 x1).2.as_npages1 ∧
    (as_define_region EUNIMP k2 (as_define_region EUNIMP k1 as0 v1 sz1 r1 w1 x1).2
      v2 sz2 r2 w2 x2).2.as_pbase1 =
      (as_define_region EUNIMP k1 as0 v1 sz1 r1 w1 x1).2.as_pbase1 ∧
    (as_define_region EUNIMP k2 (as_define_region EUNIMP k1 as0 v1 sz1 r1 w1 x1).2
      v2 sz2 r2 w2 x2).2.as_vbase2 = v2 - v2 % PAGE_SIZE ∧
    (as_define_region EUNIMP k2 (as_define_region EUNIMP k1 as0 v1 sz1 r1 w1 x1).2
      v2 sz2 r2 w2 x2).2.as_npages2 =
      (as_define_region EUNIMP k2 as0 v2 sz2 r2 w2 x2).2.as_npages1 ∧
    (sz1 + v1 % PAGE_SIZE + PAGE_SIZE - 1 < 4294967296 →
      (as_define_region EUNIMP k1 as0 v1 sz1 r1 w1 x1).2.as_npages1 =
        (sz1 + v1 % PAGE_SIZE + PAGE_SIZE - 1) / PAGE_SIZE) ∧
    (sz2 + v2 % PAGE_SIZE + PAGE_SIZE - 1 < 4294967296 →
      (as_define_region EUNIMP k2 (as_define_region EUNIMP k1 as0 v1 sz1 r1 w1 x1).2
        v2 sz2 r2 w2 x2).2.as_npages2 = (sz2 + v2 % PAGE_SIZE + PAGE_SIZE - 1) / PAGE_SIZE) := by
  obtain ⟨hf1, _, _, hf2, _, _, _, _⟩ := as_create_fresh raw as0 hc
  have hb1 := land_PAGE_FRAME v1 hv1
  have hb2 := land_PAGE_FRAME v2 hv2
  have hnz : v1 &&& PAGE_FRAME ≠ 0 := by
    rw [hb1]
    unfold PAGE_SIZE at *
    omega
  have e1 := as_define_region_first EUNIMP k1 as0 v1 sz1 r1 w1 x1 hf1
  have e3 := as_define_region_first EUNIMP k2 as0 v2 sz2 r2 w2 x2 hf1
  rw [e1, e3]
  have e2 := as_define_region_second EUNIMP k2
    { as0 with
      readable := decide (r1 ≠ 0), writeable := decide (w1 ≠ 0),
      executable := decide (x1 ≠ 0),
      as_vbase1 := v1 &&& PAGE_FRAME,
      as_npages1 :=
        (u32 (u32 (sz1 + (v1 &&& bnot32 PAGE_FRAME)) + PAGE_SIZE - 1) &&& PAGE_FRAME) /
          PAGE_SIZE,
      as_pbase1 := kmalloc_table k1
        ((u32 (u32 (sz1 + (v1 &&& bnot32 PAGE_FRAME)) + PAGE_SIZE - 1) &&& PAGE_FRAME) /
          PAGE_SIZE) } v2 sz2 r2 w2 x2 hnz hf2
  rw [e2]
  refine ⟨rfl, rfl, hb1, rfl, rfl, rfl, hb2, rfl, fun hfit => ?_, fun hfit => ?_⟩
  · exact (as_define_region_geometry v1 sz1 hv1 hfit).2
  · exact (as_define_region_geometry v2 sz2 hv2 hfit).2

/-- Witness for the amended C25: 5000 bytes requested at `0x400123`, then one page at
`0x10000000`, on a fresh address space. -/
theorem as_define_region_twice_witness :
    (as_define_region 1 true ⟨0, none, 0, 0, none, 0, none, false, true, true, false⟩ 4194595 5000 1 0 1).1 = 0 ∧
    (as_define_region 1 true
      (as_define_region 1 true ⟨0, none, 0, 0, none, 0, none, false, true, true, false⟩ 4194595 5000 1 0 1).2
      268435456 4096 1 1 0).1 = 0 ∧
    (as_define_region 1 true ⟨0, none, 0, 0, none, 0, none, false, true, true, false⟩ 4194595 5000 1 0 1).2.as_vbase1 =
      4194595 - 4194595 % PAGE_SIZE ∧
    (as_define_region 1 true
      (as_define_region 1 true ⟨0, none, 0, 0, none, 0, none, false, true, true, false⟩ 4194595 5000 1 0 1).2
      268435456 4096 1 1 0).2.as_vbase1 =
      (as_define_region 1 true ⟨0, none, 0, 0, none, 0, none, false, true, true, false⟩ 4194595 5000 1 0 1).2.as_vbase1 ∧
    (as_define_region 1 true
      (as_define_region 1 true ⟨0, none, 0, 0, none, 0, none, false, true, true, false⟩ 4194595 5000 1 0 1).2
      268435456 4096 1 1 0).2.as_npages1 =
      (as_define_region 1 true ⟨0, none, 0, 0, none, 0, none, false, true, true, false⟩ 4194595 5000 1 0 1).2.as_npages1 ∧
    (as_define_region 1 true
      (as_define_region 1 true ⟨0, none, 0, 0, none, 0, none, false, true, true, false⟩ 4194595 5000 1 0 1).2
      268435456 4096 1 1 0).2.as_pbase1 =
      (as_define_region 1 true ⟨0, none, 0, 0, none, 0, none, false, true, true, false⟩ 4194595 5000 1 0 1).2.as_pbase1 ∧
    (as_define_region 1 true
      (as_define_region 1 true ⟨0, none, 0, 0, none, 0, none, false, true, true, false⟩ 4194595 5000 1 0 1).2
      268435456 4096 1 1 0).2.as_vbase2 = 268435456 - 268435456 % PAGE_SIZE ∧
    (as_define_region 1 true
      (as_define_region 1 true ⟨0, none, 0, 0, none, 0, none, false, true, true, false⟩ 4194595 5000 1 0 1).2
      268435456 4096 1 1 0).2.as_npages2 =
      (as_define_region 1 true ⟨0, none, 0, 0, none, 0, none, false, true, true, false⟩ 268435456 4096 1 1 0).2.as_npages1 ∧
    (5000 + 4194595 % PAGE_SIZE + PAGE_SIZE - 1 < 4294967296 →
      (as_define_region 1 true ⟨0, none, 0, 0, none, 0, none, false, true, true, false⟩ 4194595 5000 1 0 1).2.as_npages1 =
        (5000 + 4194595 % PAGE_SIZE + PAGE_SIZE - 1) / PAGE_SIZE) ∧
    (4096 + 268435456 % PAGE_SIZE + PAGE_SIZE - 1 < 4294967296 →
      (as_define_region 1 true
      (as_define_region 1 true ⟨0, none, 0, 0, none, 0, none, false, true, true, false⟩ 4194595 5000 1 0 1).2
      268435456 4096 1 1 0).2.as_npages2 =
        (4096 + 268435456 % PAGE_SIZE + PAGE_SIZE - 1) / PAGE_SIZE) :=
  as_define_region_twice 1
    (some ⟨7, some [5], 9, 11, none, 13, some [], true, true, true, false⟩)
    ⟨0, none, 0, 0, none, 0, none, false, true, true, false⟩ true true 4194595 5000 268435456 4096
    1 0 1 1 1 0 (by decide) (by decide) (by decide) (by decide)

/-! ## Freeing an address that is not the start of a live run -/

theorem getppages_startaddr (ENOMEM : Nat) (vm : VM) (npages : Nat) :
    (getppages ENOMEM vm npages).2.startaddr = vm.startaddr := by
  unfold getppages
  simp only
  split <;> rfl

theorem free_kpages_startaddr (vm : VM) (addr : Nat) :
    (free_kpages vm addr).startaddr = vm.startaddr := by
  unfold free_kpages
  split
  · rfl
  · split <;> rfl

theorem Sys.run_startaddr (ENOMEM : Nat) (cs : List Call) :
    ∀ σ : Sys, (σ.run ENOMEM cs).vm.startaddr = σ.vm.startaddr := by
  induction cs with
  | nil =>
    intro σ
    rfl
  | cons c cs ih =>
    intro σ
    simp only [Sys.run]
    rw [ih]
    cases c with
    | allocate n =>
      simp only [Sys.step]
      split <;> exact getppages_startaddr ENOMEM σ.vm n
    | free addr =>
      exact free_kpages_startaddr σ.vm addr

/-- **C26 (as stated, refuted).** Ten frames at `0x2000`, after `getppages(4)` and
`getppages(3)`: the runs `(0, 4)` and `(4, 3)` are live.  `free_kpages` called with the
kernel address of frame 2, an interior frame of the first run, returns normally (it has
no abort path) with the tags of frames 2 to 5 cleared: frames 0 and 1 still carry the
tag 4, and frames 4 and 5 of the second, still live, run are marked free. -/
theorem free_kpages_interior_corrupts :
    ((Sys.boot 10 8192).run 3 [.allocate 4, .allocate 3]).vm =
      ⟨[4, 4, 4, 4, 3, 3, 3, 0, 0, 0], 8192⟩ ∧
    ((Sys.boot 10 8192).run 3 [.allocate 4, .allocate 3]).live = [(0, 4), (4, 3)] ∧
    PADDR_TO_KVADDR (8192 + 2 * PAGE_SIZE) = 2147500032 ∧
    free_kpages ((Sys.boot 10 8192).run 3 [.allocate 4, .allocate 3]).vm 2147500032 =
      ⟨[4, 4, 0, 0, 0, 0, 3, 0, 0, 0], 8192⟩ := by
  decide

/-- **C26 (amended).** For every frame table reached from boot by allocator calls that
respect the interface contract: `free_kpages` given the address of a frame of no live
run leaves every tag unchanged; given the address of an interior frame `j` of a live run
of length `k`, it does not abort but stores `0` in the `k` tags from `j` on (the rest of
the run and the frames after it, as far as the table reaches), so that the tag of `j`
goes from `k` to `0`, and it leaves the other tags as they are. -/
theorem free_kpages_not_run_start (ENOMEM totalFrames startaddr : Nat) (cs : List Call)
    (hE : ENOMEM % PAGE_SIZE ≠ 0) (hwf : (Sys.boot totalFrames startaddr).vm.WF)
    (hvalid : (Sys.boot totalFrames startaddr).Valid ENOMEM cs) :
    (∀ j, j < totalFrames →
      (∀ r ∈ ((Sys.boot totalFrames startaddr).run ENOMEM cs).live,
        ¬ (r.1 ≤ j ∧ j < r.1 + r.2)) →
      free_kpages ((Sys.boot totalFrames startaddr).run ENOMEM cs).vm
          (PADDR_TO_KVADDR (startaddr + j * PAGE_SIZE)) =
        ((Sys.boot totalFrames startaddr).run ENOMEM cs).vm) ∧
    (∀ r ∈ ((Sys.boot totalFrames startaddr).run ENOMEM cs).live,
      ∀ j, r.1 < j → j < r.1 + r.2 →
        free_kpages ((Sys.boot totalFrames startaddr).run ENOMEM cs).vm
            (PADDR_TO_KVADDR (startaddr + j * PAGE_SIZE)) =
          ⟨fillRun ((Sys.boot totalFrames startaddr).run ENOMEM cs).vm.coremap j 0 r.2,
            startaddr⟩ ∧
        ((Sys.boot totalFrames startaddr).run ENOMEM cs).vm.coremap[j]? = some (r.2 : Int) ∧
        (free_kpages ((Sys.boot totalFrames startaddr).run ENOMEM cs).vm
            (PADDR_TO_KVADDR (startaddr + j * PAGE_SIZE))).coremap[j]? = some 0 ∧
        (∀ i, (i < j ∨ j + r.2 ≤ i) →
          (free_kpages ((Sys.boot totalFrames startaddr).run ENOMEM cs).vm
              (PADDR_TO_KVADDR (startaddr + j * PAGE_SIZE))).coremap[i]? =
            ((Sys.boot totalFrames startaddr).run ENOMEM cs).vm.coremap[i]?)) := by
  have hinv := Sys.Inv.run ENOMEM hE cs _ (Sys.Inv.boot totalFrames startaddr hwf) hvalid
  have hlen := Sys.run_length ENOMEM hE cs _ (Sys.Inv.boot totalFrames startaddr hwf) hvalid
  have hlen2 : ((Sys.boot totalFrames startaddr).run ENOMEM cs).vm.coremap.length =
      totalFrames := by
    rw [hlen]
    simp [Sys.boot]
  have hsa : ((Sys.boot totalFrames startaddr).run ENOMEM cs).vm.startaddr = startaddr :=
    Sys.run_startaddr ENOMEM cs _
  generalize (Sys.boot totalFrames startaddr).run ENOMEM cs = σ at hinv hlen2 hsa ⊢
  have hwf2 := hinv.wf
  have haddr : ∀ j, j < totalFrames → startaddr + j * PAGE_SIZE = σ.vm.frameAddr j := by
    intro j hj
    rw [σ.vm.frameAddr_eq hwf2 j (by omega), hsa]
  refine ⟨?_, ?_⟩
  · intro j hj hno
    have htag : σ.vm.coremap[j]? = some 0 := by
      cases hget : σ.vm.coremap[j]? with
      | none =>
        rw [List.getElem?_eq_none_iff] at hget
        omega
      | some t =>
        by_cases h0 : t = 0
        · rw [h0]
        · obtain ⟨r, hr, h1, h2⟩ := hinv.covered j t hget h0
          exact absurd ⟨h1, h2⟩ (hno r hr)
    rw [haddr j hj, free_kpages_frame σ.vm hwf2 j 0 htag]
    rfl
  · intro r hr j h1 h2
    obtain ⟨hpos, hrun⟩ := hinv.tagged r hr
    have hb := hrun.tagged_le_length hpos
    have htag : σ.vm.coremap[j]? = some (r.2 : Int) := by
      have := hrun (j - r.1) (by omega)
      rw [show r.1 + (j - r.1) = j by omega] at this
      exact this
    have heq := free_kpages_frame σ.vm hwf2 j r.2 htag
    rw [Int.toNat_ofNat] at heq
    rw [haddr j (by omega), heq, hsa]
    refine ⟨rfl, htag, ?_, ?_⟩
    · simp only
      rw [fillRun_get, if_pos ⟨le_refl _, by omega, by omega⟩]
    · intro i hi
      simp only
      rw [fillRun_get, if_neg (by omega)]

/-- Witness for the amended C26: eight frames; after `getppages(2)`, `getppages(3)` and
`getppages(1)` the runs `(0, 2)`, `(2, 3)` and `(5, 1)` are live and frames 6 and 7 are
free. -/
theorem free_kpages_not_run_start_witness :
    (∀ j, j < 8 →
      (∀ r ∈ ((Sys.boot 8 8192).run 3 [.allocate 2, .allocate 3, .allocate 1]).live,
        ¬ (r.1 ≤ j ∧ j < r.1 + r.2)) →
      free_kpages ((Sys.boot 8 8192).run 3 [.allocate 2, .allocate 3, .allocate 1]).vm
          (PADDR_TO_KVADDR (8192 + j * PAGE_SIZE)) =
        ((Sys.boot 8 8192).run 3 [.allocate 2, .allocate 3, .allocate 1]).vm) ∧
    (∀ r ∈ ((Sys.boot 8 8192).run 3 [.allocate 2, .allocate 3, .allocate 1]).live,
      ∀ j, r.1 < j → j < r.1 + r.2 →
        free_kpages ((Sys.boot 8 8192).run 3 [.allocate 2, .allocate 3, .allocate 1]).vm
            (PADDR_TO_KVADDR (8192 + j * PAGE_SIZE)) =
          ⟨fillRun ((Sys.boot 8 8192).run 3 [.allocate 2, .allocate 3, .allocate 1]).vm.coremap
            j 0 r.2, 8192⟩ ∧
        ((Sys.boot 8 8192).run 3 [.allocate 2, .allocate 3, .allocate 1]).vm.coremap[j]? =
          some (r.2 : Int) ∧
        (free_kpages ((Sys.boot 8 8192).run 3 [.allocate 2, .allocate 3, .allocate 1]).vm
            (PADDR_TO_KVADDR (8192 + j * PAGE_SIZE))).coremap[j]? = some 0 ∧
        (∀ i, (i < j ∨ j + r.2 ≤ i) →
          (free_kpages ((Sys.boot 8 8192).run 3 [.allocate 2, .allocate 3, .allocate 1]).vm
              (PADDR_TO_KVADDR (8192 + j * PAGE_SIZE))).coremap[i]? =
            ((Sys.boot 8 8192).run 3
              [.allocate 2, .allocate 3, .allocate 1]).vm.coremap[i]?)) :=
  free_kpages_not_run_start 3 8 8192 [.allocate 2, .allocate 3, .allocate 1] (by decide)
    (by decide) (by decide)

/-! ## Boot layout -/

theorem vm_bootstrap_align_spec :
    ∀ (fuel lo target : Nat), target % PAGE_SIZE = 0 → lo ≤ target →
      target < lo + PAGE_SIZE → target < 4294967296 → target - lo < fuel →
      vm_bootstrap_align fuel lo = some target := by
  intro fuel
  induction fuel with
  | zero =>
    intro lo target _ _ _ _ h
    omega
  | succ f ih =>
    intro lo target ht hle hlt hbig hfuel
    simp only [vm_bootstrap_align]
    by_cases hlo : lo % PAGE_SIZE = 0
    · have heq : lo = target := by
        unfold PAGE_SIZE at *
        omega
      subst heq
      rw [if_neg (fun h => h hlo)]
    · have hu : u32 (lo + 1) = lo + 1 := by
        unfold u32
        unfold PAGE_SIZE at *
        omega
      simp only [ne_eq, hlo, not_false_eq_true, if_true, hu]
      apply ih (lo + 1) target ht
      · unfold PAGE_SIZE at *
        omega
      · omega
      · exact hbig
      · unfold PAGE_SIZE at *
        omega

/-- A table cleared over its whole length holds `0` everywhere. -/
theorem fillRun_all (cm : List Int) : fillRun cm 0 0 cm.length = List.replicate cm.length 0 := by
  apply List.ext_getElem?
  intro j
  rw [fillRun_get, List.getElem?_replicate]
  by_cases hj : j < cm.length
  · rw [if_pos ⟨Nat.zero_le _, by omega, hj⟩, if_pos hj]
  · rw [if_neg (by omega), if_neg hj, List.getElem?_eq_none (by omega)]

/-- **C27.** For every page-aligned RAM range `[lo, hi)` with `lo ≤ hi` (32-bit
addresses) reported at boot and whatever the memory held: `vm_bootstrap` returns (the
alignment loop ends within `PAGE_SIZE` tests), with `coremap` pointing at `lo`;
`startaddr` is page-aligned, the table has `totalFrames = (hi - startaddr) / PAGE_SIZE`
entries, all `0`; the managed frames `[startaddr, startaddr + totalFrames * PAGE_SIZE)`
lie inside `[lo, hi]`; and the table's own storage, `totalFrames` entries of 4 bytes
from `lo`, ends at or before `startaddr`.  When the RAM lies in the part of physical
memory that the kernel segment maps, the layout is the one the allocator relies on. -/
theorem vm_bootstrap_layout (fuel lo hi : Nat) (raw : Nat → Int)
    (hlo : lo % PAGE_SIZE = 0) (hhi : hi % PAGE_SIZE = 0) (hle : lo ≤ hi)
    (hbig : hi < 4294967296) (hfuel : PAGE_SIZE ≤ fuel) :
    ∃ vm, vm_bootstrap fuel lo hi raw = some (PADDR_TO_KVADDR lo, vm) ∧
      vm.startaddr % PAGE_SIZE = 0 ∧
      vm.totalFrames = (hi - vm.startaddr) / PAGE_SIZE ∧
      vm.coremap = List.replicate vm.totalFrames 0 ∧
      (∀ i, i < vm.totalFrames → vm.coremap[i]? = some 0) ∧
      lo ≤ vm.startaddr ∧ vm.startaddr + vm.totalFrames * PAGE_SIZE ≤ hi ∧
      lo + 4 * vm.totalFrames ≤ vm.startaddr ∧
      (hi ≤ MIPS_KSEG0 → vm.WF) := by
  have e0 : u32 (4294967296 + hi - lo) / PAGE_SIZE = (hi - lo) / PAGE_SIZE := by
    unfold u32
    have : (4294967296 + hi - lo) % 4294967296 = hi - lo := by omega
    rw [this]
  have e1 : u32 (lo + u32 ((hi - lo) / PAGE_SIZE * 4)) = lo + (hi - lo) / PAGE_SIZE * 4 := by
    unfold u32
    unfold PAGE_SIZE at *
    omega
  obtain ⟨target, htdef⟩ : ∃ target,
      target = (lo + (hi - lo) / PAGE_SIZE * 4 + (PAGE_SIZE - 1)) / PAGE_SIZE * PAGE_SIZE :=
    ⟨_, rfl⟩
  have ht1 : target % PAGE_SIZE = 0 := by
    rw [htdef]
    exact Nat.mul_mod_left _ _
  have ht2 : lo + (hi - lo) / PAGE_SIZE * 4 ≤ target := by
    unfold PAGE_SIZE at *
    omega
  have ht3 : target < lo + (hi - lo) / PAGE_SIZE * 4 + PAGE_SIZE := by
    unfold PAGE_SIZE at *
    omega
  have ht4 : target ≤ hi := by
    unfold PAGE_SIZE at *
    omega
  have halign := vm_bootstrap_align_spec fuel (lo + (hi - lo) / PAGE_SIZE * 4) target ht1 ht2
    ht3 (by omega) (by omega)
  have e2 : u32 (4294967296 + hi - target) / PAGE_SIZE = (hi - target) / PAGE_SIZE := by
    unfold u32
    have : (4294967296 + hi - target) % 4294967296 = hi - target := by omega
    rw [this]
  obtain ⟨cm, hcm⟩ : ∃ cm, cm = fillRun ((List.range ((hi - target) / PAGE_SIZE)).map raw) 0 0
      ((hi - target) / PAGE_SIZE) := ⟨_, rfl⟩
  have hlen : cm.length = (hi - target) / PAGE_SIZE := by
    rw [hcm, length_fillRun, List.length_map, List.length_range]
  have hall : cm = List.replicate ((hi - target) / PAGE_SIZE) 0 := by
    have h := fillRun_all ((List.range ((hi - target) / PAGE_SIZE)).map raw)
    rw [List.length_map, List.length_range] at h
    rw [hcm]
    exact h
  refine ⟨⟨cm, target⟩, ?_, ht1, hlen, ?_, ?_, ?_, ?_, ?_, ?_⟩
  · unfold vm_bootstrap
    simp only [e0, e1, halign, e2, hcm]
  · show cm = List.replicate cm.length 0
    rw [hlen]
    exact hall
  · intro i hi2
    have hi3 : i < (hi - target) / PAGE_SIZE := by
      rw [← hlen]
      exact hi2
    show cm[i]? = some 0
    rw [hall, List.getElem?_replicate, if_pos hi3]
  · show lo ≤ target
    omega
  · show target + cm.length * PAGE_SIZE ≤ hi
    rw [hlen]
    unfold PAGE_SIZE at *
    omega
  · show lo + 4 * cm.length ≤ target
    rw [hlen]
    unfold PAGE_SIZE at *
    omega
  · intro hk
    refine ⟨ht1, ?_⟩
    show target + cm.length * PAGE_SIZE ≤ MIPS_KSEG0
    rw [hlen]
    unfold PAGE_SIZE MIPS_KSEG0 at *
    omega

/-- Witness for C27: RAM from `0x30000` to `0x80000`. -/
theorem vm_bootstrap_layout_witness :
    ∃ vm, vm_bootstrap 4096 196608 524288 (fun _ => 7) = some (PADDR_TO_KVADDR 196608, vm) ∧
      vm.startaddr % PAGE_SIZE = 0 ∧
      vm.totalFrames = (524288 - vm.startaddr) / PAGE_SIZE ∧
      vm.coremap = List.replicate vm.totalFrames 0 ∧
      (∀ i, i < vm.totalFrames → vm.coremap[i]? = some 0) ∧
      196608 ≤ vm.startaddr ∧ vm.startaddr + vm.totalFrames * PAGE_SIZE ≤ 524288 ∧
      196608 + 4 * vm.totalFrames ≤ vm.startaddr ∧
      (524288 ≤ MIPS_KSEG0 → vm.WF) :=
  vm_bootstrap_layout 4096 196608 524288 (fun _ => 7) (by decide) (by decide) (by decide)
    (by decide) (by decide)

/-! ## The copy starts with `complete` clear -/

/-- Whenever `as_prepare_load` returns, the `complete` flag is what it was. -/
theorem as_prepare_load_complete (ENOMEM : Nat) (kmallocOk : Bool) (as : addrspace) (vm : VM)
    (mem : Mem) (r : Nat × addrspace × VM × Mem)
    (h : as_prepare_load ENOMEM kmallocOk as vm mem = some r) :
    r.2.1.complete = as.complete := by
  unfold as_prepare_load at h
  split at h
  · simp only [Option.isNone_some, Bool.false_eq_true, if_false] at h
    split at h
    · injection h with h1
      rw [← h1]
    · cases h
  · cases h

/-- **C28.** For every source address space `old`, whatever its `complete` flag: when
`as_copy` returns `0`, the address space it produced has `complete = false`; hence, once
that address space is set up the way `vm_fault` asserts, every Read or Write fault on a
page of its region 1 installs an entry with the dirty bit set. -/
theorem as_copy_not_complete (ENOMEM : Nat) (raw : Option addrspace) (k1 k2 kS : Bool)
    (old new : addrspace) (vm vm2 : VM) (mem : Mem)
    (hret : (as_copy ENOMEM raw k1 k2 kS old vm mem).map
      (fun r => (r.1, r.2.1, r.2.2.1)) = some (0, some new, vm2)) :
    new.complete = false ∧
    ∀ (EFAULT EINVAL random : Nat) (tlb : TLB) (faulttype : Int) (fa : Nat), new.SetUp →
      (faulttype = VM_FAULT_READ ∨ faulttype = VM_FAULT_WRITE) →
      tlb.length = NUM_TLB → random < NUM_TLB → new.inRegion1 (fa &&& PAGE_FRAME) →
      ∃ slot elo tlb2, slot < NUM_TLB ∧
        vm_fault EFAULT EINVAL random (some (some new)) tlb faulttype fa = some (0, tlb2) ∧
        tlb2[slot]? = some (fa &&& PAGE_FRAME, elo) ∧
        elo &&& TLBLO_DIRTY = TLBLO_DIRTY := by
  have hcomplete : new.complete = false := by
    cases hres : as_copy ENOMEM raw k1 k2 kS old vm mem with
    | none => rw [hres] at hret; cases hret
    | some r =>
      obtain ⟨rc, ret, vmr, mem3⟩ := r
      rw [hres] at hret
      simp only [Option.map_some', Option.some.injEq, Prod.mk.injEq] at hret
      obtain ⟨hrc, hnew, hvm⟩ := hret
      subst hrc
      subst hnew
      subst hvm
      obtain ⟨new0, mem2, _, _, _, _, _, hc, hp, _, _, _, _, _, _⟩ :=
        as_copy_ok ENOMEM raw k1 k2 kS old new vm vmr mem mem3 hres
      have h1 := as_prepare_load_complete ENOMEM kS _ vm mem _ hp
      obtain ⟨_, _, _, _, _, _, _, h2⟩ := as_create_fresh raw new0 hc
      exact h1.trans h2
  refine ⟨hcomplete, ?_⟩
  intro EFAULT EINVAL random tlb faulttype fa hset hty hlen hrand hin
  obtain ⟨slot, paddr, elo, hslot, hfault, _, _, hb3, _, _, _⟩ :=
    vm_fault_core EFAULT EINVAL random new tlb faulttype fa _ rfl hset hty hrand (Or.inl hin)
  refine ⟨slot, elo, _, hslot, hfault, ?_, ?_⟩
  · rw [List.getElem?_set]
    simp only [if_true]
    rw [if_pos (by omega)]
  · rw [hb3, if_neg]
    intro h
    rw [hcomplete] at h
    exact Bool.false_ne_true h.1

/-- Witness for C28: the source has `complete` set; its copy has not, and a write fault
at `0x400000`, in region 1 of the copy, installs a dirty entry in a flushed cache. -/
theorem as_copy_not_complete_witness :
    (⟨4194304, some [90112], 1, 268435456, some [94208], 1,
      some [98304, 102400, 106496, 110592, 114688, 118784, 122880, 126976, 131072, 135168,
        139264, 143360], false, true, true, false⟩ : addrspace).complete = false ∧
    ∃ slot elo tlb2, slot < NUM_TLB ∧
      vm_fault 6 8 5
        (some (some ⟨4194304, some [90112], 1, 268435456, some [94208], 1,
          some [98304, 102400, 106496, 110592, 114688, 118784, 122880, 126976, 131072,
            135168, 139264, 143360], false, true, true, false⟩))
        tlb_flushed VM_FAULT_WRITE 4194304 = some (0, tlb2) ∧
      tlb2[slot]? = some (4194304 &&& PAGE_FRAME, elo) ∧
      elo &&& TLBLO_DIRTY = TLBLO_DIRTY :=
  ⟨(as_copy_not_complete 3
      (some ⟨7, some [5], 9, 11, none, 13, some [], true, true, true, false⟩) true true true
      ⟨4194304, some [12288], 1, 268435456, some [16384], 1,
        some [28672, 32768, 36864, 40960, 45056, 49152, 53248, 57344, 61440, 65536, 69632,
          73728], true, true, true, false⟩
      ⟨4194304, some [90112], 1, 268435456, some [94208], 1,
        some [98304, 102400, 106496, 110592, 114688, 118784, 122880, 126976, 131072, 135168,
          139264, 143360], false, true, true, false⟩
      ⟨[1, 1, 1, 2, 2, 1, 1, 1, 1, 1, 1, 1, 1, 1, 1, 1, 1, 3, 3, 3, 0, 0, 0, 0, 0, 0, 0, 0,
        0, 0, 0, 0, 0, 0, 0], 8192⟩
      ⟨[1, 1, 1, 2, 2, 1, 1, 1, 1, 1, 1, 1, 1, 1, 1, 1, 1, 3, 3, 3, 1, 1, 1, 1, 1, 1, 1, 1,
        1, 1, 1, 1, 1, 1, 0], 8192⟩
      (fun _ => 255) (by decide)).1,
   (as_copy_not_complete 3
      (some ⟨7, some [5], 9, 11, none, 13, some [], true, true, true, false⟩) true true true
      ⟨4194304, some [12288], 1, 268435456, some [16384], 1,
        some [28672, 32768, 36864, 40960, 45056, 49152, 53248, 57344, 61440, 65536, 69632,
          73728], true, true, true, false⟩
      ⟨4194304, some [90112], 1, 268435456, some [94208], 1,
        some [98304, 102400, 106496, 110592, 114688, 118784, 122880, 126976, 131072, 135168,
          139264, 143360], false, true, true, false⟩
      ⟨[1, 1, 1, 2, 2, 1, 1, 1, 1, 1, 1, 1, 1, 1, 1, 1, 1, 3, 3, 3, 0, 0, 0, 0, 0, 0, 0, 0,
        0, 0, 0, 0, 0, 0, 0], 8192⟩
      ⟨[1, 1, 1, 2, 2, 1, 1, 1, 1, 1, 1, 1, 1, 1, 1, 1, 1, 3, 3, 3, 1, 1, 1, 1, 1, 1, 1, 1,
        1, 1, 1, 1, 1, 1, 0], 8192⟩
      (fun _ => 255) (by decide)).2 6 8 5 tlb_flushed VM_FAULT_WRITE 4194304 (by decide)
      (by decide) (by decide) (by decide) (by decide)⟩

/-! ## The intersection: vehicles inside are pairwise compatible -/

theorem Compatible.symm {a b : Vehicle} (h : Compatible a b) : Compatible b a := by
  rcases h with h | ⟨h1, h2⟩ | ⟨h1, h2⟩
  · exact Or.inl h.symm
  · exact Or.inr (Or.inl ⟨h2.symm, h1.symm⟩)
  · exact Or.inr (Or.inr ⟨fun e => h1 e.symm, h2.symm⟩)

theorem can_enter_loop_spec (v : Vehicle) :
    ∀ vehicles : List Vehicle, can_enter_loop v vehicles = true →
      ∀ c ∈ vehicles, Compatible v c := by
  intro vehicles
  induction vehicles with
  | nil =>
    intro _ c hc
    cases hc
  | cons compare rest ih =>
    intro h c hc
    simp only [can_enter_loop] at h
    split at h
    · next hcond =>
      rcases List.mem_cons.1 hc with e | hmem
      · rw [e]
        exact hcond
      · exact ih h c hmem
    · cases h

theorem can_enter_spec (vehicles : List Vehicle) (v : Vehicle)
    (h : can_enter vehicles v = true) : ∀ c ∈ vehicles, Compatible v c := by
  unfold can_enter at h
  split at h
  · next h0 =>
    intro c hc
    rw [List.length_eq_zero.1 h0] at hc
    cases hc
  · exact can_enter_loop_spec v vehicles h

theorem after_exit_loop_sublist (origin destination : Direction) :
    ∀ vehicles : List Vehicle,
      List.Sublist (after_exit_loop origin destination vehicles) vehicles := by
  intro vehicles
  induction vehicles with
  | nil => exact List.Sublist.slnil
  | cons v rest ih =>
    simp only [after_exit_loop]
    split
    · exact List.sublist_cons_self v rest
    · exact List.Sublist.cons₂ v ih

theorem Intersection.step_pairwise (vehicles : List Vehicle) (m : Move)
    (h : vehicles.Pairwise Compatible) : (Intersection.step vehicles m).Pairwise Compatible := by
  cases m with
  | enter origin destination =>
    simp only [Intersection.step, intersection_before_entry]
    split
    · next hc =>
      simp only [Option.getD_some]
      rw [List.pairwise_append]
      refine ⟨h, List.pairwise_singleton _ _, ?_⟩
      intro a ha b hb
      rw [List.mem_singleton] at hb
      rw [hb]
      exact (can_enter_spec vehicles _ hc a ha).symm
    · exact h
  | leave origin destination =>
    exact h.sublist (after_exit_loop_sublist origin destination vehicles)

theorem Intersection.run_pairwise (ms : List Move) :
    ∀ vehicles : List Vehicle, vehicles.Pairwise Compatible →
      (Intersection.run vehicles ms).Pairwise Compatible := by
  induction ms with
  | nil =>
    intro vehicles h
    exact h
  | cons m ms ih =>
    intro vehicles h
    exact ih _ (Intersection.step_pairwise vehicles m h)

/-- **C29.** Starting from the empty intersection, after every sequence of moves (a
vehicle is added by `intersection_before_entry` only when `can_enter` holds, and
`intersection_after_exit` removes the first vehicle with the given origin and
destination), any two vehicles at different positions of the array `vehicles` are
compatible: they share an origin, or each one's origin is the other's destination, or
they have different destinations and at least one of them makes a right turn. -/
theorem intersection_pairwise_compatible (ms : List Move) (i j : Nat) (a b : Vehicle) :
    i ≠ j → (Intersection.run [] ms)[i]? = some a → (Intersection.run [] ms)[j]? = some b →
    a.origin = b.origin ∨
    (a.origin = b.destination ∧ a.destination = b.origin) ∨
    (a.destination ≠ b.destination ∧ (right_turn a = true ∨ right_turn b = true)) := by
  intro hij ha hb
  have hp := Intersection.run_pairwise ms [] List.Pairwise.nil
  rw [List.pairwise_iff_getElem] at hp
  obtain ⟨hi, hai⟩ := List.getElem?_eq_some_iff.1 ha
  obtain ⟨hj, hbj⟩ := List.getElem?_eq_some_iff.1 hb
  rcases Nat.lt_or_gt_of_ne hij with hlt | hgt
  · have := hp i j hi hj hlt
    rw [hai, hbj] at this
    exact this
  · have := hp j i hj hi hgt
    rw [hai, hbj] at this
    exact this.symm

/-- Witness for C29: a north-to-south vehicle enters, an east-to-south one has to wait,
a south-to-north and a north-to-west one enter, the first one leaves; the two vehicles
left inside go to different destinations and the second turns right. -/
theorem intersection_pairwise_compatible_witness :
    (⟨Direction.south, Direction.north⟩ : Vehicle).origin =
        (⟨Direction.north, Direction.west⟩ : Vehicle).origin ∨
    ((⟨Direction.south, Direction.north⟩ : Vehicle).origin =
        (⟨Direction.north, Direction.west⟩ : Vehicle).destination ∧
      (⟨Direction.south, Direction.north⟩ : Vehicle).destination =
        (⟨Direction.north, Direction.west⟩ : Vehicle).origin) ∨
    ((⟨Direction.south, Direction.north⟩ : Vehicle).destination ≠
        (⟨Direction.north, Direction.west⟩ : Vehicle).destination ∧
      (right_turn ⟨Direction.south, Direction.north⟩ = true ∨
        right_turn ⟨Direction.north, Direction.west⟩ = true)) :=
  intersection_pairwise_compatible
    [.enter .north .south, .enter .east .south, .enter .south .north, .enter .north .west,
      .leave .north .south]
    0 1 ⟨Direction.south, Direction.north⟩ ⟨Direction.north, Direction.west⟩
    (by decide) (by decide) (by decide)

end OS350
